import Mathlib

/-!
# Termz: legal page detector and analysis orchestrator

A shallow embedding of `src/utils/detector.js` and `src/utils/ai-analyzer.js`.

* A JavaScript string is a list of `Char`, one per UTF-16 code unit, so `length` is
  `List.length`.
* A JavaScript number is a finite IEEE-754 double, `F64`; every arithmetic operation
  rounds its exact result to the nearest double (ties to even), see `F64.round`.
* A regular expression is a value of `Re`, run by a backtracking matcher.
-/

set_option maxRecDepth 1000000
set_option maxHeartbeats 4000000

/-! ## JavaScript strings -/

/-- A JavaScript string: its sequence of code units. -/
abbrev JSString := List Char

namespace JS

/-- The class `\s` of regular expressions, which is also the set removed by `trim`:
WhiteSpace and LineTerminator code units. -/
def isSpace (c : Char) : Bool :=
  let n := c.toNat
  (9 ≤ n && n ≤ 13) || n == 32 || n == 160 || n == 5760 || (8192 ≤ n && n ≤ 8202) ||
  n == 8232 || n == 8233 || n == 8239 || n == 8287 || n == 12288 || n == 65279

/-- The class `\w`: ASCII letters, digits and the underscore. -/
def isWord (c : Char) : Bool :=
  c.isAlphanum || c == '_'

/-- The lower case of one code unit. ASCII capitals become small letters, U+212A KELVIN
SIGN becomes `k`, and U+0130 becomes `i` followed by U+0307; in the Unicode case tables
these are the only code units whose lower case holds an ASCII code unit, and U+0130 is the
only one whose lower case is longer. Every other code unit is kept. For such a code unit
`toLowerCase` gives that code unit or another one outside ASCII (`é` for `É`), never
whitespace, and no definition of this development looks at a code unit outside ASCII
other than to ask whether it is whitespace. -/
def lowerUnit (c : Char) : JSString :=
  if c = '\u212A' then ['k']
  else if c = '\u0130' then ['i', '\u0307']
  else [c.toLower]

/-- `String.prototype.toLowerCase`. -/
def toLowerCase (s : JSString) : JSString := s.flatMap lowerUnit

/-- `String.prototype.includes`: `k` occurs in `s` as a contiguous run. -/
def includes (s k : JSString) : Bool := decide (k <:+: s)

/-- `String.prototype.trim`. -/
def trim (s : JSString) : JSString :=
  ((s.dropWhile isSpace).reverse.dropWhile isSpace).reverse

/-- The number of pieces of `s.split(/\s+/)`: one more than the number of maximal
whitespace runs in `s`. The flag says whether the previous code unit was whitespace. -/
def splitSpaceCount : Bool → JSString → Nat
  | _, [] => 1
  | inRun, c :: cs =>
    if isSpace c then (if inRun then 0 else 1) + splitSpaceCount true cs
    else splitSpaceCount false cs

end JS

/-! ## Regular expressions -/

/-- The regular expression constructs used by the patterns of the repository. -/
inductive Re where
  | eps
  | chr (c : Char)
  | set (cs : List Char)
  | space
  | wordb
  | seq (a b : Re)
  | alt (a b : Re)
  | opt (a : Re)
  | plus (a : Re)

namespace Re

/-- The literal text `s` as a regular expression. -/
def lit (s : String) : Re := s.toList.foldr (fun c r => seq (chr c) r) eps

/-- Concatenation of a list of regular expressions. -/
def cat (rs : List Re) : Re := rs.foldr seq eps

/-- Equality of a pattern character and an input code unit. With the `i` flag and no `u`
flag both are canonicalised by upper-casing, and a code unit outside ASCII never
canonicalises into ASCII, so an ASCII pattern character matches exactly its two cases. -/
def eqChar (ignoreCase : Bool) (p x : Char) : Bool :=
  if ignoreCase then p.toLower == x.toLower else p == x

/-- Whether the position between the previous code unit `prev` and the rest `s` is a word
boundary (`\b`). -/
def atBoundary (prev : Option Char) (s : JSString) : Bool :=
  (prev.map JS.isWord).getD false != (s.head?.map JS.isWord).getD false

/-- The repetition `a+`: `sts` are the positions reached after one or more rounds of
`f`; each may go on for another round (tried first, greedy) or stop. -/
def plusLoop (f : Option Char → JSString → List (Option Char × JSString)) :
    Nat → List (Option Char × JSString) → List (Option Char × JSString)
  | 0, sts => sts
  | n + 1, sts =>
    sts.flatMap fun st =>
      plusLoop f n ((f st.1 st.2).filter fun st2 => st2.2.length < st.2.length) ++ [st]

/-- All ways of matching `r` at a position, in backtracking order. A position is the
code unit before it (for `\b`) and the rest of the input. -/
def run (ignoreCase : Bool) : Re → Option Char → JSString → List (Option Char × JSString)
  | eps, p, s => [(p, s)]
  | chr _, _, [] => []
  | chr c, _, x :: s => if eqChar ignoreCase c x then [(some x, s)] else []
  | set _, _, [] => []
  | set cs, _, x :: s => if cs.any (fun c => eqChar ignoreCase c x) then [(some x, s)] else []
  | space, _, [] => []
  | space, _, x :: s => if JS.isSpace x then [(some x, s)] else []
  | wordb, p, s => if atBoundary p s then [(p, s)] else []
  | seq a b, p, s => (run ignoreCase a p s).flatMap fun st => run ignoreCase b st.1 st.2
  | alt a b, p, s => run ignoreCase a p s ++ run ignoreCase b p s
  | opt a, p, s => run ignoreCase a p s ++ [(p, s)]
  | plus a, p, s =>
    plusLoop (fun q t => run ignoreCase a q t) s.length (run ignoreCase a p s)

/-- Whether `r` matches starting at some position of the input from here on. -/
def search (ignoreCase : Bool) (r : Re) : Option Char → JSString → Bool
  | p, [] => !(run ignoreCase r p []).isEmpty
  | p, x :: s => !(run ignoreCase r p (x :: s)).isEmpty || search ignoreCase r (some x) s

end Re

/-- A regular expression literal: its source text (what `toString` gives), its body
and its `i` flag. None of the patterns has the `g` or `y` flag, so `test` is stateless. -/
structure Pattern where
  source : String
  re : Re
  ignoreCase : Bool

/-- `RegExp.prototype.test` on a string. -/
def Pattern.test (p : Pattern) (s : JSString) : Bool := Re.search p.ignoreCase p.re none s

/-! ## Numbers -/

/-- A finite IEEE-754 double, as the whole number of units of `2 ^ (-1074)` it is made of:
`2 ^ (-1074)` is the least positive double and every finite double is a multiple of it.
The doubles are the integers with at most 53 significant bits. The sign of zero is not
kept; infinities and `NaN` do not arise in this development. -/
structure F64 where
  units : Int
deriving DecidableEq, Repr

namespace F64

/-- The rational number a double denotes. -/
def toRat (x : F64) : ℚ := (x.units : ℚ) / ((Nat.pow 2 1074 : Nat) : ℚ)

instance : LE F64 := ⟨fun a b => a.units ≤ b.units⟩

instance : LT F64 := ⟨fun a b => a.units < b.units⟩

instance (a b : F64) : Decidable (a ≤ b) := inferInstanceAs (Decidable (a.units ≤ b.units))

instance (a b : F64) : Decidable (a < b) := inferInstanceAs (Decidable (a.units < b.units))

/-- The function `Math.min` on two numbers. -/
def min (a b : F64) : F64 := if a ≤ b then a else b

/-- The position of the leading bit of `n`: the `k` with `2 ^ k ≤ n < 2 ^ (k + 1)`, for
`0 < n < 2 ^ 4096`, found bit by bit from the top. -/
def log2 (n : Nat) : Nat :=
  [2048, 1024, 512, 256, 128, 64, 32, 16, 8, 4, 2, 1].foldl
    (fun k b => if Nat.pow 2 (k + b) ≤ n then k + b else k) 0

/-- The integer nearest to `n / d`, ties to the even one. -/
def roundNat (n d : Nat) : Nat :=
  let fl := n / d
  let r := n % d
  if 2 * r < d then fl
  else if d < 2 * r then fl + 1
  else if fl % 2 = 0 then fl else fl + 1

/-- The number of units of the double nearest to `p / q` units (round to nearest, ties to
even). Below `2 ^ 53` units every integer is a double, so the ratio is rounded to an
integer; above, 53 significant bits are kept: with `s + 53` bits in the integer part of
the ratio, it is rounded to a multiple of `2 ^ s`. -/
def roundUnits (p q : Nat) : Nat :=
  let fl := p / q
  if fl < Nat.pow 2 53 then roundNat p q
  else
    let s := log2 fl - 52
    roundNat p (q * Nat.pow 2 s) * Nat.pow 2 s

/-- The double nearest to `p / q` units, negated when `neg` is set. Numbers beyond the
largest double (which would round to `Infinity`) do not arise in this development. -/
def round (neg : Bool) (p q : Nat) : F64 :=
  let m : Int := roundUnits p q
  ⟨if neg then -m else m⟩

/-- A decimal literal of the source, such as `0.15` (`lit 15 100`): the double nearest to
`n / d`. -/
def lit (n d : Nat) : F64 := round false (n * Nat.pow 2 1074) d

/-- A natural number as a double. -/
def ofNat (n : Nat) : F64 := lit n 1

instance (n : Nat) : OfNat F64 n := ⟨ofNat n⟩

/-- The operator `+` on numbers: the exact sum, rounded. -/
def add (a b : F64) : F64 :=
  let s : Int := a.units + b.units
  round (decide (s < 0)) s.natAbs 1

/-- The operator `*` on numbers: the exact product, rounded. -/
def mul (a b : F64) : F64 :=
  let p : Int := a.units * b.units
  round (decide (p < 0)) p.natAbs (Nat.pow 2 1074)

/-- The operator `/` on numbers, for a divisor other than zero: the exact quotient,
rounded. -/
def div (a b : F64) : F64 :=
  round (decide (a.units < 0) != decide (b.units < 0)) (a.units.natAbs * Nat.pow 2 1074)
    b.units.natAbs

/-- The composition `parseFloat(x.toFixed(digits))` for `0 ≤ x < 10 ^ 21`: `toFixed` picks
the integer `n` with `n / 10 ^ digits` nearest to the exact value of `x` (the larger one
on a tie), which is the floor of `x * 10 ^ digits + 1 / 2`, and prints it in decimal;
`parseFloat` reads that decimal back as a double. -/
def toFixed (digits : Nat) (x : F64) : F64 :=
  let n := (2 * x.units.natAbs * Nat.pow 10 digits + Nat.pow 2 1074) / Nat.pow 2 1075
  lit n (Nat.pow 10 digits)

/-- The function `Math.ceil` on a number that is not negative. -/
def ceil (x : F64) : Nat := (x.units.natAbs + Nat.pow 2 1074 - 1) / Nat.pow 2 1074

end F64

/-! ## `src/utils/detector.js` -/

namespace Detector

open Re

/-- The optional separator `[-_]?`. -/
def sep : Re := opt (set ['-', '_'])

/-- URL patterns that indicate legal content. -/
def URL_PATTERNS : List Pattern := [
  ⟨"/privacy[-_]?policy/i", cat [lit "privacy", sep, lit "policy"], true⟩,
  ⟨"/terms[-_]?of[-_]?(service|use)/i",
    cat [lit "terms", sep, lit "of", sep, alt (lit "service") (lit "use")], true⟩,
  ⟨"/terms[-_]?and[-_]?conditions/i",
    cat [lit "terms", sep, lit "and", sep, lit "conditions"], true⟩,
  ⟨"/user[-_]?agreement/i", cat [lit "user", sep, lit "agreement"], true⟩,
  ⟨"/legal/i", lit "legal", true⟩,
  ⟨"/\\btos\\b/i", cat [wordb, lit "tos", wordb], true⟩,
  ⟨"/eula/i", lit "eula", true⟩,
  ⟨"/end[-_]?user[-_]?license/i", cat [lit "end", sep, lit "user", sep, lit "license"], true⟩,
  ⟨"/cookie[-_]?policy/i", cat [lit "cookie", sep, lit "policy"], true⟩,
  ⟨"/data[-_]?policy/i", cat [lit "data", sep, lit "policy"], true⟩,
  ⟨"/acceptable[-_]?use/i", cat [lit "acceptable", sep, lit "use"], true⟩,
  ⟨"/terms\\.html?/i", cat [lit "terms.htm", opt (chr 'l')], true⟩,
  ⟨"/privacy\\.html?/i", cat [lit "privacy.htm", opt (chr 'l')], true⟩,
  ⟨"/legal\\.html?/i", cat [lit "legal.htm", opt (chr 'l')], true⟩]

/-- Title patterns. -/
def TITLE_PATTERNS : List Pattern := [
  ⟨"/privacy\\s+policy/i", cat [lit "privacy", plus space, lit "policy"], true⟩,
  ⟨"/terms\\s+(of\\s+service|of\\s+use|and\\s+conditions)/i",
    cat [lit "terms", plus space,
      alt (cat [lit "of", plus space, lit "service"])
        (alt (cat [lit "of", plus space, lit "use"])
          (cat [lit "and", plus space, lit "conditions"]))], true⟩,
  ⟨"/user\\s+agreement/i", cat [lit "user", plus space, lit "agreement"], true⟩,
  ⟨"/legal\\s+(notice|information|terms)/i",
    cat [lit "legal", plus space,
      alt (lit "notice") (alt (lit "information") (lit "terms"))], true⟩,
  ⟨"/cookie\\s+policy/i", cat [lit "cookie", plus space, lit "policy"], true⟩,
  ⟨"/data\\s+policy/i", cat [lit "data", plus space, lit "policy"], true⟩,
  ⟨"/eula/i", lit "eula", true⟩,
  ⟨"/license\\s+agreement/i", cat [lit "license", plus space, lit "agreement"], true⟩]

/-- Legal terminology that commonly appears in legal documents. -/
def LEGAL_KEYWORDS : List String := [
  "hereby", "herein", "aforementioned", "wherefore", "notwithstanding", "indemnify",
  "indemnification", "liability", "warranties", "disclaim", "arbitration", "jurisdiction",
  "governing law", "force majeure", "intellectual property", "confidentiality",
  "termination", "personal data", "data collection", "third parties", "cookies",
  "user content", "acceptable use", "prohibited conduct"]

/-- Common section headers in legal documents. -/
def LEGAL_HEADERS : List Pattern := [
  ⟨"/acceptance of terms/i", lit "acceptance of terms", true⟩,
  ⟨"/scope of (service|agreement)/i",
    cat [lit "scope of ", alt (lit "service") (lit "agreement")], true⟩,
  ⟨"/user obligations/i", lit "user obligations", true⟩,
  ⟨"/prohibited (activities|uses|conduct)/i",
    cat [lit "prohibited ", alt (lit "activities") (alt (lit "uses") (lit "conduct"))], true⟩,
  ⟨"/intellectual property rights/i", lit "intellectual property rights", true⟩,
  ⟨"/disclaimer of warranties/i", lit "disclaimer of warranties", true⟩,
  ⟨"/limitation of liability/i", lit "limitation of liability", true⟩,
  ⟨"/indemnification/i", lit "indemnification", true⟩,
  ⟨"/termination/i", lit "termination", true⟩,
  ⟨"/governing law/i", lit "governing law", true⟩,
  ⟨"/dispute resolution/i", lit "dispute resolution", true⟩,
  ⟨"/arbitration/i", lit "arbitration", true⟩,
  ⟨"/data collection/i", lit "data collection", true⟩,
  ⟨"/information we collect/i", lit "information we collect", true⟩,
  ⟨"/how we use/i", lit "how we use", true⟩,
  ⟨"/sharing (of|your) information/i",
    cat [lit "sharing ", alt (lit "of") (lit "your"), lit " information"], true⟩,
  ⟨"/your rights/i", lit "your rights", true⟩,
  ⟨"/data retention/i", lit "data retention", true⟩,
  ⟨"/security measures/i", lit "security measures", true⟩,
  ⟨"/cookies? and tracking/i", cat [lit "cookie", opt (chr 's'), lit " and tracking"], true⟩,
  ⟨"/changes to (this|these) (terms|policy)/i",
    cat [lit "changes to ", alt (lit "this") (lit "these"), lit " ",
      alt (lit "terms") (lit "policy")], true⟩]

/-- Confidence threshold for triggering detection. -/
def DETECTION_THRESHOLD : F64 := F64.lit 75 100

/-- The pattern `/privacy/i` of the special high-confidence URL checks. -/
def PRIVACY : Pattern := ⟨"/privacy/i", lit "privacy", true⟩

/-- The pattern `/terms/i` of the special high-confidence URL checks. -/
def TERMS : Pattern := ⟨"/terms/i", lit "terms", true⟩

/-- The pattern `/legal/i` of the special high-confidence URL checks. -/
def LEGAL : Pattern := ⟨"/legal/i", lit "legal", true⟩

/-- A URL or title factor: its score and the sources of the patterns that matched (the
field `matches` of the source). -/
structure MatchFactor where
  score : F64
  matched : List String
deriving DecidableEq

/-- The content factor. -/
structure ContentFactor where
  score : F64
  keywordMatches : Nat
  density : F64
deriving DecidableEq

/-- The structure factor. -/
structure StructureFactor where
  score : F64
  headerMatches : List String
deriving DecidableEq

/-- One round of the `forEach` loops over a pattern list: a pattern that matches `s` is
recorded and adds `inc` to the score. -/
def matchStep (inc : F64) (s : JSString) (acc : F64 × List String) (p : Pattern) :
    F64 × List String :=
  if p.test s then (F64.add acc.1 inc, acc.2 ++ [p.source]) else acc

/-- Analyze URL for legal indicators. -/
def analyzeUrl (url : JSString) : MatchFactor :=
  if url.isEmpty then ⟨0, []⟩ else
  let r := URL_PATTERNS.foldl (matchStep (F64.lit 15 100) url) (0, [])
  let score := r.1
  let score := if PRIVACY.test url then F64.add score (F64.lit 1 10) else score
  let score := if TERMS.test url then F64.add score (F64.lit 1 10) else score
  let score := if LEGAL.test url then F64.add score (F64.lit 5 100) else score
  ⟨F64.min score 1, r.2⟩

/-- Analyze page title for legal indicators. -/
def analyzeTitle (title : JSString) : MatchFactor :=
  if title.isEmpty then ⟨0, []⟩ else
  let r := TITLE_PATTERNS.foldl (matchStep (F64.lit 2 10) title) (0, [])
  let score := r.1
  let score :=
    if title.length < 50 ∧ r.2.length > 0 then F64.add score (F64.lit 2 10) else score
  ⟨F64.min score 1, r.2⟩

/-- The step function from the number of keywords found to the content score. -/
def contentScore (keywordMatches : Nat) : F64 :=
  if keywordMatches ≥ 15 then 1
  else if keywordMatches ≥ 10 then F64.lit 8 10
  else if keywordMatches ≥ 7 then F64.lit 6 10
  else if keywordMatches ≥ 5 then F64.lit 4 10
  else if keywordMatches ≥ 3 then F64.lit 2 10
  else 0

/-- The number of keywords of the vocabulary that occur in the lower-cased content. -/
def countKeywords (content : JSString) : Nat :=
  let normalized := JS.toLowerCase content
  LEGAL_KEYWORDS.foldl
    (fun n keyword =>
      if JS.includes normalized (JS.toLowerCase keyword.toList) then n + 1 else n) 0

/-- Analyze content for legal terminology. -/
def analyzeContent (content : JSString) : ContentFactor :=
  if content.isEmpty ∨ content.length < 100 then ⟨0, 0, 0⟩ else
  let words := JS.splitSpaceCount false content
  let keywordMatches := countKeywords content
  let density := F64.mul (F64.div (F64.ofNat keywordMatches) (F64.ofNat words)) 1000
  ⟨contentScore keywordMatches, keywordMatches, F64.toFixed 2 density⟩

/-- Analyze document structure for legal headers. -/
def analyzeStructure (content : JSString) : StructureFactor :=
  if content.isEmpty then ⟨0, []⟩ else
  let r := LEGAL_HEADERS.foldl (matchStep (F64.lit 1 10) content) (0, [])
  let score := r.1
  let score :=
    if r.2.length ≥ 5 then F64.add score (F64.lit 2 10)
    else if r.2.length ≥ 3 then F64.add score (F64.lit 1 10)
    else score
  ⟨F64.min score 1, r.2⟩

/-- The four factors of a detection (`struct` is the field `structure` of the source). -/
structure Factors where
  url : MatchFactor
  title : MatchFactor
  content : ContentFactor
  struct : StructureFactor
deriving DecidableEq

/-- Build human-readable reasons for detection result. -/
def buildReasons (factors : Factors) (isLegal : Bool) : List String :=
  if !isLegal then ["Page does not appear to contain legal content"] else
  let reasons : List String := []
  let reasons :=
    if factors.url.score > F64.lit 3 10 then reasons ++ ["URL contains legal keywords"]
    else reasons
  let reasons :=
    if factors.title.score > F64.lit 3 10 then
      reasons ++ ["Page title indicates legal document"]
    else reasons
  let reasons :=
    if factors.content.keywordMatches ≥ 7 then
      reasons ++ ["Found " ++ toString factors.content.keywordMatches ++ " legal terms"]
    else reasons
  let reasons :=
    if factors.struct.headerMatches.length ≥ 3 then
      reasons ++ ["Contains " ++ toString factors.struct.headerMatches.length ++
        " legal section headers"]
    else reasons
  if reasons.length = 0 then ["Multiple indicators suggest legal content"] else reasons

/-- The result of a detection. -/
structure Detection where
  isLegal : Bool
  confidence : F64
  factors : Factors
  reasons : List String
deriving DecidableEq

/-- The weighted confidence score, before rounding to three decimals. -/
def weightedConfidence (factors : Factors) : F64 :=
  F64.add
    (F64.add
      (F64.add (F64.mul factors.url.score (F64.lit 3 10))
        (F64.mul factors.title.score (F64.lit 25 100)))
      (F64.mul factors.content.score (F64.lit 30 100)))
    (F64.mul factors.struct.score (F64.lit 15 100))

/-- Analyze if a page contains legal content. -/
def isLegalPage (url title content : JSString) : Detection :=
  let factors : Factors :=
    ⟨analyzeUrl url, analyzeTitle title, analyzeContent content, analyzeStructure content⟩
  let confidence := weightedConfidence factors
  let isLegal := decide (confidence ≥ DETECTION_THRESHOLD)
  ⟨isLegal, F64.toFixed 3 confidence, factors, buildReasons factors isLegal⟩

/-- Simplified check for legal page (fast version). -/
def quickCheck (url title : JSString) : Bool :=
  let urlMatch := URL_PATTERNS.any fun pattern => pattern.test url
  let titleMatch := TITLE_PATTERNS.any fun pattern => pattern.test title
  urlMatch || titleMatch

end Detector

/-! ## `src/utils/ai-analyzer.js`: risk aggregation -/

namespace Analyzer

/-- A risk finding, as `detectRisks` hands it on. -/
structure Finding where
  severity : String
  clause : String
  issue : String
  explanation : String
deriving DecidableEq

/-- Calculate overall risk score from individual risks. -/
def calculateRiskScore (risks : List Finding) : String :=
  if risks.length = 0 then "low" else
  let high := (risks.filter fun r => r.severity = "high").length
  let medium := (risks.filter fun r => r.severity = "medium").length
  if high ≥ 2 then "high"
  else if high ≥ 1 ∧ medium ≥ 2 then "high"
  else if high ≥ 1 ∨ medium ≥ 3 then "medium"
  else if medium ≥ 1 then "medium"
  else "low"

/-- The rule table of risk-level aggregation, in the words of the specification: over the
numbers of findings of severity `high` and `medium`, evaluated in order, the first match
wins. -/
def riskRuleTable (high medium : Nat) : String :=
  if high ≥ 2 then "high"
  else if high ≥ 1 ∧ medium ≥ 2 then "high"
  else if high ≥ 1 ∨ medium ≥ 3 then "medium"
  else if medium ≥ 1 then "medium"
  else "low"

/-- The number of findings of a given severity. -/
def countSeverity (severity : String) (risks : List Finding) : Nat :=
  risks.countP fun r => r.severity = severity

/-! ## JSON values and `JSON.parse` -/

/-- A JavaScript value without functions: what `JSON.parse` can return, and what a
capability may hand back as its response. -/
inductive JSValue where
  | undefined
  | null
  | bool (b : Bool)
  | num (x : F64)
  | str (s : JSString)
  | arr (items : List JSValue)
  | obj (fields : List (JSString × JSValue))

namespace JSValue

/-- The test `v && typeof v === 'object'`: objects and arrays, not `null`. -/
def isObject : JSValue → Bool
  | arr _ => true
  | obj _ => true
  | _ => false

end JSValue

namespace JSON

/-- The four whitespace characters of the JSON grammar. -/
def isWs (c : Char) : Bool := c == ' ' || c == '\t' || c == '\n' || c == '\r'

/-- The value of a hexadecimal digit. -/
def hexVal (c : Char) : Option Nat :=
  if c.isDigit then some (c.toNat - 48)
  else if 'a' ≤ c ∧ c ≤ 'f' then some (c.toNat - 87)
  else if 'A' ≤ c ∧ c ≤ 'F' then some (c.toNat - 55)
  else none

/-- The rest of a string literal after its opening quote: the decoded text and what
follows the closing quote. -/
def stringBody : JSString → JSString → Option (JSString × JSString)
  | _, [] => none
  | acc, '"' :: r => some (acc.reverse, r)
  | acc, '\\' :: '"' :: r => stringBody ('"' :: acc) r
  | acc, '\\' :: '\\' :: r => stringBody ('\\' :: acc) r
  | acc, '\\' :: '/' :: r => stringBody ('/' :: acc) r
  | acc, '\\' :: 'b' :: r => stringBody (Char.ofNat 8 :: acc) r
  | acc, '\\' :: 'f' :: r => stringBody (Char.ofNat 12 :: acc) r
  | acc, '\\' :: 'n' :: r => stringBody ('\n' :: acc) r
  | acc, '\\' :: 'r' :: r => stringBody ('\r' :: acc) r
  | acc, '\\' :: 't' :: r => stringBody ('\t' :: acc) r
  | acc, '\\' :: 'u' :: a :: b :: c :: d :: r =>
    match hexVal a, hexVal b, hexVal c, hexVal d with
    | some x, some y, some z, some w =>
      stringBody (Char.ofNat (((x * 16 + y) * 16 + z) * 16 + w) :: acc) r
    | _, _, _, _ => none
  | _, '\\' :: _ => none
  | acc, c :: r => if c.toNat < 32 then none else stringBody (c :: acc) r

/-- The digits at the head of the input, and the rest. -/
def digits (s : JSString) : JSString × JSString := (s.takeWhile Char.isDigit, s.dropWhile Char.isDigit)

/-- The number written by a run of decimal digits. -/
def digitsVal (ds : JSString) : Nat := ds.foldl (fun n c => 10 * n + (c.toNat - 48)) 0

/-- A number literal `-? int frac? exp?` at the head of the input: the double it denotes
(finite literals only; the sign of zero is not kept) and the rest. -/
def number (s : JSString) : Option (F64 × JSString) :=
  let (neg, s1) := match s with
    | '-' :: r => (true, r)
    | _ => (false, s)
  let (ip, s2) := digits s1
  if ip = [] ∨ (ip.length > 1 ∧ ip.head? = some '0') then none else
  let fracPart : Option (JSString × JSString) := match s2 with
    | '.' :: r => let (fp, r2) := digits r; if fp = [] then none else some (fp, r2)
    | _ => some ([], s2)
  match fracPart with
  | none => none
  | some (fp, s3) =>
    let expPart : Option (Int × JSString) := match s3 with
      | c :: r =>
        if c = 'e' ∨ c = 'E' then
          let (sgn, r1) := match r with
            | '+' :: t => ((1 : Int), t)
            | '-' :: t => ((-1 : Int), t)
            | _ => ((1 : Int), r)
          let (ep, r2) := digits r1
          if ep = [] then none else some (sgn * (digitsVal ep : Int), r2)
        else some (0, s3)
      | [] => some (0, s3)
    match expPart with
    | none => none
    | some (e, s4) =>
      let ds := digitsVal (ip ++ fp)
      match e - (fp.length : Int) with
      | Int.ofNat k => some (F64.round neg (ds * Nat.pow 10 k * Nat.pow 2 1074) 1, s4)
      | Int.negSucc k => some (F64.round neg (ds * Nat.pow 2 1074) (Nat.pow 10 (k + 1)), s4)

/-- What the parser is in the middle of: a value, the items of an array after `[`, or
the members of an object after `{`. `first` says that no item has been read yet, so the
closing bracket may come at once. -/
inductive Mode where
  | value
  | items (first : Bool) (acc : List JSValue)
  | members (first : Bool) (acc : List (JSString × JSValue))

/-- The assignment of a member to an object under construction: a repeated key keeps its
place and takes the new value. -/
def setField (fields : List (JSString × JSValue)) (k : JSString) (v : JSValue) :
    List (JSString × JSValue) :=
  if fields.any (fun f => f.1 = k) then fields.map (fun f => if f.1 = k then (k, v) else f)
  else fields ++ [(k, v)]

/-- The recursive-descent parser of the JSON grammar, by fuel: the value read and the
rest of the input, or `none` on a syntax error. -/
def parseAux : Nat → Mode → JSString → Option (JSValue × JSString)
  | 0, _, _ => none
  | fuel + 1, Mode.value, s =>
    match s.dropWhile isWs with
    | '{' :: r => parseAux fuel (Mode.members true []) r
    | '[' :: r => parseAux fuel (Mode.items true []) r
    | '"' :: r => (stringBody [] r).map fun p => (JSValue.str p.1, p.2)
    | 't' :: 'r' :: 'u' :: 'e' :: r => some (JSValue.bool true, r)
    | 'f' :: 'a' :: 'l' :: 's' :: 'e' :: r => some (JSValue.bool false, r)
    | 'n' :: 'u' :: 'l' :: 'l' :: r => some (JSValue.null, r)
    | t => (number t).map fun p => (JSValue.num p.1, p.2)
  | fuel + 1, Mode.items first acc, s =>
    match s.dropWhile isWs with
    | ']' :: r => if first then some (JSValue.arr acc, r) else none
    | t =>
      match parseAux fuel Mode.value t with
      | none => none
      | some (v, r) =>
        match r.dropWhile isWs with
        | ',' :: r2 => parseAux fuel (Mode.items false (acc ++ [v])) r2
        | ']' :: r2 => some (JSValue.arr (acc ++ [v]), r2)
        | _ => none
  | fuel + 1, Mode.members first acc, s =>
    match s.dropWhile isWs with
    | '}' :: r => if first then some (JSValue.obj acc, r) else none
    | '"' :: r =>
      match stringBody [] r with
      | none => none
      | some (k, r1) =>
        match r1.dropWhile isWs with
        | ':' :: r2 =>
          match parseAux fuel Mode.value r2 with
          | none => none
          | some (v, r3) =>
            match r3.dropWhile isWs with
            | ',' :: r4 => parseAux fuel (Mode.members false (setField acc k v)) r4
            | '}' :: r4 => some (JSValue.obj (setField acc k v), r4)
            | _ => none
        | _ => none
    | _ => none

/-- The builtin `JSON.parse` on a string: the value, or `none` for a `SyntaxError`. Every
round of the parser reads at least one character every second call, so twice the length
of the text is fuel enough. -/
def parse (text : JSString) : Option JSValue :=
  match parseAux (2 * text.length + 2) Mode.value text with
  | some (v, r) => if r.dropWhile isWs = [] then some v else none
  | none => none

end JSON

/-! ## `parseJSONResponse` -/

/-- The replacement `cleaned.replace(/^```json\s*/i, '')`: an opening fence with the word
`json` in any case, and all whitespace after it, is removed. -/
def stripJsonFence (s : JSString) : JSString :=
  if (s.take 7).map Char.toLower = "```json".toList then (s.drop 7).dropWhile JS.isSpace
  else s

/-- The replacement `cleaned.replace(/^```\s*/, '')`. -/
def stripOpenFence (s : JSString) : JSString :=
  if s.take 3 = "```".toList then (s.drop 3).dropWhile JS.isSpace else s

/-- The replacement `cleaned.replace(/\s*```$/, '')`: the leftmost match that reaches the
end of the text is the final fence together with all whitespace before it. -/
def stripCloseFence (s : JSString) : JSString :=
  if s.reverse.take 3 = "```".toList then ((s.reverse.drop 3).dropWhile JS.isSpace).reverse
  else s

/-- The match `cleaned.match(/\{[\s\S]*\}/)`: the leftmost match starts at the first `{`
and, the star being greedy, ends at the last `}` of the text; there is none when no `}`
comes after the first `{`. -/
def matchBraces (s : JSString) : Option JSString :=
  let fromOpen := s.dropWhile fun c => c != '{'
  let region := ((fromOpen.reverse.dropWhile fun c => c != '}')).reverse
  if region = [] then none else some region

/-- The text that `parseJSONResponse` hands to `JSON.parse`. -/
def cleanResponse (response : JSString) : JSString :=
  let cleaned := JS.trim response
  let cleaned := stripJsonFence cleaned
  let cleaned := stripOpenFence cleaned
  let cleaned := stripCloseFence cleaned
  match matchBraces cleaned with
  | some jsonMatch => jsonMatch
  | none => cleaned

/-- The fallback `{ risks: [], terms: [], keyPoints: [] }`. -/
def emptyStructure : JSValue :=
  JSValue.obj [("risks".toList, JSValue.arr []), ("terms".toList, JSValue.arr []),
    ("keyPoints".toList, JSValue.arr [])]

/-- The body of the `try` block of `parseJSONResponse`: the parsed value, or the error
thrown (a `TypeError` when the response has no `trim`, the `SyntaxError` of `JSON.parse`,
or the error for a result that is not an object). -/
def parseJSONAttempt (response : JSValue) : Except String JSValue :=
  match response with
  | JSValue.str text =>
    match JSON.parse (cleanResponse text) with
    | none => Except.error "SyntaxError"
    | some parsed =>
      if parsed.isObject then Except.ok parsed
      else Except.error "Parsed result is not a valid object"
  | _ => Except.error "TypeError"

/-- Parse JSON from AI response (handles markdown code blocks): the `catch` block returns
the empty structure for every error of the `try` block. -/
def parseJSONResponse (response : JSValue) : JSValue :=
  match parseJSONAttempt response with
  | Except.ok parsed => parsed
  | Except.error _ => emptyStructure

end Analyzer

/-! ## The capability provider -/

namespace Analyzer

/-- The four capabilities: `LanguageModel`, `Summarizer`, `Writer` and `Rewriter`. -/
inductive Capability where
  | prompt
  | summarizer
  | writer
  | rewriter
deriving DecidableEq, Repr

/-- What one call of `availability()` does: it returns a state (the empty string stands
for any falsy value, such as `undefined`) or it throws. -/
inductive Probe where
  | returns (state : String)
  | throws (message : String)
deriving DecidableEq

/-- The capability provider, as the code meets it:
* `present c`: whether the global of `c` is in `self`;
* `availability c n`: what call number `n` (from 0) of `availability()` on `c` does;
* `create c`: whether `create()` on `c` gives a session or throws;
* `fallback c`: the same for the `window.ai` creation path, `none` when it is absent;
* `hasDestroy`: whether a session has a `destroy` method;
* `now n`: reading number `n` (from 0) of `Date.now()`, in milliseconds. -/
structure Provider where
  present : Capability → Bool
  availability : Capability → Nat → Probe
  create : Capability → Except String Unit
  fallback : Capability → Option (Except String Unit)
  hasDestroy : Bool
  now : Nat → Int

/-- What the code does to the outside, in order. -/
inductive Event where
  | probe (c : Capability)
  | create (c : Capability)
  | destroy
  | sleep (ms : Nat)
  | progress (percent : Nat) (status : String)
deriving DecidableEq

/-- The record built by `checkAIAvailability`. -/
structure Availability where
  prompt : Bool
  promptState : String
  summarizer : Bool
  summarizerState : String
  rewriter : Bool
  rewriterState : String
  writer : Bool
  writerState : String
  overall : Bool
  downloadProgress : Option String
deriving DecidableEq

/-- One of the four blocks of `checkAIAvailability`: when the capability is present it is
probed once; the state is the value returned, or `unavailable` for a falsy value, and a
probe that throws leaves the defaults. Gives the ready flag, the state, the raw value
returned and the calls made. -/
def checkOne (p : Provider) (c : Capability) : Bool × String × Option String × List Event :=
  if p.present c then
    match p.availability c 0 with
    | Probe.returns st =>
      (st = "readily", if st = "" then "unavailable" else st, some st, [Event.probe c])
    | Probe.throws _ => (false, "unavailable", none, [Event.probe c])
  else (false, "unavailable", none, [])

/-- Check if Chrome AI APIs are available: the record and the calls made. -/
def checkAIAvailability (p : Provider) : Availability × List Event :=
  let pr := checkOne p Capability.prompt
  let su := checkOne p Capability.summarizer
  let re := checkOne p Capability.rewriter
  let wr := checkOne p Capability.writer
  ({ prompt := pr.1, promptState := pr.2.1,
     summarizer := su.1, summarizerState := su.2.1,
     rewriter := re.1, rewriterState := re.2.1,
     writer := wr.1, writerState := wr.2.1,
     overall := pr.1 || su.1,
     downloadProgress :=
       if pr.2.2.1 = some "after-download" then some "Model needs to be downloaded" else none },
   pr.2.2.2 ++ su.2.2.2 ++ re.2.2.2 ++ wr.2.2.2)

/-- The three texts of `getAIUnavailableMessage`: the model needs to be downloaded, the
Origin Trial token is missing, or the general instructions. -/
inductive UnavailableMessage where
  | downloadNeeded
  | tokenMissing
  | general
deriving DecidableEq, Repr

/-- Get user-friendly error message for unavailable AI. -/
def getAIUnavailableMessage (p : Provider) (availability : Availability) : UnavailableMessage :=
  if availability.promptState = "after-download" then UnavailableMessage.downloadNeeded
  else if !p.present Capability.prompt && !p.present Capability.writer &&
      !p.present Capability.rewriter then UnavailableMessage.tokenMissing
  else UnavailableMessage.general

/-- The errors `analyzeDocument` throws: the two of its own checks, made before any
sub-analysis starts, and the error of a sub-analysis that raised, which the `catch` block
throws again. -/
inductive AnalysisError where
  | unavailable (message : UnavailableMessage)
  | tooShort
  | subAnalysis (message : String)
deriving DecidableEq, Repr

/-- Maximum characters for single prompt. -/
def MAX_PROMPT_LENGTH : Nat := 10000

/-- The point of `analyzeDocument` at which the three sub-analyses are started: the
availability record and the text handed to them. -/
structure Started where
  availability : Availability
  analyzableText : JSString
deriving DecidableEq

/-- The function `analyzeDocument` up to the start of the sub-analyses: the availability
check, the validation of the input and the truncation. The text is `none` when it is
absent. Gives the error thrown or the point reached, and the calls made so far. -/
def analyzeDocument (p : Provider) (text : Option JSString) :
    Except AnalysisError Started × List Event :=
  let check := checkAIAvailability p
  let availability := check.1
  if !availability.overall then
    (Except.error (AnalysisError.unavailable (getAIUnavailableMessage p availability)), check.2)
  else
    match text with
    | none => (Except.error AnalysisError.tooShort, check.2)
    | some t =>
      if t.isEmpty ∨ (JS.trim t).length < 100 then (Except.error AnalysisError.tooShort, check.2)
      else
        let analyzableText :=
          if t.length > MAX_PROMPT_LENGTH then t.take MAX_PROMPT_LENGTH ++ "...".toList else t
        (Except.ok ⟨availability, analyzableText⟩, check.2)

/-! ## `prepareModel` -/

/-- The capability an API key names, by the chain of `api === '...'` tests on the
lower-cased key. -/
def capabilityOf (apiKey : JSString) : Option Capability :=
  let api := JS.toLowerCase apiKey
  if api = "prompt".toList then some Capability.prompt
  else if api = "summarizer".toList then some Capability.summarizer
  else if api = "writer".toList then some Capability.writer
  else if api = "rewriter".toList then some Capability.rewriter
  else none

/-- The closure `getAvailability` at its call number `n`: the probe of the capability when
the key names one that is present, and otherwise `unavailable` without any call. -/
def getAvailability (p : Provider) (api : Option Capability) (n : Nat) : Probe × List Event :=
  match api with
  | some c =>
    if p.present c then (p.availability c n, [Event.probe c])
    else (Probe.returns "unavailable", [])
  | none => (Probe.returns "unavailable", [])

/-- The closure `createSession`: creation through `self` when the capability is present,
else through `window.ai` when that exists, else the error `API not available`. -/
def createSession (p : Provider) (api : Option Capability) : Except String Unit × List Event :=
  match api with
  | some c =>
    if p.present c then (p.create c, [Event.create c])
    else
      match p.fallback c with
      | some r => (r, [Event.create c])
      | none => (Except.error "API not available", [])
  | none => (Except.error "API not available", [])

/-- The object `prepareModel` returns. -/
structure PrepareResult where
  success : Bool
  status : String
  error : Option String
deriving DecidableEq

/-- How a run of `prepareModel` ends: it returns a result, or its promise rejects. -/
inductive Outcome where
  | returned (r : PrepareResult)
  | rejected (message : String)
deriving DecidableEq

/-- The call `onProgress?.(update)`: a report when a callback was given. -/
def report (onProgress : Bool) (percent : Nat) (status : String) : List Event :=
  if onProgress then [Event.progress percent status] else []

/-- The call `try { await session.destroy?.() } catch {}`. -/
def release (p : Provider) : List Event := if p.hasDestroy then [Event.destroy] else []

/-- The polling loop of `prepareModel`, by fuel: `clock` and `probes` count the readings of
`Date.now()` and the calls of `getAvailability` so far. Gives `none` when the fuel runs out
before the loop ends. -/
def poll (p : Provider) (api : Option Capability) (onProgress : Bool) (start : Int) :
    Nat → Nat → Nat → Nat → List Event → Option (Outcome × List Event)
  | 0, _, _, _, _ => none
  | fuel + 1, clock, probes, lastPercent, trace =>
    if p.now clock - start < 3 * 60 * 1000 then
      let trace := trace ++ [Event.sleep 3000]
      let s := getAvailability p api probes
      let trace := trace ++ s.2
      match s.1 with
      | Probe.throws message => some (Outcome.returned ⟨false, "error", some message⟩, trace)
      | Probe.returns st =>
        if st = "readily" then
          some (Outcome.returned ⟨true, "ready", none⟩,
            trace ++ release p ++ report onProgress 100 "ready")
        else if lastPercent < 90 then
          let next := min 90 (lastPercent + 5)
          poll p api onProgress start fuel (clock + 1) (probes + 1) next
            (trace ++ report onProgress next "downloading")
        else poll p api onProgress start fuel (clock + 1) (probes + 1) lastPercent trace
    else
      some (Outcome.returned ⟨false, "timeout", some "Model download timed out"⟩,
        trace ++ release p)

/-- Prepare on-device model for a given API by triggering creation. `onProgress` says
whether a callback was given; `fuel` bounds the rounds of the polling loop. Gives how the
run ends and what it did, or `none` when the fuel runs out. -/
def prepareModel (p : Provider) (apiKey : JSString) (onProgress : Bool) (fuel : Nat) :
    Option (Outcome × List Event) :=
  let api := capabilityOf apiKey
  let avail := getAvailability p api 0
  match avail.1 with
  | Probe.throws message => some (Outcome.rejected message, avail.2)
  | Probe.returns st =>
    if st = "readily" then
      some (Outcome.returned ⟨true, "ready", none⟩, avail.2 ++ report onProgress 100 "ready")
    else if st ≠ "after-download" then
      some (Outcome.returned
        ⟨false, if st = "" then "unavailable" else st,
          some "API not ready and no download state"⟩, avail.2)
    else
      let trace := avail.2 ++ report onProgress 1 "starting"
      let session := createSession p api
      let trace := trace ++ session.2
      match session.1 with
      | Except.error message => some (Outcome.returned ⟨false, "error", some message⟩, trace)
      | Except.ok _ =>
        let start := p.now 0
        poll p api onProgress start fuel 1 1 5 (trace ++ report onProgress 5 "downloading")

end Analyzer

/-! ## Traces and sample providers -/

namespace Analyzer

/-- The progress reports of a trace, in order. -/
def progressReports : List Event → List (Nat × String)
  | [] => []
  | Event.progress percent status :: es => (percent, status) :: progressReports es
  | _ :: es => progressReports es

/-- The session creations of a trace, in order. -/
def creations : List Event → List Capability
  | [] => []
  | Event.create c :: es => c :: creations es
  | _ :: es => creations es

/-- A provider that exposes no capability at all. -/
def absentProvider : Provider where
  present := fun _ => false
  availability := fun _ _ => Probe.returns "unavailable"
  create := fun _ => Except.error "not supported"
  fallback := fun _ => none
  hasDestroy := true
  now := fun n => 3000 * n

/-- A provider whose four capabilities are present and readily available. -/
def readyProvider : Provider where
  present := fun _ => true
  availability := fun _ _ => Probe.returns "readily"
  create := fun _ => Except.ok ()
  fallback := fun _ => none
  hasDestroy := true
  now := fun n => 3000 * n

end Analyzer

/-! ## Reading traces -/

namespace Analyzer

/-- The number of `destroy` calls of a trace. -/
def destroys (trace : List Event) : Nat := trace.count Event.destroy

/-- Whether an event is an availability probe. -/
def Event.isProbe : Event → Bool
  | Event.probe _ => true
  | _ => false

/-- A provider whose prompt capability needs its download and whose first poll throws. -/
def throwingProvider : Provider where
  present := fun _ => true
  availability := fun _ n =>
    if n = 0 then Probe.returns "after-download" else Probe.throws "probe failed"
  create := fun _ => Except.ok ()
  fallback := fun _ => none
  hasDestroy := true
  now := fun n => 3000 * n

/-- A provider whose capabilities stay in the download state for good. -/
def stuckProvider : Provider where
  present := fun _ => true
  availability := fun _ _ => Probe.returns "after-download"
  create := fun _ => Except.ok ()
  fallback := fun _ => none
  hasDestroy := true
  now := fun n => 3000 * n

/-- A provider whose capabilities report a state the code does not know. -/
def oddProvider : Provider where
  present := fun _ => true
  availability := fun _ _ => Probe.returns "downloading"
  create := fun _ => Except.ok ()
  fallback := fun _ => none
  hasDestroy := true
  now := fun n => 3000 * n

end Analyzer

namespace Analyzer

/-- The percent values of the progress reports of a trace, in order. -/
def percents (trace : List Event) : List Nat := (progressReports trace).map Prod.fst

/-- The result `{ success: true, status: 'ready' }`. -/
def readyResult : Outcome := Outcome.returned ⟨true, "ready", none⟩

/-- The result `{ success: false, status: 'timeout', error: 'Model download timed out' }`. -/
def timeoutResult : Outcome :=
  Outcome.returned ⟨false, "timeout", some "Model download timed out"⟩

end Analyzer

/-! ## The sub-analyses -/

namespace Analyzer

namespace JSValue

/-- The truthiness of a value, as `||` and `&&` test it. -/
def truthy : JSValue → Bool
  | undefined => false
  | null => false
  | bool b => b
  | num x => x.units ≠ 0
  | str s => !s.isEmpty
  | arr _ => true
  | obj _ => true

/-- The operator `a || b`. -/
def orElse (a b : JSValue) : JSValue := if a.truthy then a else b

/-- The test `typeof v === 'string'`. -/
def isString : JSValue → Bool
  | str _ => true
  | _ => false

/-- The property read `v.key` on an object or array `v`, for a key that is not a builtin
property: the member of that name, or `undefined`. -/
def get (v : JSValue) (key : String) : JSValue :=
  match v with
  | obj fields =>
    match fields.find? (fun f => f.1 = key.toList) with
    | some f => f.2
    | none => undefined
  | _ => undefined

/-- The call `v.trim()`: the trimmed text of a string, a `TypeError` for any other value. -/
def trimmed : JSValue → Except String JSValue
  | str s => Except.ok (str (JS.trim s))
  | _ => Except.error "TypeError"

/-- The call `(v || []).filter(f)`: a falsy value filters the empty array, an array is
filtered, and any other value has no callable `filter`, a `TypeError`. -/
def filterOrEmpty (v : JSValue) (f : JSValue → Bool) : Except String (List JSValue) :=
  if !v.truthy then Except.ok []
  else
    match v with
    | arr items => Except.ok (items.filter f)
    | _ => Except.error "TypeError"

end JSValue

/-- Validate risk object structure. -/
def isValidRisk (risk : JSValue) : Bool :=
  risk.isObject && (risk.get "severity").isString && (risk.get "clause").isString &&
    (risk.get "issue").isString

/-- Validate glossary term structure. -/
def isValidTerm (term : JSValue) : Bool :=
  term.isObject && (term.get "term").isString && (term.get "definition").isString

/-- The five prompts of the sub-analyses. -/
inductive PromptKind where
  | risks
  | executive
  | keyPoints
  | fullSummary
  | glossary
deriving DecidableEq

/-- A value that is thrown, or the reason of a rejected promise: `null` or `undefined`, or
any other value, given by what reading its property `message` yields (the message of an
`Error`, `undefined` for a value without one). -/
inductive Thrown where
  | nullish
  | value (message : JSValue)

/-- What the capability sessions do during one analysis:
* `promptSession`: whether `getPromptSession` gives a session; when it does not, it throws
  the error `Failed to initialize AI analysis engine`;
* `prompt k`: what `session.prompt` does for the prompt `k`, a response or a rejection;
* `summarize`: what `getSummarizerSession()` followed by `summarize(text)` does. -/
structure Sessions where
  promptSession : Bool
  prompt : PromptKind → Except Thrown JSValue
  summarize : Except Thrown JSValue

/-- The steps `await getPromptSession(...)` and `await session.prompt(prompt)`. -/
def askPrompt (b : Sessions) (k : PromptKind) : Except Thrown JSValue :=
  if b.promptSession then b.prompt k
  else Except.error
    (Thrown.value (JSValue.str "Failed to initialize AI analysis engine".toList))

/-- The object `detectRisks` returns; `error` is `none` when the object has no such
property. -/
structure RiskAnalysis where
  risks : List JSValue
  raw : Option JSValue
  error : Option JSValue

/-- The `try` block of `detectRisks`. -/
def detectRisksAttempt (b : Sessions) : Except Thrown RiskAnalysis :=
  match askPrompt b PromptKind.risks with
  | Except.error thrown => Except.error thrown
  | Except.ok response =>
    let parsed := parseJSONResponse response
    match (parsed.get "risks").filterOrEmpty isValidRisk with
    | Except.error message => Except.error (Thrown.value (JSValue.str message.toList))
    | Except.ok validRisks => Except.ok ⟨validRisks, some response, none⟩

/-- Detect risks in legal document using Prompt API. The `catch` block returns no risks
and `error.message`; reading that property of `null` or `undefined` throws a `TypeError`,
which nothing catches, so `detectRisks` itself raises then. -/
def detectRisks (b : Sessions) : Except String RiskAnalysis :=
  match detectRisksAttempt b with
  | Except.ok r => Except.ok r
  | Except.error (Thrown.value message) => Except.ok ⟨[], none, some message⟩
  | Except.error Thrown.nullish => Except.error "TypeError"

/-- Generate executive summary using Prompt API. -/
def generateExecutiveSummaryWithPrompt (b : Sessions) : JSValue :=
  match askPrompt b PromptKind.executive with
  | Except.error _ => JSValue.str "Executive summary not available".toList
  | Except.ok response =>
    match response.trimmed with
    | Except.ok t => t
    | Except.error _ => JSValue.str "Executive summary not available".toList

/-- Generate key points using Prompt API. -/
def generateKeyPoints (b : Sessions) : JSValue :=
  match askPrompt b PromptKind.keyPoints with
  | Except.error _ => JSValue.arr []
  | Except.ok response => ((parseJSONResponse response).get "keyPoints").orElse (JSValue.arr [])

/-- Generate full detailed summary using Prompt API. -/
def generateFullSummary (b : Sessions) : JSValue :=
  match askPrompt b PromptKind.fullSummary with
  | Except.error _ => JSValue.str []
  | Except.ok response =>
    match response.trimmed with
    | Except.ok t => t
    | Except.error _ => JSValue.str []

/-- The object `generateSummary` returns. -/
structure Summary where
  executive : JSValue
  keyPoints : JSValue
  full : JSValue

/-- Generate comprehensive summary using Summarizer and Prompt APIs. The three helpers
catch their own errors, so the outer `catch` block is never entered. -/
def generateSummary (b : Sessions) : Summary :=
  let executive :=
    match b.summarize with
    | Except.ok v => v
    | Except.error _ => generateExecutiveSummaryWithPrompt b
  let keyPoints := generateKeyPoints b
  let fullSummary := generateFullSummary b
  { executive := executive.orElse (JSValue.str "Summary not available".toList),
    keyPoints := keyPoints.orElse (JSValue.arr []),
    full := (fullSummary.orElse executive).orElse
      (JSValue.str "Detailed summary not available".toList) }

/-- Build glossary of legal terms using Prompt/Writer API. -/
def buildGlossary (b : Sessions) : List JSValue :=
  match askPrompt b PromptKind.glossary with
  | Except.error _ => []
  | Except.ok response =>
    match ((parseJSONResponse response).get "terms").filterOrEmpty isValidTerm with
    | Except.ok validTerms => validTerms
    | Except.error _ => []

/-- The text of a value that is a string, and the empty text otherwise. -/
def textOf : JSValue → String
  | JSValue.str s => String.mk s
  | _ => ""

/-- A risk object read as a finding. Only the severity is looked at by the aggregation;
a severity that is not a string equals neither `high` nor `medium`. -/
def toFinding (risk : JSValue) : Finding :=
  ⟨textOf (risk.get "severity"), textOf (risk.get "clause"), textOf (risk.get "issue"),
    textOf (risk.get "explanation")⟩

end Analyzer

namespace JS

/-- The pieces of `s.split(/\s+/)`: `cur` is the piece being read, in reverse, and the flag
says whether the previous code unit was whitespace. -/
def splitSpacesAux : Bool → JSString → JSString → List JSString
  | _, cur, [] => [cur.reverse]
  | inRun, cur, c :: cs =>
    if isSpace c then
      (if inRun then splitSpacesAux true cur cs else cur.reverse :: splitSpacesAux true [] cs)
    else splitSpacesAux false (c :: cur) cs

/-- The call `s.split(/\s+/)`. -/
def splitSpaces (s : JSString) : List JSString := splitSpacesAux false [] s

end JS

namespace Analyzer

/-- Calculate reading time (simple version). -/
def calculateReadingTime (text : JSString) : Nat :=
  if text.isEmpty then 0
  else F64.ceil (F64.div (F64.ofNat (JS.splitSpaces text).length) 200)

/-- Estimate complexity (simple version). -/
def estimateComplexity (text : JSString) : String :=
  if text.isEmpty then "simple" else
  let words := JS.splitSpaces text
  let avgWordLength :=
    F64.div (F64.ofNat (words.foldl (fun sum word => sum + word.length) 0))
      (F64.ofNat words.length)
  if avgWordLength > 7 then "very_complex"
  else if avgWordLength > 6 then "complex"
  else if avgWordLength > 5 then "moderate"
  else "simple"

/-- Detect document type (simple version). -/
def detectDocumentType (text : JSString) : String :=
  let lower := JS.toLowerCase text
  if JS.includes lower "privacy".toList && JS.includes lower "policy".toList then
    "privacy_policy"
  else if JS.includes lower "terms".toList &&
      (JS.includes lower "service".toList || JS.includes lower "use".toList) then
    "terms_of_service"
  else if JS.includes lower "cookie".toList then "cookie_policy"
  else if JS.includes lower "eula".toList then "eula"
  else "legal_document"

/-- The metadata of an analysis, without its two clock readings `analyzedAt` and
`analysisTime`. -/
structure Metadata where
  documentLength : Nat
  readingTime : Nat
  complexity : String
  documentType : String
  promptUsed : Bool
  summarizerUsed : Bool
  rewriterUsed : Bool
  writerUsed : Bool

/-- The analysis object `analyzeDocument` returns. -/
structure AnalysisRecord where
  riskScore : String
  riskFactors : List JSValue
  executive : JSValue
  keyPoints : JSValue
  fullSummary : JSValue
  glossary : List JSValue
  metadata : Metadata

/-- The final object of `analyzeDocument`, from the results of the three sub-analyses.
`documentType` is the option of that name, `none` when it is not given. -/
def analysisRecord (riskAnalysis : RiskAnalysis) (summary : Summary) (glossary : List JSValue)
    (st : Started) (text : JSString) (documentType : Option String) : AnalysisRecord :=
  { riskScore := calculateRiskScore (riskAnalysis.risks.map toFinding),
    riskFactors := riskAnalysis.risks,
    executive := summary.executive.orElse (JSValue.str []),
    keyPoints := summary.keyPoints.orElse (JSValue.arr []),
    fullSummary := summary.full.orElse (JSValue.str []),
    glossary := glossary,
    metadata :=
      { documentLength := text.length,
        readingTime := calculateReadingTime text,
        complexity := estimateComplexity text,
        documentType :=
          match documentType with
          | some d => if d = "" then detectDocumentType text else d
          | none => detectDocumentType text,
        promptUsed := true,
        summarizerUsed := st.availability.summarizer,
        rewriterUsed := st.availability.rewriter,
        writerUsed := st.availability.writer } }

/-- The part of `analyzeDocument` after the start of the sub-analyses: the join of the
three by `Promise.all`, which rejects when `detectRisks` raises (the other two never do),
then the overall risk score, the metadata and the final object. -/
def buildAnalysis (b : Sessions) (st : Started) (text : JSString)
    (documentType : Option String) : Except String AnalysisRecord :=
  match detectRisks b with
  | Except.error message => Except.error message
  | Except.ok riskAnalysis =>
    Except.ok
      (analysisRecord riskAnalysis (generateSummary b) (buildGlossary b) st text documentType)

/-- The whole of `analyzeDocument`: the error thrown by the checks or by a sub-analysis,
or the analysis. -/
def analyzeDocumentResult (p : Provider) (b : Sessions) (text : Option JSString)
    (documentType : Option String) : Except AnalysisError AnalysisRecord :=
  match (analyzeDocument p text).1 with
  | Except.error e => Except.error e
  | Except.ok st =>
    match buildAnalysis b st (text.getD []) documentType with
    | Except.error message => Except.error (AnalysisError.subAnalysis message)
    | Except.ok record => Except.ok record

/-- Sessions that answer the risk prompt with one item of severity `critical` and no
explanation, and fail otherwise. -/
def criticalSessions : Sessions where
  promptSession := true
  prompt := fun k =>
    match k with
    | PromptKind.risks => Except.ok (JSValue.str
        "\x7b\"risks\":[\x7b\"severity\":\"critical\",\"clause\":\"9\",\"issue\":\"waiver\"\x7d]\x7d".toList)
    | _ => Except.error (Thrown.value (JSValue.str "no answer".toList))
  summarize := Except.error (Thrown.value (JSValue.str "no summarizer".toList))

/-- Sessions that cannot be created at all. -/
def failingSessions : Sessions where
  promptSession := false
  prompt := fun _ => Except.error (Thrown.value (JSValue.str "no session".toList))
  summarize := Except.error (Thrown.value (JSValue.str "no summarizer".toList))

/-- Sessions whose risk prompt is rejected with `undefined`, as `Promise.reject()` does,
while the glossary prompt answers with one term and the other prompts answer `ok`. -/
def nullSessions : Sessions where
  promptSession := true
  prompt := fun k =>
    match k with
    | PromptKind.risks => Except.error Thrown.nullish
    | PromptKind.glossary => Except.ok (JSValue.str
        "\x7b\"terms\":[\x7b\"term\":\"tort\",\"definition\":\"a wrong\"\x7d]\x7d".toList)
    | _ => Except.ok (JSValue.str "ok".toList)
  summarize := Except.error (Thrown.value (JSValue.str "no summarizer".toList))

end Analyzer

/-! ## Scores as functions of the match counts -/

namespace Detector

/-- The score after `k` rounds of `score += inc`, from `s`. -/
def iterAdd (inc : F64) : Nat → F64 → F64
  | 0, s => s
  | k + 1, s => iterAdd inc k (F64.add s inc)

/-- The URL score for `k` matching patterns and the three special checks. -/
def urlScoreOf (k : Nat) (privacy terms legal : Bool) : F64 :=
  let score := iterAdd (F64.lit 15 100) k 0
  let score := if privacy then F64.add score (F64.lit 1 10) else score
  let score := if terms then F64.add score (F64.lit 1 10) else score
  let score := if legal then F64.add score (F64.lit 5 100) else score
  F64.min score 1

/-- The title score for `k` matching patterns of a title that is short or not. -/
def titleScoreOf (k : Nat) (short : Bool) : F64 :=
  let score := iterAdd (F64.lit 2 10) k 0
  let score := if short = true ∧ k > 0 then F64.add score (F64.lit 2 10) else score
  F64.min score 1

/-- The structure score for `k` matching header patterns. -/
def structureScoreOf (k : Nat) : F64 :=
  let score := iterAdd (F64.lit 1 10) k 0
  let score :=
    if k ≥ 5 then F64.add score (F64.lit 2 10)
    else if k ≥ 3 then F64.add score (F64.lit 1 10)
    else score
  F64.min score 1

/-- The weighted confidence as a function of the four scores. -/
def confidenceOf (u t c s : F64) : F64 :=
  weightedConfidence ⟨⟨u, []⟩, ⟨t, []⟩, ⟨c, 0, 0⟩, ⟨s, []⟩⟩

end Detector

/-! ## The values the scores take -/

namespace F64

/-- The double of `m * 2 ^ e` units. -/
def bits (m e : Nat) : F64 := ⟨Int.ofNat (m * Nat.pow 2 e)⟩

end F64

namespace Detector

/-- The URL scores that arise: those of 0 to 14 matching patterns with each choice of the
three special checks. -/
def urlVals : List F64 := [
  F64.bits 0 0, F64.bits 3602879701896397 1018, F64.bits 3602879701896397 1019,
  F64.bits 5404319552844595 1019, F64.bits 1351079888211149 1021, F64.bits 3602879701896397 1020,
  F64.bits 1 1072, F64.bits 5404319552844595 1020, F64.bits 3152519739159347 1021,
  F64.bits 7205759403792793 1020, F64.bits 3602879701896397 1021, F64.bits 2026619832316723 1022,
  F64.bits 8106479329266893 1020, F64.bits 9007199254740991 1020, F64.bits 1 1073,
  F64.bits 4953959590107545 1021, F64.bits 2476979795053773 1022, F64.bits 5404319552844595 1021,
  F64.bits 1463669878895411 1023, F64.bits 5854679515581645 1021, F64.bits 3152519739159347 1022,
  F64.bits 3 1072, F64.bits 7205759403792793 1021, F64.bits 3602879701896397 1022,
  F64.bits 7656119366529843 1021, F64.bits 8106479329266893 1021, F64.bits 4278419646001971 1022,
  F64.bits 8556839292003943 1021, F64.bits 1 1074]

/-- The title scores that arise: those of 0 to 8 matching patterns, short title or not. -/
def titleVals : List F64 := [
  F64.bits 0 0, F64.bits 3602879701896397 1020, F64.bits 3602879701896397 1021,
  F64.bits 1351079888211149 1023, F64.bits 3602879701896397 1022, F64.bits 1 1074]

/-- The content scores that arise. -/
def contentVals : List F64 := [0, F64.lit 2 10, F64.lit 4 10, F64.lit 6 10, F64.lit 8 10, 1]

/-- The structure scores that arise: those of 0 to 21 matching header patterns. -/
def structureVals : List F64 := [
  F64.bits 0 0, F64.bits 3602879701896397 1019, F64.bits 3602879701896397 1020,
  F64.bits 3602879701896397 1021, F64.bits 1 1073, F64.bits 3152519739159347 1022,
  F64.bits 3602879701896397 1022, F64.bits 2026619832316723 1023, F64.bits 1 1074]

/-- The weighted content scores that arise. -/
def contentTermVals : List F64 := [
  F64.bits 0 0, F64.bits 1080863910568919 1020, F64.bits 1080863910568919 1021,
  F64.bits 3242591731706757 1020, F64.bits 1080863910568919 1022, F64.bits 5404319552844595 1020]

/-- The weighted structure scores that arise. -/
def structureTermVals : List F64 := [
  F64.bits 0 0, F64.bits 1080863910568919 1018, F64.bits 1080863910568919 1019,
  F64.bits 1080863910568919 1020, F64.bits 5404319552844595 1018, F64.bits 7566047373982433 1018,
  F64.bits 1080863910568919 1021, F64.bits 4863887597560135 1019, F64.bits 5404319552844595 1019]

/-- The sums of the weighted URL and title scores that arise. -/
def urlTitleVals : List F64 := [
  F64.bits 0 0, F64.bits 1080863910568919 1018, F64.bits 1080863910568919 1019,
  F64.bits 3242591731706757 1018, F64.bits 6485183463413515 1017, F64.bits 3602879701896397 1018,
  F64.bits 1080863910568919 1020, F64.bits 1170935903116329 1020, F64.bits 5404319552844595 1018,
  F64.bits 5764607523034235 1018, F64.bits 3242591731706757 1019, F64.bits 3422735716801577 1019,
  F64.bits 3602879701896397 1019, F64.bits 7566047373982433 1018, F64.bits 7926335344172073 1018,
  F64.bits 8286623314361713 1018, F64.bits 8646911284551351 1018, F64.bits 1080863910568919 1021,
  F64.bits 1 1071, F64.bits 1170935903116329 1021, F64.bits 4863887597560135 1019,
  F64.bits 607985949695017 1022, F64.bits 1261007895663739 1021, F64.bits 326510972984361 1023,
  F64.bits 2702159776422297 1020, F64.bits 5404319552844595 1019, F64.bits 1351079888211149 1021,
  F64.bits 5584463537939415 1019, F64.bits 5764607523034235 1019, F64.bits 2972375754064527 1020,
  F64.bits 5944751508129055 1019, F64.bits 185773484629033 1024, F64.bits 3062447746611937 1020,
  F64.bits 3152519739159347 1020, F64.bits 3242591731706757 1020, F64.bits 6485183463413515 1019,
  F64.bits 3332663724254167 1020, F64.bits 3422735716801577 1020, F64.bits 7025615418697973 1019,
  F64.bits 3512807709348987 1020, F64.bits 7025615418697975 1019, F64.bits 900719925474099 1022,
  F64.bits 3602879701896397 1020, F64.bits 3692951694443807 1020, F64.bits 7566047373982433 1019,
  F64.bits 3783023686991217 1020, F64.bits 1936547839769313 1021, F64.bits 3873095679538627 1020,
  F64.bits 990791918021509 1022, F64.bits 7926335344172073 1019, F64.bits 2026619832316723 1021,
  F64.bits 4053239664633447 1020, F64.bits 517913957147607 1023, F64.bits 8286623314361713 1019,
  F64.bits 2116691824864133 1021, F64.bits 8466767299456533 1019, F64.bits 8646911284551351 1019,
  F64.bits 1080863910568919 1022, F64.bits 8646911284551353 1019, F64.bits 2206763817411543 1021,
  F64.bits 8827055269646173 1019, F64.bits 9007199254740991 1019, F64.bits 1 1072,
  F64.bits 2296835809958953 1021, F64.bits 1170935903116329 1022, F64.bits 2386907802506363 1021,
  F64.bits 607985949695017 1023, F64.bits 4953959590107545 1020, F64.bits 2476979795053773 1021,
  F64.bits 1261007895663739 1022, F64.bits 5134103575202365 1020, F64.bits 2567051787601183 1021,
  F64.bits 5224175567749775 1020, F64.bits 326510972984361 1024, F64.bits 5314247560297185 1020,
  F64.bits 2657123780148593 1021, F64.bits 5404319552844595 1020, F64.bits 1351079888211149 1022,
  F64.bits 5494391545392005 1020, F64.bits 5584463537939415 1020, F64.bits 5674535530486825 1020,
  F64.bits 2837267765243413 1021, F64.bits 5764607523034235 1020, F64.bits 1463669878895411 1022,
  F64.bits 5854679515581645 1020, F64.bits 5944751508129055 1020, F64.bits 377176468792279 1024,
  F64.bits 6034823500676465 1020, F64.bits 3062447746611937 1021, F64.bits 1553741871442821 1022,
  F64.bits 6214967485771285 1020, F64.bits 3152519739159347 1021, F64.bits 799388933858263 1023,
  F64.bits 3242591731706757 1021, F64.bits 1643813863990231 1022, F64.bits 3332663724254167 1021,
  F64.bits 3 1071, F64.bits 3422735716801577 1021, F64.bits 1733885856537641 1022,
  F64.bits 3512807709348987 1021, F64.bits 889460926405673 1023, F64.bits 7205759403792793 1020,
  F64.bits 3602879701896397 1021, F64.bits 1823957849085051 1022, F64.bits 3692951694443807 1021,
  F64.bits 7475975381435023 1020, F64.bits 467248461339689 1024, F64.bits 3783023686991217 1021,
  F64.bits 7656119366529843 1020, F64.bits 7746191359077253 1020, F64.bits 7836263351624663 1020,
  F64.bits 979532918953083 1023, F64.bits 990791918021509 1023, F64.bits 7926335344172073 1020,
  F64.bits 4008203668359741 1021, F64.bits 8016407336719483 1020, F64.bits 8106479329266893 1020,
  F64.bits 8196551321814303 1020, F64.bits 517913957147607 1024, F64.bits 8466767299456533 1020,
  F64.bits 4278419646001971 1021, F64.bits 4368491638549381 1021, F64.bits 8736983277098763 1020,
  F64.bits 2206763817411543 1022, F64.bits 1 1073, F64.bits 4548635623644201 1021,
  F64.bits 1170935903116329 1023, F64.bits 2409425800643215 1022, F64.bits 4818851601286431 1021,
  F64.bits 2476979795053773 1022]

/-- The sums of the weighted URL, title and content scores that arise. -/
def urlTitleContentVals : List F64 := [
  F64.bits 0 0, F64.bits 1080863910568919 1018, F64.bits 1080863910568919 1019,
  F64.bits 3242591731706757 1018, F64.bits 6485183463413515 1017, F64.bits 3602879701896397 1018,
  F64.bits 1080863910568919 1020, F64.bits 1170935903116329 1020, F64.bits 5404319552844595 1018,
  F64.bits 5764607523034235 1018, F64.bits 3242591731706757 1019, F64.bits 3422735716801577 1019,
  F64.bits 3602879701896397 1019, F64.bits 7566047373982433 1018, F64.bits 3783023686991217 1019,
  F64.bits 7926335344172073 1018, F64.bits 8286623314361713 1018, F64.bits 8646911284551351 1018,
  F64.bits 1080863910568919 1021, F64.bits 1 1071, F64.bits 1170935903116329 1021,
  F64.bits 4863887597560135 1019, F64.bits 607985949695017 1022, F64.bits 1261007895663739 1021,
  F64.bits 326510972984361 1023, F64.bits 2702159776422297 1020, F64.bits 5404319552844595 1019,
  F64.bits 1351079888211149 1021, F64.bits 5584463537939415 1019, F64.bits 5764607523034235 1019,
  F64.bits 2972375754064527 1020, F64.bits 5944751508129055 1019, F64.bits 185773484629033 1024,
  F64.bits 3062447746611937 1020, F64.bits 3152519739159347 1020, F64.bits 3242591731706757 1020,
  F64.bits 6485183463413515 1019, F64.bits 3332663724254167 1020, F64.bits 3422735716801577 1020,
  F64.bits 7025615418697973 1019, F64.bits 3512807709348987 1020, F64.bits 7025615418697975 1019,
  F64.bits 900719925474099 1022, F64.bits 3602879701896397 1020, F64.bits 3692951694443807 1020,
  F64.bits 236438980436951 1024, F64.bits 7566047373982433 1019, F64.bits 3783023686991217 1020,
  F64.bits 1936547839769313 1021, F64.bits 7746191359077253 1019, F64.bits 3873095679538627 1020,
  F64.bits 990791918021509 1022, F64.bits 7926335344172073 1019, F64.bits 2026619832316723 1021,
  F64.bits 8106479329266893 1019, F64.bits 4053239664633447 1020, F64.bits 517913957147607 1023,
  F64.bits 8286623314361713 1019, F64.bits 2116691824864133 1021, F64.bits 8466767299456533 1019,
  F64.bits 8646911284551351 1019, F64.bits 1080863910568919 1022, F64.bits 8646911284551353 1019,
  F64.bits 2206763817411543 1021, F64.bits 8827055269646173 1019, F64.bits 9007199254740991 1019,
  F64.bits 1 1072, F64.bits 2296835809958953 1021, F64.bits 4683743612465315 1020,
  F64.bits 1170935903116329 1022, F64.bits 2386907802506363 1021, F64.bits 4863887597560135 1020,
  F64.bits 607985949695017 1023, F64.bits 4953959590107545 1020, F64.bits 2476979795053773 1021,
  F64.bits 5044031582654955 1020, F64.bits 1261007895663739 1022, F64.bits 5134103575202365 1020,
  F64.bits 2567051787601183 1021, F64.bits 5224175567749775 1020, F64.bits 326510972984361 1024,
  F64.bits 5314247560297185 1020, F64.bits 2657123780148593 1021, F64.bits 2702159776422297 1021,
  F64.bits 5404319552844595 1020, F64.bits 1351079888211149 1022, F64.bits 5494391545392005 1020,
  F64.bits 2747195772696003 1021, F64.bits 2792231768969707 1021, F64.bits 5584463537939415 1020,
  F64.bits 709316941310853 1023, F64.bits 5674535530486825 1020, F64.bits 2837267765243413 1021,
  F64.bits 2882303761517117 1021, F64.bits 5764607523034235 1020, F64.bits 1463669878895411 1022,
  F64.bits 5854679515581645 1020, F64.bits 2972375754064527 1021, F64.bits 5944751508129055 1020,
  F64.bits 377176468792279 1024, F64.bits 6034823500676465 1020, F64.bits 3062447746611937 1021,
  F64.bits 6124895493223875 1020, F64.bits 1553741871442821 1022, F64.bits 6214967485771285 1020,
  F64.bits 3152519739159347 1021, F64.bits 6305039478318695 1020, F64.bits 799388933858263 1023,
  F64.bits 6395111470866105 1020, F64.bits 3242591731706757 1021, F64.bits 6485183463413515 1020,
  F64.bits 1643813863990231 1022, F64.bits 3332663724254167 1021, F64.bits 3 1071,
  F64.bits 6755399441055745 1020, F64.bits 6845471433603153 1020, F64.bits 3422735716801577 1021,
  F64.bits 6935543426150563 1020, F64.bits 1733885856537641 1022, F64.bits 7025615418697973 1020,
  F64.bits 3512807709348987 1021, F64.bits 7115687411245383 1020, F64.bits 889460926405673 1023,
  F64.bits 7205759403792793 1020, F64.bits 3602879701896397 1021, F64.bits 7295831396340203 1020,
  F64.bits 1823957849085051 1022, F64.bits 7385903388887613 1020, F64.bits 3692951694443807 1021,
  F64.bits 7475975381435023 1020, F64.bits 467248461339689 1024, F64.bits 236438980436951 1025,
  F64.bits 7566047373982433 1020, F64.bits 3783023686991217 1021, F64.bits 7656119366529843 1020,
  F64.bits 1914029841632461 1022, F64.bits 1936547839769313 1022, F64.bits 7746191359077253 1020,
  F64.bits 3918131675812331 1021, F64.bits 7836263351624663 1020, F64.bits 979532918953083 1023,
  F64.bits 990791918021509 1023, F64.bits 7926335344172073 1020, F64.bits 4008203668359741 1021,
  F64.bits 8016407336719483 1020, F64.bits 2026619832316723 1022, F64.bits 8106479329266893 1020,
  F64.bits 4098275660907151 1021, F64.bits 8196551321814303 1020, F64.bits 517913957147607 1024,
  F64.bits 8286623314361713 1020, F64.bits 4188347653454561 1021, F64.bits 8376695306909123 1020,
  F64.bits 2116691824864133 1022, F64.bits 8466767299456533 1020, F64.bits 4278419646001971 1021,
  F64.bits 8556839292003943 1020, F64.bits 1080863910568919 1023, F64.bits 8646911284551353 1020,
  F64.bits 4368491638549381 1021, F64.bits 8736983277098763 1020, F64.bits 2206763817411543 1022,
  F64.bits 4458563631096791 1021, F64.bits 8917127262193583 1020, F64.bits 9007199254740991 1020,
  F64.bits 1 1073, F64.bits 568579452955525 1024, F64.bits 4548635623644201 1021,
  F64.bits 2296835809958953 1022, F64.bits 2319353808095805 1022, F64.bits 4638707616191611 1021,
  F64.bits 1170935903116329 1023, F64.bits 1182194902184755 1023, F64.bits 4728779608739021 1021,
  F64.bits 2386907802506363 1022, F64.bits 2409425800643215 1022, F64.bits 4818851601286431 1021,
  F64.bits 4863887597560135 1021, F64.bits 607985949695017 1024, F64.bits 306807724614615 1025,
  F64.bits 4908923593833841 1021, F64.bits 4953959590107545 1021, F64.bits 2476979795053773 1022,
  F64.bits 2499497793190625 1022, F64.bits 4998995586381251 1021, F64.bits 5044031582654955 1021,
  F64.bits 1261007895663739 1023, F64.bits 1272266894732165 1023, F64.bits 2567051787601183 1022,
  F64.bits 2589569785738035 1022, F64.bits 5224175567749775 1021, F64.bits 326510972984361 1025,
  F64.bits 658651445502935 1024, F64.bits 5314247560297185 1021, F64.bits 2657123780148593 1022,
  F64.bits 2679641778285445 1022, F64.bits 5404319552844595 1021, F64.bits 1351079888211149 1023,
  F64.bits 1362338887279575 1023, F64.bits 5494391545392005 1021, F64.bits 2747195772696003 1022,
  F64.bits 2769713770832855 1022, F64.bits 2792231768969707 1022, F64.bits 5584463537939415 1021,
  F64.bits 5 1071, F64.bits 5674535530486825 1021, F64.bits 2859785763380265 1022,
  F64.bits 2882303761517117 1022, F64.bits 5764607523034235 1021, F64.bits 1452410879826985 1023,
  F64.bits 1463669878895411 1023, F64.bits 5854679515581645 1021, F64.bits 5899715511855349 1021,
  F64.bits 2949857755927675 1022, F64.bits 2972375754064527 1022, F64.bits 5944751508129055 1021,
  F64.bits 748723438050345 1024, F64.bits 377176468792279 1025, F64.bits 6034823500676465 1021,
  F64.bits 3039929748475085 1022, F64.bits 3062447746611937 1022, F64.bits 6169931489497579 1021,
  F64.bits 1542482872374395 1023, F64.bits 1553741871442821 1023, F64.bits 3130001741022495 1022,
  F64.bits 3152519739159347 1022, F64.bits 396879717162025 1025, F64.bits 799388933858263 1024,
  F64.bits 201254608348119 1026, F64.bits 6440147467139809 1021, F64.bits 3220073733569905 1022,
  F64.bits 3242591731706757 1022, F64.bits 6530219459687219 1021, F64.bits 1632554864921805 1023,
  F64.bits 1643813863990231 1023, F64.bits 6620291452234629 1021, F64.bits 3310145726117315 1022,
  F64.bits 3332663724254167 1022, F64.bits 3355181722391019 1022, F64.bits 6710363444782039 1021,
  F64.bits 3 1072, F64.bits 6800435437329449 1021, F64.bits 3422735716801577 1022,
  F64.bits 1733885856537641 1023, F64.bits 1745144855606067 1023, F64.bits 6980579422424269 1021,
  F64.bits 3535325707485839 1022, F64.bits 7070651414971679 1021, F64.bits 889460926405673 1024,
  F64.bits 3602879701896397 1022, F64.bits 3625397700033249 1022, F64.bits 3692951694443807 1022,
  F64.bits 940126422213591 1024, F64.bits 1914029841632461 1023]

/-- The check of C1 on a weighted confidence: rounded to three decimals it lies in [0, 1],
and it reaches 0.75 exactly when the unrounded one reaches the threshold. -/
def confidenceCheck (confidence : F64) : Bool :=
  let rounded := F64.toFixed 3 confidence
  decide (0 ≤ rounded) && decide (rounded ≤ 1) &&
    (decide (confidence ≥ DETECTION_THRESHOLD) == decide (rounded ≥ F64.lit 75 100))

end Detector

namespace Detector

/-- The number of patterns of a list that match a string. -/
def matchCount (patterns : List Pattern) (s : JSString) : Nat :=
  patterns.countP fun p => p.test s

/-- The sources of the patterns of a list that match a string, in list order. -/
def matchedSources (patterns : List Pattern) (s : JSString) : List String :=
  (patterns.filter fun p => p.test s).map Pattern.source

end Detector

namespace Detector

/-- The structure scores of three or more matching header patterns. -/
def structureValsFrom3 : List F64 :=
  [F64.lit 4 10, F64.lit 5 10, F64.lit 7 10, F64.lit 8 10,
   F64.bits 8106479329266892 1021, 1]

/-- A URL that matches five URL patterns and has the three special words. -/
def legalUrl : JSString := "https://x.com/legal/privacy-policy/terms-of-service/eula/tos".toList

/-- A short title that matches four title patterns. -/
def legalTitle : JSString := "EULA Privacy Policy Terms of Use Cookie Policy".toList

/-- A body of 108 characters with eleven keywords and two headers. -/
def legalBody : JSString :=
  ("hereby herein cookies disclaim liability indemnify wherefore warranties " ++
    "arbitration termination jurisdiction").toList

/-- A body of 145 characters with ten keywords and three headers. -/
def policyBody : JSString :=
  ("hereby herein cookies disclaim liability indemnify wherefore governing law " ++
    "arbitration termination and more text is here to make it long enough").toList

end Detector

namespace Detector

/-- The URL of the end-to-end example of the specification. -/
def exampleUrl : JSString := "https://example.com/privacy-policy".toList

/-- The title of the end-to-end example of the specification. -/
def exampleTitle : JSString := "Privacy Policy".toList

/-- The number of header patterns that match a body. -/
def countHeaders (content : JSString) : Nat := matchCount LEGAL_HEADERS content

/-- The check of the example page on a content and a structure score: the confidence is
below the threshold and, rounded, at most 0.625. -/
def exampleCheck (c s : F64) : Bool :=
  let confidence := confidenceOf (F64.lit 25 100) (F64.lit 4 10) c s
  decide (confidence < DETECTION_THRESHOLD) &&
    decide (F64.toFixed 3 confidence ≤ F64.lit 625 1000)

end Detector

namespace Detector

/-- The reasons of a page found legal, in the words of the specification: in the order
URL, title, content, structure, one entry for each threshold that holds. -/
def reasonEntries (factors : Factors) : List String :=
  (if factors.url.score > F64.lit 3 10 then ["URL contains legal keywords"] else []) ++
  (if factors.title.score > F64.lit 3 10 then ["Page title indicates legal document"]
    else []) ++
  (if factors.content.keywordMatches ≥ 7 then
    ["Found " ++ toString factors.content.keywordMatches ++ " legal terms"] else []) ++
  (if factors.struct.headerMatches.length ≥ 3 then
    ["Contains " ++ toString factors.struct.headerMatches.length ++ " legal section headers"]
    else [])

/-- The call `isLegalPage(url, title, content)` with arguments that may be `undefined`
(`none`): each of the four analyses starts with the guard `!x`, which an undefined
argument takes as the empty string does, and nothing else reads the arguments. -/
def isLegalPageArgs (url title content : Option JSString) : Detection :=
  isLegalPage (url.getD []) (title.getD []) (content.getD [])

/-- An argument that is undefined or the empty string. -/
def absent (x : Option JSString) : Prop := x = none ∨ x = some []

/-- The URL and title scores that do not exceed 0.3, with the content scores of fewer than
7 keywords and the structure scores of fewer than 3 headers: the confidence stays below
the threshold. -/
def belowThresholds (u t : F64) : Bool :=
  decide (F64.lit 3 10 < u) || decide (F64.lit 3 10 < t) ||
    [0, F64.lit 2 10, F64.lit 4 10].all fun c =>
      [0, F64.lit 1 10, F64.lit 2 10].all fun s =>
        decide (confidenceOf u t c s < DETECTION_THRESHOLD)

end Detector

/-! ## The URL score as a formula, the content steps and the keyword overlaps -/

namespace Detector

/-- The URL score in the words of the specification, as a number:
`min(1, 0.15 * k + 0.10 * [privacy] + 0.10 * [terms] + 0.05 * [legal])`. -/
def urlScoreExact (k : Nat) (privacy terms legal : Bool) : ℚ :=
  min 1
    (15 / 100 * (k : ℚ) + 10 / 100 * (if privacy then 1 else 0) +
      10 / 100 * (if terms then 1 else 0) + 5 / 100 * (if legal then 1 else 0))

/-- The same number in hundredths. -/
def urlScoreHundredths (k : Nat) (privacy terms legal : Bool) : Nat :=
  min 100
    (15 * k + (if privacy then 10 else 0) + (if terms then 10 else 0) +
      (if legal then 5 else 0))

/-- Whether a double lies within 2^-53 of `n / 100`: both sides in units of 2^-1074,
times 100. -/
def nearHundredths (x : F64) (n : Nat) : Bool :=
  decide ((x.units * 100 - ((n * Nat.pow 2 1074 : Nat) : Int)).natAbs ≤ 100 * Nat.pow 2 1021)

/-- A URL that matches six URL patterns and has none of the three special words. -/
def sixUrl : JSString :=
  "https://x.com/user-agreement/tos/eula/end-user-license/cookie-policy/data-policy".toList

/-- The steps of the content score in the words of the specification: the least number of
keywords of each step and its score, from the highest step down. -/
def contentSteps : List (Nat × F64) :=
  [(15, 1), (10, F64.lit 8 10), (7, F64.lit 6 10), (5, F64.lit 4 10), (3, F64.lit 2 10)]

/-- The step function of the specification: the score of the first step reached, otherwise
0. -/
def stepScore (n : Nat) : F64 :=
  match contentSteps.find? fun step => step.1 ≤ n with
  | some step => step.2
  | none => 0

/-- The vocabulary as `analyzeContent` looks it up: every keyword lower-cased. -/
def vocabulary : List JSString :=
  LEGAL_KEYWORDS.map fun keyword => JS.toLowerCase keyword.toList

/-- Whether an occurrence of the keyword `b` can start `d` code units after the start of an
occurrence of the keyword `a` that has not ended yet: the rest of `a` and `b` agree as far
as both go. -/
def overlapsAt (a b : JSString) (d : Nat) : Bool :=
  decide (a.drop d <+: b) || decide (b <+: a.drop d)

/-- The least distance after the start of an occurrence of the keyword `a` at which an
occurrence of another keyword can start; the length of `a` when none can start inside
it. -/
def gap (a : JSString) : Nat :=
  ((List.range a.length).find? fun d =>
    vocabulary.any fun b => b != a && overlapsAt a b d).getD a.length

/-- The last code unit of the lower case of a code unit: the text made of these has the
length of the original and, U+0307 apart, the code units of its lower case. -/
def lowerImage (c : Char) : Char :=
  if c = '\u212A' then 'k' else if c = '\u0130' then '\u0307' else c.toLower

/-- The sum of the gaps of the keywords that occur in a text. -/
def weight (t : JSString) : Nat :=
  (vocabulary.map fun k => if k <:+: t then gap k else 0).sum

/-- A body of 415 characters with 24 keywords and twelve headers. -/
def fullBody : JSString :=
  ("Acceptance of Terms. User Obligations. Intellectual Property Rights. " ++
    "Disclaimer of Warranties. Limitation of Liability. Indemnification. Termination. " ++
    "Governing Law. Dispute Resolution. Arbitration. Data Collection. Prohibited Conduct. " ++
    "hereby herein aforementioned wherefore notwithstanding indemnify disclaim " ++
    "jurisdiction force majeure confidentiality personal data third parties cookies " ++
    "user content acceptable use").toList

/-- Fifteen keywords of the vocabulary. -/
def fifteenKeywords : List String := LEGAL_KEYWORDS.take 15

end Detector

/-! ## Risk levels and document types -/

namespace Analyzer

/-- The order of the risk levels: low < medium < high. -/
def levelRank (level : String) : Nat :=
  if level = "high" then 2 else if level = "medium" then 1 else 0

/-- The rules of document-type detection in the words of the specification: the types in
the order privacy_policy, terms_of_service, cookie_policy, eula, each with its substring
check on the lower-cased text. -/
def documentTypeRules : List (String × (JSString → Bool)) := [
  ("privacy_policy", fun lower =>
    JS.includes lower "privacy".toList && JS.includes lower "policy".toList),
  ("terms_of_service", fun lower =>
    JS.includes lower "terms".toList &&
      (JS.includes lower "service".toList || JS.includes lower "use".toList)),
  ("cookie_policy", fun lower => JS.includes lower "cookie".toList),
  ("eula", fun lower => JS.includes lower "eula".toList)]

/-- The type of the first rule that matches the lower-cased text, `legal_document` when no
rule matches. -/
def firstMatchingRule (text : JSString) : String :=
  match documentTypeRules.find? fun rule => rule.2 (JS.toLowerCase text) with
  | some rule => rule.1
  | none => "legal_document"

/-- A document of 111 characters that mentions a privacy policy, cookies and a EULA. -/
def sampleDocument : JSString :=
  ("This Privacy Policy explains our use of cookies; the EULA and the license " ++
    "terms apply as well to every visitor.").toList

end Analyzer

/-! ## The chunk and merge interface -/

namespace Analyzer

/-- A glossary term, as `buildGlossary` hands it on. -/
structure GlossaryTerm where
  term : String
  definition : String
deriving DecidableEq

/-- The analysis result of one chunk; a field is `none` when the result does not have
it. -/
structure ChunkResult where
  risks : Option (List Finding)
  terms : Option (List GlossaryTerm)
  keyPoints : Option (List String)

/-- The merged result of the chunks. -/
structure MergedResult where
  risks : List Finding
  terms : List GlossaryTerm
  keyPoints : List String
deriving DecidableEq

/-- The filter of `deduplicateArray`; `seen` holds the key values met so far. -/
def deduplicateFrom {α κ : Type} [DecidableEq κ] (key : α → κ) : List κ → List α → List α
  | _, [] => []
  | seen, item :: rest =>
    if key item ∈ seen then deduplicateFrom key seen rest
    else item :: deduplicateFrom key (key item :: seen) rest

/-- Remove duplicate objects from array based on key. -/
def deduplicateArray {α κ : Type} [DecidableEq κ] (array : List α) (key : α → κ) : List α :=
  deduplicateFrom key [] array

/-- The expression `[...new Set(array)]`: the values of the array in the order of their
first insertion into the set. -/
def uniqueValues {α : Type} [DecidableEq α] (array : List α) : List α :=
  array.foldl (fun set value => if value ∈ set then set else set ++ [value]) []

/-- The three lists after the `forEach` loop of `mergeChunkResults`. -/
def collectChunkResults (chunkResults : List ChunkResult) : MergedResult :=
  chunkResults.foldl
    (fun merged result =>
      { risks := match result.risks with
          | some risks => merged.risks ++ risks
          | none => merged.risks,
        terms := match result.terms with
          | some terms => merged.terms ++ terms
          | none => merged.terms,
        keyPoints := match result.keyPoints with
          | some keyPoints => merged.keyPoints ++ keyPoints
          | none => merged.keyPoints })
    ⟨[], [], []⟩

/-- Merge analysis results from multiple chunks. -/
def mergeChunkResults (chunkResults : List ChunkResult) : MergedResult :=
  let merged := collectChunkResults chunkResults
  { risks := deduplicateArray merged.risks Finding.clause,
    terms := deduplicateArray merged.terms GlossaryTerm.term,
    keyPoints := uniqueValues merged.keyPoints }

/-- The merge of one list in the words of the specification: every item whose key already
occurred earlier is removed, so the first item of each key is kept and the order of the
items that remain is preserved. -/
def firstOccurrences {α κ : Type} [DecidableEq κ] (key : α → κ) : List α → List α
  | [] => []
  | item :: rest => item :: (firstOccurrences key rest).filter fun later => key later ≠ key item

/-- Whether a code unit is one of the sentence ends `.`, `!` and `?`. -/
def isSentenceEnd (c : Char) : Bool := c == '.' || c == '!' || c == '?'

/-- The pieces of `text.split(/[.!?]+/)`: `cur` is the piece being read, in reverse, and the
flag says whether the previous code unit was a sentence end. -/
def splitSentencesAux : Bool → JSString → JSString → List JSString
  | _, cur, [] => [cur.reverse]
  | inRun, cur, c :: cs =>
    if isSentenceEnd c then
      (if inRun then splitSentencesAux true cur cs
        else cur.reverse :: splitSentencesAux true [] cs)
    else splitSentencesAux false (c :: cur) cs

/-- The call `text.split(/[.!?]+/)`. -/
def splitSentences (text : JSString) : List JSString := splitSentencesAux false [] text

/-- One round of the loop of `chunkText` on the pair of `chunks` and `currentChunk`. -/
def chunkStep (chunkSize : Nat) (state : List JSString × JSString) (sentence : JSString) :
    List JSString × JSString :=
  if state.2.length + sentence.length > chunkSize ∧ state.2.length > 0 then
    (state.1 ++ [JS.trim state.2], sentence)
  else (state.1, state.2 ++ (sentence ++ ". ".toList))

/-- Chunk large text into smaller pieces. -/
def chunkText (text : JSString) (chunkSize : Nat) : List JSString :=
  let r := (splitSentences text).foldl (chunkStep chunkSize) ([], [])
  if (JS.trim r.2).isEmpty then r.1 else r.1 ++ [JS.trim r.2]

end Analyzer

/-! ## The prompt-session cache -/

namespace Analyzer

/-- The entry `sessionCache.prompt[outputLanguage]` of one output language, together with
the number of calls of the provider's `create` made so far. A session is named by the
number of the call that made it. -/
structure PromptCache where
  cached : Option Nat
  created : Nat
deriving DecidableEq

/-- The point a call of `getPromptSession` has reached when it first gives up control: it
has returned the cached session, or it has called `create` and awaits the session. -/
inductive Request where
  | returned (session : Nat)
  | creating (session : Nat)
deriving DecidableEq

/-- The function `getPromptSession` up to its `await`: the look-up in the cache and, when
the entry is empty, the call of `create`. -/
def getPromptSessionStart (s : PromptCache) : Request × PromptCache :=
  match s.cached with
  | some session => (Request.returned session, s)
  | none => (Request.creating s.created, { s with created := s.created + 1 })

/-- The function `getPromptSession` after its `await`, run when the creation has completed:
the session is stored in the cache and returned. -/
def getPromptSessionResume (r : Request) (s : PromptCache) : Nat × PromptCache :=
  match r with
  | Request.returned session => (session, s)
  | Request.creating session => (session, { s with cached := some session })

/-- The starts of `n` calls of `getPromptSession` in one synchronous turn, as made by the
sub-analyses that `analyzeDocument` starts inside `Promise.all`. -/
def startRequests : Nat → PromptCache → List Request × PromptCache
  | 0, s => ([], s)
  | n + 1, s =>
    let first := getPromptSessionStart s
    let others := startRequests n first.2
    (first.1 :: others.1, others.2)

/-- The completions of the calls, in the order of their starts. -/
def resumeRequests : List Request → PromptCache → List Nat × PromptCache
  | [], s => ([], s)
  | r :: rs, s =>
    let first := getPromptSessionResume r s
    let others := resumeRequests rs first.2
    (first.1 :: others.1, others.2)

/-- The sessions that `n` calls started in one turn receive, and the cache afterwards. -/
def concurrentRequests (n : Nat) (s : PromptCache) : List Nat × PromptCache :=
  let started := startRequests n s
  resumeRequests started.1 started.2

/-- The sessions that `n` calls receive when each call completes before the next one
starts, and the cache afterwards. -/
def sequentialRequests : Nat → PromptCache → List Nat × PromptCache
  | 0, s => ([], s)
  | n + 1, s =>
    let started := getPromptSessionStart s
    let first := getPromptSessionResume started.1 started.2
    let others := sequentialRequests n first.2
    (first.1 :: others.1, others.2)

/-- The empty cache of a fresh service worker. -/
def emptyCache : PromptCache := ⟨none, 0⟩

end Analyzer

/-! ## `src/content.js` -/

namespace ContentScript

open Re

/-- The patterns of the quick check of the content script. -/
def legalPatterns : List Pattern := [
  ⟨"/privacy[-_]?policy/i", cat [lit "privacy", Detector.sep, lit "policy"], true⟩,
  ⟨"/terms[-_]?of[-_]?(service|use)/i",
    cat [lit "terms", Detector.sep, lit "of", Detector.sep,
      alt (lit "service") (lit "use")], true⟩,
  ⟨"/terms[-_]?and[-_]?conditions/i",
    cat [lit "terms", Detector.sep, lit "and", Detector.sep, lit "conditions"], true⟩,
  ⟨"/user[-_]?agreement/i", cat [lit "user", Detector.sep, lit "agreement"], true⟩,
  ⟨"/legal/i", lit "legal", true⟩,
  ⟨"/\\btos\\b/i", cat [wordb, lit "tos", wordb], true⟩,
  ⟨"/eula/i", lit "eula", true⟩,
  ⟨"/cookie[-_]?policy/i", cat [lit "cookie", Detector.sep, lit "policy"], true⟩]

/-- Quick check for legal indicators (URL and title only). -/
def quickCheck (url title : JSString) : Bool :=
  let combined := JS.toLowerCase (url ++ " ".toList ++ title)
  legalPatterns.any fun pattern => pattern.test combined

/-- The URL of a page with a data policy and a privacy page. -/
def gateUrl : JSString := "https://example.com/data-policy/privacy.html".toList

/-- A title of 46 characters that names three documents. -/
def gateTitle : JSString := "Privacy Policy, Cookie Policy and Terms of Use".toList

end ContentScript

/-! ## Slices of the value lists -/

namespace Detector

/-- The slice number `i` of a list cut into slices of `n` elements. -/
def chunk {α : Type} (n i : Nat) (l : List α) : List α := (l.drop (n * i)).take n

end Detector

/-! ## Theorems -/

namespace Analyzer

/-- Dropping a run from the front stops at a character that does not belong to it. -/
theorem dropWhile_append_stop (P : Char → Bool) (a : List Char) (x : Char) (t : List Char)
    (hx : P x = false) : (a ++ x :: t).dropWhile P = a.dropWhile P ++ x :: t := by
  induction a with
  | nil => simp [List.dropWhile, hx]
  | cons c cs ih =>
    by_cases hc : P c = true
    · simp [List.dropWhile, hc, ih]
    · simp [List.dropWhile, hc]

/-- Dropping a run from the back stops at a character that does not belong to it. -/
theorem dropWhile_reverse_stop (P : Char → Bool) (t : List Char) (x : Char) (b : List Char)
    (hx : P x = false) :
    ((t ++ x :: b).reverse.dropWhile P).reverse = t ++ x :: (b.reverse.dropWhile P).reverse := by
  have h : (t ++ x :: b).reverse = b.reverse ++ x :: t.reverse := by simp
  rw [h, dropWhile_append_stop P _ x _ hx]
  simp

/-- What is left of a list after dropping a run from its back was in the list. -/
theorem mem_of_mem_dropWhile_reverse (P : Char → Bool) (b : List Char) (c : Char)
    (h : c ∈ (b.reverse.dropWhile P).reverse) : c ∈ b := by
  have h1 : c ∈ b.reverse.dropWhile P := List.mem_reverse.mp h
  have h2 : c ∈ b.reverse := (List.dropWhile_sublist P).subset h1
  exact List.mem_reverse.mp h2

/-- The trim keeps a region between `{` and `}` and what is left around it was there. -/
theorem trim_region (a t b : List Char) :
    ∃ a1 b1, JS.trim (a ++ '{' :: (t ++ '}' :: b)) = a1 ++ '{' :: (t ++ '}' :: b1) ∧
      (∀ c ∈ a1, c ∈ a) ∧ (∀ c ∈ b1, c ∈ b) := by
  refine ⟨a.dropWhile JS.isSpace, (b.reverse.dropWhile JS.isSpace).reverse, ?_, ?_, ?_⟩
  · unfold JS.trim
    rw [dropWhile_append_stop JS.isSpace a '{' _ (by decide)]
    have h : a.dropWhile JS.isSpace ++ '{' :: (t ++ '}' :: b)
        = (a.dropWhile JS.isSpace ++ '{' :: t) ++ '}' :: b := by simp
    rw [h, dropWhile_reverse_stop JS.isSpace _ '}' b (by decide)]
    simp
  · intro c hc
    exact (List.dropWhile_sublist _).subset hc
  · intro c hc
    exact mem_of_mem_dropWhile_reverse _ _ _ hc

end Analyzer

namespace Analyzer

/-- A prefix of `n` characters that has no `{` lies before the first `{`. -/
theorem length_ge_of_take_no_brace (a r : List Char) (n : Nat)
    (h : '{' ∉ (a ++ '{' :: r).take n) : n ≤ a.length := by
  by_contra hlt
  push_neg at hlt
  apply h
  rw [List.take_append_eq_append_take]
  have h1 : n - a.length = (n - a.length - 1) + 1 := by omega
  rw [h1, List.take_succ_cons]
  simp

/-- Removing the opening `json` fence keeps the text from its first `{` on. -/
theorem stripJsonFence_region (a r : List Char) :
    ∃ a1, stripJsonFence (a ++ '{' :: r) = a1 ++ '{' :: r ∧ ∀ c ∈ a1, c ∈ a := by
  unfold stripJsonFence
  split
  · rename_i hfence
    have hlen : 7 ≤ a.length := by
      apply length_ge_of_take_no_brace a r 7
      intro hmem
      have h2 : Char.toLower '{' ∈ ((a ++ '{' :: r).take 7).map Char.toLower :=
        List.mem_map_of_mem _ hmem
      rw [hfence] at h2
      revert h2
      decide
    refine ⟨(a.drop 7).dropWhile JS.isSpace, ?_, ?_⟩
    · rw [List.drop_append_of_le_length hlen, dropWhile_append_stop _ _ _ _ (by decide)]
    · intro c hc
      exact (List.drop_sublist 7 a).subset ((List.dropWhile_sublist _).subset hc)
  · exact ⟨a, rfl, fun c hc => hc⟩

/-- Removing a bare opening fence keeps the text from its first `{` on. -/
theorem stripOpenFence_region (a r : List Char) :
    ∃ a1, stripOpenFence (a ++ '{' :: r) = a1 ++ '{' :: r ∧ ∀ c ∈ a1, c ∈ a := by
  unfold stripOpenFence
  split
  · rename_i hfence
    have hlen : 3 ≤ a.length := by
      apply length_ge_of_take_no_brace a r 3
      rw [hfence]
      decide
    refine ⟨(a.drop 3).dropWhile JS.isSpace, ?_, ?_⟩
    · rw [List.drop_append_of_le_length hlen, dropWhile_append_stop _ _ _ _ (by decide)]
    · intro c hc
      exact (List.drop_sublist 3 a).subset ((List.dropWhile_sublist _).subset hc)
  · exact ⟨a, rfl, fun c hc => hc⟩

/-- A suffix of `n` characters that has no `}` lies after the last `}`. -/
theorem length_ge_of_take_reverse_no_brace (t b : List Char) (n : Nat)
    (h : '}' ∉ (t ++ '}' :: b).reverse.take n) : n ≤ b.length := by
  by_contra hlt
  push_neg at hlt
  apply h
  have hr : (t ++ '}' :: b).reverse = b.reverse ++ '}' :: t.reverse := by simp
  rw [hr, List.take_append_eq_append_take]
  have h1 : n - b.reverse.length = (n - b.length - 1) + 1 := by
    rw [List.length_reverse]; omega
  rw [h1, List.take_succ_cons]
  simp

/-- Removing the closing fence keeps the text up to its last `}`. -/
theorem stripCloseFence_region (t b : List Char) :
    ∃ b1, stripCloseFence (t ++ '}' :: b) = t ++ '}' :: b1 ∧ ∀ c ∈ b1, c ∈ b := by
  unfold stripCloseFence
  split
  · rename_i hfence
    have hlen : 3 ≤ b.length := by
      apply length_ge_of_take_reverse_no_brace t b 3
      rw [hfence]
      decide
    have hr : (t ++ '}' :: b).reverse = b.reverse ++ '}' :: t.reverse := by simp
    refine ⟨((b.reverse.drop 3).dropWhile JS.isSpace).reverse, ?_, ?_⟩
    · rw [hr, List.drop_append_of_le_length (by rw [List.length_reverse]; exact hlen),
        dropWhile_append_stop _ _ _ _ (by decide)]
      simp
    · intro c hc
      have h1 : c ∈ (b.reverse.drop 3).dropWhile JS.isSpace := List.mem_reverse.mp hc
      have h2 : c ∈ b.reverse :=
        (List.drop_sublist 3 _).subset ((List.dropWhile_sublist _).subset h1)
      exact List.mem_reverse.mp h2
  · exact ⟨b, rfl, fun c hc => hc⟩

/-- Dropping up to a character that is not in the list drops the list. -/
theorem dropWhile_ne_of_not_mem (x : Char) (a : List Char) (h : x ∉ a) :
    a.dropWhile (fun c => c != x) = [] := by
  induction a with
  | nil => rfl
  | cons c cs ih =>
    have hc : c ≠ x := fun e => h (by simp [e])
    have hcs : x ∉ cs := fun e => h (by simp [e])
    have hb : (c != x) = true := by simp [hc]
    simp only [List.dropWhile, hb]
    exact ih hcs

/-- The brace match of a text with no `{` before a region and no `}` after it is the
region. -/
theorem matchBraces_region (a t b : List Char) (ha : '{' ∉ a) (hb : '}' ∉ b) :
    matchBraces (a ++ '{' :: (t ++ '}' :: b)) = some ('{' :: (t ++ ['}'])) := by
  unfold matchBraces
  have h1 : (a ++ '{' :: (t ++ '}' :: b)).dropWhile (fun c => c != '{')
      = '{' :: (t ++ '}' :: b) := by
    rw [dropWhile_append_stop _ a '{' _ (by decide), dropWhile_ne_of_not_mem '{' a ha]
    rfl
  have h2 : ('{' :: (t ++ '}' :: b)) = ('{' :: t) ++ '}' :: b := by simp
  have hbr : '}' ∉ b.reverse := fun h => hb (List.mem_reverse.mp h)
  simp only [h1]
  rw [h2, dropWhile_reverse_stop _ _ '}' b (by decide), dropWhile_ne_of_not_mem '}' _ hbr]
  simp

/-- The text handed to `JSON.parse` for a response with no `{` before a region from `{`
to `}` and no `}` after it is that region. -/
theorem cleanResponse_region (a t b : List Char) (ha : '{' ∉ a) (hb : '}' ∉ b) :
    cleanResponse (a ++ '{' :: (t ++ '}' :: b)) = '{' :: (t ++ ['}']) := by
  unfold cleanResponse
  obtain ⟨a1, b1, h1, ha1, hb1⟩ := trim_region a t b
  obtain ⟨a2, h2, ha2⟩ := stripJsonFence_region a1 (t ++ '}' :: b1)
  obtain ⟨a3, h3, ha3⟩ := stripOpenFence_region a2 (t ++ '}' :: b1)
  have e3 : a3 ++ '{' :: (t ++ '}' :: b1) = (a3 ++ '{' :: t) ++ '}' :: b1 := by simp
  obtain ⟨b4, h4, hb4⟩ := stripCloseFence_region (a3 ++ '{' :: t) b1
  have e4 : (a3 ++ '{' :: t) ++ '}' :: b4 = a3 ++ '{' :: (t ++ '}' :: b4) := by simp
  simp only [h1, h2, h3, e3, h4]
  rw [e4, matchBraces_region a3 t b4 (fun h => ha (ha1 _ (ha2 _ (ha3 _ h))))
    (fun h => hb (hb1 _ (hb4 _ h)))]

end Analyzer

namespace Analyzer

/-- C5: for every list of findings `calculateRiskScore` is the first match of the ordered
rule table over the numbers of `high` and `medium` findings, and the five sample lists
give `high`, `high`, `medium`, `low` and `low`. -/
theorem calculateRiskScore_rule_table :
    (∀ risks : List Finding,
      calculateRiskScore risks =
        riskRuleTable (countSeverity "high" risks) (countSeverity "medium" risks)) ∧
    (∀ a b : Finding,
      calculateRiskScore [{ a with severity := "high" }, { b with severity := "high" }]
        = "high") ∧
    (∀ a b c : Finding,
      calculateRiskScore [{ a with severity := "high" }, { b with severity := "medium" },
        { c with severity := "medium" }] = "high") ∧
    (∀ a b c : Finding,
      calculateRiskScore [{ a with severity := "medium" }, { b with severity := "medium" },
        { c with severity := "medium" }] = "medium") ∧
    calculateRiskScore [] = "low" ∧
    (∀ a : Finding, calculateRiskScore [{ a with severity := "low" }] = "low") := by
  refine ⟨?_, ?_, ?_, ?_, ?_, ?_⟩
  · intro risks
    cases risks with
    | nil => rfl
    | cons r rs =>
      simp only [calculateRiskScore, riskRuleTable, countSeverity, List.countP_eq_length_filter,
        List.length_cons, Nat.succ_ne_zero, if_false]
  · intro a b; simp [calculateRiskScore, List.filter]
  · intro a b c; simp [calculateRiskScore, List.filter]
  · intro a b c; simp [calculateRiskScore, List.filter]
  · rfl
  · intro a; simp [calculateRiskScore, List.filter]

/-- A text that starts with `{` and ends with `}` is `{`, a middle part and `}`. -/
theorem braces_split (J : JSString) (hopen : J.head? = some '{')
    (hclose : J.getLast? = some '}') : ∃ t, J = '{' :: (t ++ ['}']) := by
  cases J with
  | nil => simp at hopen
  | cons c r =>
    simp only [List.head?_cons, Option.some.injEq] at hopen
    subst hopen
    rcases List.eq_nil_or_concat r with hr | ⟨t, x, hr⟩
    · subst hr; simp at hclose
    · subst hr
      rw [List.concat_eq_append] at hclose ⊢
      have hlast : ('{' :: (t ++ [x])).getLast? = some x := by
        rw [← List.cons_append, List.getLast?_append]; simp
      rw [hlast] at hclose
      simp only [Option.some.injEq] at hclose
      exact ⟨t, by rw [hclose]⟩

/-- C6: for every JSON object text `J` (it starts with `{` and ends with `}`),
`parseJSONResponse` gives the same value for `J` wrapped in code fences, with the opening
fence ```` ```json ```` or the bare one, as for `J` itself. -/
theorem parseJSONResponse_fenced (J : JSString) (hopen : J.head? = some '{')
    (hclose : J.getLast? = some '}') :
    parseJSONResponse (JSValue.str ("```json\n".toList ++ J ++ "\n```".toList))
      = parseJSONResponse (JSValue.str J) ∧
    parseJSONResponse (JSValue.str ("```\n".toList ++ J ++ "\n```".toList))
      = parseJSONResponse (JSValue.str J) := by
  obtain ⟨t, rfl⟩ := braces_split J hopen hclose
  have h0 : cleanResponse ('{' :: (t ++ ['}'])) = '{' :: (t ++ ['}']) := by
    have := cleanResponse_region [] t [] (by simp) (by simp)
    simpa using this
  have h1 : cleanResponse ("```json\n".toList ++ '{' :: (t ++ ['}']) ++ "\n```".toList)
      = '{' :: (t ++ ['}']) := by
    have := cleanResponse_region "```json\n".toList t "\n```".toList (by decide) (by decide)
    simpa using this
  have h2 : cleanResponse ("```\n".toList ++ '{' :: (t ++ ['}']) ++ "\n```".toList)
      = '{' :: (t ++ ['}']) := by
    have := cleanResponse_region "```\n".toList t "\n```".toList (by decide) (by decide)
    simpa using this
  simp only [parseJSONResponse, parseJSONAttempt, h0, h1, h2, and_self]

/-- C6, at the response of the specification: the fenced ```` ```json ```` form of
`{"risks":[]}`. -/
theorem parseJSONResponse_fenced_witness :
    parseJSONResponse (JSValue.str ("```json\n".toList ++ "\x7b\"risks\":[]\x7d".toList ++ "\n```".toList))
      = parseJSONResponse (JSValue.str "\x7b\"risks\":[]\x7d".toList) ∧
    parseJSONResponse (JSValue.str ("```\n".toList ++ "\x7b\"risks\":[]\x7d".toList ++ "\n```".toList))
      = parseJSONResponse (JSValue.str "\x7b\"risks\":[]\x7d".toList) :=
  parseJSONResponse_fenced "\x7b\"risks\":[]\x7d".toList (by decide) (by decide)

end Analyzer

namespace Analyzer

/-- C7: `parseJSONResponse` is total and never hands on an error: for every response the
result is a non-null object; a response that is not a string, a text whose extracted
region does not parse, and a text that parses to `null` or to another non-object all give
the empty structure `{risks: [], terms: [], keyPoints: []}`, as do the sample responses
`undefined`, a number, prose without JSON, `{bad}`, `null` and `42`. -/
theorem parseJSONResponse_total :
    (∀ response : JSValue, (parseJSONResponse response).isObject = true) ∧
    (∀ response : JSValue, (∀ text, response ≠ JSValue.str text) →
      parseJSONResponse response = emptyStructure) ∧
    (∀ text : JSString, JSON.parse (cleanResponse text) = none →
      parseJSONResponse (JSValue.str text) = emptyStructure) ∧
    (∀ (text : JSString) (v : JSValue), JSON.parse (cleanResponse text) = some v →
      v.isObject = false → parseJSONResponse (JSValue.str text) = emptyStructure) ∧
    parseJSONResponse JSValue.undefined = emptyStructure ∧
    parseJSONResponse (JSValue.num 7) = emptyStructure ∧
    parseJSONResponse (JSValue.str "I cannot help with that.".toList) = emptyStructure ∧
    parseJSONResponse (JSValue.str "\x7bbad\x7d".toList) = emptyStructure ∧
    parseJSONResponse (JSValue.str "null".toList) = emptyStructure ∧
    parseJSONResponse (JSValue.str "42".toList) = emptyStructure := by
  refine ⟨?_, ?_, ?_, ?_, rfl, rfl, rfl, rfl, rfl, ?_⟩
  · intro response
    cases response with
    | str text =>
      simp only [parseJSONResponse, parseJSONAttempt]
      cases hp : JSON.parse (cleanResponse text) with
      | none => rfl
      | some parsed =>
        by_cases ho : parsed.isObject = true
        · simp only [ho, if_true]
        · simp only [ho]
          rfl
    | _ => rfl
  · intro response hns
    cases response with
    | str text => exact absurd rfl (hns text)
    | _ => rfl
  · intro text hp
    simp only [parseJSONResponse, parseJSONAttempt, hp]
  · intro text v hp hv
    simp only [parseJSONResponse, parseJSONAttempt, hp, hv]
    rfl
  · have h : ∃ q, JSON.parse (cleanResponse "42".toList) = some (JSValue.num q) := ⟨_, rfl⟩
    obtain ⟨q, hq⟩ := h
    simp only [parseJSONResponse, parseJSONAttempt, hq]
    rfl

/-- C8, as stated, fails: in the response `{"risks":[]} and also {x}` the first balanced
region is `{"risks":[]}`, which denotes an object with the one member `risks`, but
`parseJSONResponse` returns the empty structure, a different object. -/
theorem parseJSONResponse_trailing_brace_counterexample :
    parseJSONResponse (JSValue.str "\x7b\"risks\":[]\x7d and also \x7bx\x7d".toList) = emptyStructure ∧
    JSON.parse "\x7b\"risks\":[]\x7d".toList = some (JSValue.obj [("risks".toList, JSValue.arr [])]) ∧
    cleanResponse "\x7b\"risks\":[]\x7d and also \x7bx\x7d".toList = "\x7b\"risks\":[]\x7d and also \x7bx\x7d".toList ∧
    emptyStructure ≠ JSValue.obj [("risks".toList, JSValue.arr [])] := by
  refine ⟨rfl, rfl, rfl, ?_⟩
  intro h
  simp [emptyStructure] at h

/-- C8, amended: for every response `prose1 ++ J ++ prose2` where `J` starts with `{`, ends
with `}` and is the text of a JSON object `v`, `prose1` has no `{` and `prose2` has no `}`,
`parseJSONResponse` returns `v`. The region parsed runs from the first `{` to the last `}`
of the response. -/
theorem parseJSONResponse_embedded (prose1 J prose2 : JSString) (v : JSValue)
    (hopen : J.head? = some '{') (hclose : J.getLast? = some '}')
    (h1 : '{' ∉ prose1) (h2 : '}' ∉ prose2)
    (hv : JSON.parse J = some v) (hobj : v.isObject = true) :
    parseJSONResponse (JSValue.str (prose1 ++ J ++ prose2)) = v := by
  obtain ⟨t, rfl⟩ := braces_split J hopen hclose
  have hc : cleanResponse (prose1 ++ '{' :: (t ++ ['}']) ++ prose2) = '{' :: (t ++ ['}']) := by
    have := cleanResponse_region prose1 t prose2 h1 h2
    simpa using this
  simp only [parseJSONResponse, parseJSONAttempt, hc, hv, hobj, if_true]

/-- C8, amended, at a response with prose and an opening brace after the object. -/
theorem parseJSONResponse_embedded_witness :
    parseJSONResponse (JSValue.str ("Here you go: ".toList ++ "\x7b\"risks\":[]\x7d".toList ++
      " and also \x7bx".toList)) = JSValue.obj [("risks".toList, JSValue.arr [])] :=
  parseJSONResponse_embedded "Here you go: ".toList "\x7b\"risks\":[]\x7d".toList
    " and also \x7bx".toList (JSValue.obj [("risks".toList, JSValue.arr [])])
    (by decide) (by decide) (by decide) (by decide) rfl rfl

end Analyzer

namespace Analyzer

/-- Every call `checkAIAvailability` makes is an availability probe. -/
theorem checkOne_trace (p : Provider) (c : Capability) :
    ∀ e ∈ (checkOne p c).2.2.2, e = Event.probe c := by
  intro e he
  unfold checkOne at he
  split at he
  · split at he <;> simpa using he
  · simp at he

/-- Every call `checkAIAvailability` makes is an availability probe. -/
theorem checkAIAvailability_trace (p : Provider) :
    ∀ e ∈ (checkAIAvailability p).2, ∃ c, e = Event.probe c := by
  intro e he
  simp only [checkAIAvailability, List.mem_append] at he
  rcases he with ((h | h) | h) | h
  · exact ⟨_, checkOne_trace p _ e h⟩
  · exact ⟨_, checkOne_trace p _ e h⟩
  · exact ⟨_, checkOne_trace p _ e h⟩
  · exact ⟨_, checkOne_trace p _ e h⟩

/-- C9, as stated, fails: on the text `Too short.` with no capability present the error
is the capability-unavailable one, not the input-too-short one; and with the capabilities
ready the input-too-short error comes after four availability probes of the provider. -/
theorem analyzeDocument_short_counterexample :
    analyzeDocument absentProvider (some "Too short.".toList)
      = (Except.error (AnalysisError.unavailable UnavailableMessage.tokenMissing), []) ∧
    analyzeDocument readyProvider (some "Too short.".toList)
      = (Except.error AnalysisError.tooShort,
          [Event.probe Capability.prompt, Event.probe Capability.summarizer,
           Event.probe Capability.rewriter, Event.probe Capability.writer]) := by
  constructor <;> rfl

/-- C9, amended: for every text that is absent or whose trimmed length is below 100 and
every provider, `analyzeDocument` fails after the availability check alone: with the
capability-unavailable error when neither the prompt nor the summarizer probe gave
`readily`, with the input-too-short error otherwise; the only calls made are the
availability probes of that check (no session creation, no prompt). -/
theorem analyzeDocument_short (p : Provider) (text : Option JSString)
    (hshort : ∀ t, text = some t → (JS.trim t).length < 100) :
    (analyzeDocument p text).1 =
      (if (checkAIAvailability p).1.overall = true then Except.error AnalysisError.tooShort
       else Except.error (AnalysisError.unavailable
        (getAIUnavailableMessage p (checkAIAvailability p).1))) ∧
    (analyzeDocument p text).2 = (checkAIAvailability p).2 ∧
    (∀ e ∈ (analyzeDocument p text).2, ∃ c, e = Event.probe c) := by
  have h12 : (analyzeDocument p text).1 =
      (if (checkAIAvailability p).1.overall = true then Except.error AnalysisError.tooShort
       else Except.error (AnalysisError.unavailable
        (getAIUnavailableMessage p (checkAIAvailability p).1))) ∧
      (analyzeDocument p text).2 = (checkAIAvailability p).2 := by
    unfold analyzeDocument
    by_cases ho : (checkAIAvailability p).1.overall = true
    · cases text with
      | none => simp [ho]
      | some t =>
        have := hshort t rfl
        simp [ho, this]
    · simp [ho]
  refine ⟨h12.1, h12.2, ?_⟩
  rw [h12.2]
  exact checkAIAvailability_trace p

/-- C9, amended, at the text `Too short.` and a provider with all capabilities ready. -/
theorem analyzeDocument_short_witness :
    (analyzeDocument readyProvider (some "Too short.".toList)).1 =
      (if (checkAIAvailability readyProvider).1.overall = true then
        Except.error AnalysisError.tooShort
       else Except.error (AnalysisError.unavailable
        (getAIUnavailableMessage readyProvider (checkAIAvailability readyProvider).1))) ∧
    (analyzeDocument readyProvider (some "Too short.".toList)).2
      = (checkAIAvailability readyProvider).2 ∧
    (∀ e ∈ (analyzeDocument readyProvider (some "Too short.".toList)).2,
      ∃ c, e = Event.probe c) :=
  analyzeDocument_short readyProvider (some "Too short.".toList) (by
    intro t ht
    cases ht
    decide)

/-- C10: for every capability name whose first availability probe returns `readily`,
`prepareModel` returns `{success: true, status: 'ready'}` for every fuel, the reports to
a given `onProgress` are exactly the one update `{percent: 100, status: 'ready'}` (none
when no callback was given), and no session is created. -/
theorem prepareModel_readily (p : Provider) (apiKey : JSString) (fuel : Nat)
    (hready : (getAvailability p (capabilityOf apiKey) 0).1 = Probe.returns "readily") :
    (∀ onProgress, ∃ trace, prepareModel p apiKey onProgress fuel
        = some (Outcome.returned ⟨true, "ready", none⟩, trace) ∧ creations trace = []) ∧
    (∃ trace, prepareModel p apiKey true fuel
        = some (Outcome.returned ⟨true, "ready", none⟩, trace) ∧
      progressReports trace = [(100, "ready")]) ∧
    (∃ trace, prepareModel p apiKey false fuel
        = some (Outcome.returned ⟨true, "ready", none⟩, trace) ∧
      progressReports trace = []) := by
  have htr : ∀ onProgress, prepareModel p apiKey onProgress fuel
      = some (Outcome.returned ⟨true, "ready", none⟩,
          (getAvailability p (capabilityOf apiKey) 0).2 ++ report onProgress 100 "ready") := by
    intro onProgress
    simp [prepareModel, hready]
  have hav : (getAvailability p (capabilityOf apiKey) 0).2 = [] ∨
      ∃ c, (getAvailability p (capabilityOf apiKey) 0).2 = [Event.probe c] := by
    unfold getAvailability
    cases capabilityOf apiKey with
    | none => exact Or.inl rfl
    | some c =>
      by_cases hp : p.present c = true
      · exact Or.inr ⟨c, by simp [hp]⟩
      · exact Or.inl (by simp [hp])
  refine ⟨?_, ?_, ?_⟩
  · intro onProgress
    refine ⟨_, htr onProgress, ?_⟩
    rcases hav with h | ⟨c, h⟩ <;> cases onProgress <;> simp [h, report, creations]
  · refine ⟨_, htr true, ?_⟩
    rcases hav with h | ⟨c, h⟩ <;> simp [h, report, progressReports]
  · refine ⟨_, htr false, ?_⟩
    rcases hav with h | ⟨c, h⟩ <;> simp [h, report, progressReports]

/-- C10, at the key `prompt` of a provider whose capabilities are ready. -/
theorem prepareModel_readily_witness :
    (∀ onProgress, ∃ trace, prepareModel readyProvider "prompt".toList onProgress 0
        = some (Outcome.returned ⟨true, "ready", none⟩, trace) ∧ creations trace = []) ∧
    (∃ trace, prepareModel readyProvider "prompt".toList true 0
        = some (Outcome.returned ⟨true, "ready", none⟩, trace) ∧
      progressReports trace = [(100, "ready")]) ∧
    (∃ trace, prepareModel readyProvider "prompt".toList false 0
        = some (Outcome.returned ⟨true, "ready", none⟩, trace) ∧
      progressReports trace = []) :=
  prepareModel_readily readyProvider "prompt".toList 0 (by decide)

end Analyzer

namespace Analyzer

/-- The progress reports of a trace made of two parts. -/
theorem progressReports_append (a b : List Event) :
    progressReports (a ++ b) = progressReports a ++ progressReports b := by
  induction a with
  | nil => rfl
  | cons e es ih => cases e <;> simp [progressReports, ih]

/-- The percent values of a trace made of two parts. -/
theorem percents_append (a b : List Event) : percents (a ++ b) = percents a ++ percents b := by
  simp [percents, progressReports_append]

/-- The session creations of a trace made of two parts. -/
theorem creations_append (a b : List Event) :
    creations (a ++ b) = creations a ++ creations b := by
  induction a with
  | nil => rfl
  | cons e es ih => cases e <;> simp [creations, ih]

/-- The calls of `getAvailability`: nothing, or one probe. -/
theorem getAvailability_trace (p : Provider) (api : Option Capability) (n : Nat) :
    (getAvailability p api n).2 = [] ∨ ∃ c, (getAvailability p api n).2 = [Event.probe c] := by
  unfold getAvailability
  cases api with
  | none => exact Or.inl rfl
  | some c =>
    by_cases hp : p.present c = true
    · exact Or.inr ⟨c, by simp [hp]⟩
    · exact Or.inl (by simp [hp])

/-- A probe reports no progress. -/
theorem percents_getAvailability (p : Provider) (api : Option Capability) (n : Nat) :
    percents (getAvailability p api n).2 = [] := by
  rcases getAvailability_trace p api n with h | ⟨c, h⟩ <;> simp [h, percents, progressReports]

/-- A probe destroys nothing. -/
theorem destroys_getAvailability (p : Provider) (api : Option Capability) (n : Nat) :
    destroys (getAvailability p api n).2 = 0 := by
  rcases getAvailability_trace p api n with h | ⟨c, h⟩ <;> simp [h, destroys]

/-- A probe creates nothing. -/
theorem creations_getAvailability (p : Provider) (api : Option Capability) (n : Nat) :
    creations (getAvailability p api n).2 = [] := by
  rcases getAvailability_trace p api n with h | ⟨c, h⟩ <;> simp [h, creations]

/-- The release reports no progress. -/
theorem percents_release (p : Provider) : percents (release p) = [] := by
  unfold release; split <;> rfl

/-- A report destroys nothing. -/
theorem destroys_report (b : Bool) (n : Nat) (s : String) : destroys (report b n s) = 0 := by
  cases b <;> simp [report, destroys]

/-- The destroy calls of a trace made of two parts. -/
theorem destroys_append (a b : List Event) : destroys (a ++ b) = destroys a + destroys b := by
  simp [destroys]

/-- C13: for every capability name whose first probe returns a state that is neither
`readily` nor `after-download` (an absent or unknown capability counts as `unavailable`
without a call), `prepareModel` returns `success = false` with the observed state as its
status, `unavailable` for a falsy one; it makes no call besides that probe: no session
creation, no polling and no progress report. -/
theorem prepareModel_not_ready (p : Provider) (apiKey : JSString) (st : String)
    (onProgress : Bool) (fuel : Nat)
    (hst : (getAvailability p (capabilityOf apiKey) 0).1 = Probe.returns st)
    (h1 : st ≠ "readily") (h2 : st ≠ "after-download") :
    prepareModel p apiKey onProgress fuel
      = some (Outcome.returned ⟨false, if st = "" then "unavailable" else st,
          some "API not ready and no download state"⟩,
          (getAvailability p (capabilityOf apiKey) 0).2) ∧
    (∀ e ∈ (getAvailability p (capabilityOf apiKey) 0).2, e.isProbe = true) ∧
    ((getAvailability p (capabilityOf apiKey) 0).2).length ≤ 1 ∧
    creations (getAvailability p (capabilityOf apiKey) 0).2 = [] ∧
    progressReports (getAvailability p (capabilityOf apiKey) 0).2 = [] := by
  refine ⟨?_, ?_, ?_, creations_getAvailability _ _ _, ?_⟩
  · simp [prepareModel, hst, h1, h2]
  · rcases getAvailability_trace p (capabilityOf apiKey) 0 with h | ⟨c, h⟩ <;>
      simp [h, Event.isProbe]
  · rcases getAvailability_trace p (capabilityOf apiKey) 0 with h | ⟨c, h⟩ <;> simp [h]
  · rcases getAvailability_trace p (capabilityOf apiKey) 0 with h | ⟨c, h⟩ <;>
      simp [h, progressReports]

/-- C13, at the key `Writer` of a provider that reports the state `downloading`, and at a
key that names no capability. -/
theorem prepareModel_not_ready_witness :
    (prepareModel oddProvider "Writer".toList true 3
      = some (Outcome.returned ⟨false, if "downloading" = "" then "unavailable" else "downloading",
          some "API not ready and no download state"⟩,
          (getAvailability oddProvider (capabilityOf "Writer".toList) 0).2) ∧
    (∀ e ∈ (getAvailability oddProvider (capabilityOf "Writer".toList) 0).2,
      e.isProbe = true) ∧
    ((getAvailability oddProvider (capabilityOf "Writer".toList) 0).2).length ≤ 1 ∧
    creations (getAvailability oddProvider (capabilityOf "Writer".toList) 0).2 = [] ∧
    progressReports (getAvailability oddProvider (capabilityOf "Writer".toList) 0).2 = []) ∧
    prepareModel readyProvider "translator".toList true 3
      = some (Outcome.returned ⟨false, "unavailable",
          some "API not ready and no download state"⟩, []) :=
  ⟨prepareModel_not_ready oddProvider "Writer".toList "downloading" true 3 (by decide)
    (by decide) (by decide), by decide⟩

end Analyzer

namespace Analyzer

/-- The polling loop on a capability that stays short of `readily` for `k` rounds and is
past the limit at the next reading of the clock: it ends in the timeout result, and the
session is released once. -/
theorem poll_timeout (p : Provider) (c : Capability) (onProgress : Bool) (start : Int)
    (hpres : p.present c = true) :
    ∀ (k fuel clock probes lastPercent : Nat) (trace : List Event),
      (∀ i, i < k → p.now (clock + i) - start < 3 * 60 * 1000 ∧
        ∃ st, p.availability c (probes + i) = Probe.returns st ∧ st ≠ "readily") →
      ¬ (p.now (clock + k) - start < 3 * 60 * 1000) →
      k < fuel →
      ∃ tr, poll p (some c) onProgress start fuel clock probes lastPercent trace
          = some (timeoutResult, tr) ∧
        destroys tr = destroys trace + destroys (release p) := by
  intro k
  induction k with
  | zero =>
    intro fuel clock probes lastPercent trace _ hend hfuel
    obtain ⟨f, rfl⟩ : ∃ f, fuel = f + 1 := ⟨fuel - 1, by omega⟩
    refine ⟨trace ++ release p, ?_, destroys_append _ _⟩
    have hend0 : ¬ (p.now clock - start < 3 * 60 * 1000) := by simpa using hend
    simp only [poll, hend0, if_false, timeoutResult]
  | succ k ih =>
    intro fuel clock probes lastPercent trace hrun hend hfuel
    obtain ⟨f, rfl⟩ : ∃ f, fuel = f + 1 := ⟨fuel - 1, by omega⟩
    obtain ⟨h0, st, hst, hne⟩ := hrun 0 (by omega)
    have h0c : p.now clock - start < 3 * 60 * 1000 := by simpa using h0
    have hav : getAvailability p (some c) probes = (Probe.returns st, [Event.probe c]) := by
      have : p.availability c probes = Probe.returns st := by simpa using hst
      simp [getAvailability, hpres, this]
    have hrun2 : ∀ i, i < k → p.now (clock + 1 + i) - start < 3 * 60 * 1000 ∧
        ∃ st, p.availability c (probes + 1 + i) = Probe.returns st ∧ st ≠ "readily" := by
      intro i hi
      have := hrun (i + 1) (by omega)
      have e1 : clock + 1 + i = clock + (i + 1) := by omega
      have e2 : probes + 1 + i = probes + (i + 1) := by omega
      rw [e1, e2]
      exact this
    have hend2 : ¬ (p.now (clock + 1 + k) - start < 3 * 60 * 1000) := by
      have e1 : clock + 1 + k = clock + (k + 1) := by omega
      rw [e1]
      exact hend
    by_cases hlt : lastPercent < 90
    · obtain ⟨tr, htr, hd⟩ := ih f (clock + 1) (probes + 1) (min 90 (lastPercent + 5))
        (trace ++ [Event.sleep 3000] ++ [Event.probe c] ++
          report onProgress (min 90 (lastPercent + 5)) "downloading") hrun2 hend2 (by omega)
      refine ⟨tr, ?_, ?_⟩
      · simp only [poll, h0c, if_true, hav, hne, if_false, hlt]
        exact htr
      · rw [hd]
        have e1 : destroys [Event.sleep 3000] = 0 := rfl
        have e2 : destroys [Event.probe c] = 0 := by simp [destroys]
        simp only [destroys_append, destroys_report, e1, e2, Nat.add_zero]
    · obtain ⟨tr, htr, hd⟩ := ih f (clock + 1) (probes + 1) lastPercent
        (trace ++ [Event.sleep 3000] ++ [Event.probe c]) hrun2 hend2 (by omega)
      refine ⟨tr, ?_, ?_⟩
      · simp only [poll, h0c, if_true, hav, hne, if_false, hlt]
        exact htr
      · rw [hd]
        have e1 : destroys [Event.sleep 3000] = 0 := rfl
        have e2 : destroys [Event.probe c] = 0 := by simp [destroys]
        simp only [destroys_append, e1, e2, Nat.add_zero]

/-- C11: in every run of `prepareModel` whose first probe is `after-download`, whose session
creation succeeds and whose later probes all return a state other than `readily` until the
clock passes the three-minute limit (at its reading number `k + 1`), the result is
`{success: false, status: 'timeout'}` and the session, which has a `destroy` method, is
released exactly once. -/
theorem prepareModel_timeout (p : Provider) (apiKey : JSString) (c : Capability)
    (onProgress : Bool) (k fuel : Nat)
    (hkey : capabilityOf apiKey = some c) (hpres : p.present c = true)
    (hfirst : p.availability c 0 = Probe.returns "after-download")
    (hcreate : p.create c = Except.ok ())
    (hdestroy : p.hasDestroy = true)
    (hpoll : ∀ i, i < k → p.now (1 + i) - p.now 0 < 3 * 60 * 1000 ∧
      ∃ st, p.availability c (1 + i) = Probe.returns st ∧ st ≠ "readily")
    (hlimit : ¬ (p.now (1 + k) - p.now 0 < 3 * 60 * 1000))
    (hfuel : k < fuel) :
    ∃ trace, prepareModel p apiKey onProgress fuel = some (timeoutResult, trace) ∧
      destroys trace = 1 := by
  obtain ⟨tr, htr, hd⟩ := poll_timeout p c onProgress (p.now 0) hpres k fuel 1 1 5
    ([Event.probe c] ++ report onProgress 1 "starting" ++ [Event.create c] ++
      report onProgress 5 "downloading") hpoll hlimit hfuel
  refine ⟨tr, ?_, ?_⟩
  · simp only [prepareModel, hkey, getAvailability, hpres, if_true, hfirst, createSession,
      hcreate]
    simp only [show ("after-download" : String) ≠ "readily" by decide, if_false, ne_eq,
      not_true_eq_false, List.append_assoc]
    simpa using htr
  · rw [hd]
    have e1 : destroys [Event.create c] = 0 := by simp [destroys]
    have e2 : destroys [Event.probe c] = 0 := by simp [destroys]
    have e3 : destroys (release p) = 1 := by simp [release, hdestroy, destroys]
    simp only [destroys_append, destroys_report, e1, e2, e3]

/-- C11, at the key `prompt` of a provider that stays in the download state, whose clock
advances 3000 ms per reading: the limit is passed at reading 60. -/
theorem prepareModel_timeout_witness :
    ∃ trace, prepareModel stuckProvider "prompt".toList true 61 = some (timeoutResult, trace) ∧
      destroys trace = 1 :=
  prepareModel_timeout stuckProvider "prompt".toList Capability.prompt true 59 61
    (by decide) rfl rfl rfl rfl
    (by
      intro i hi
      refine ⟨?_, "after-download", rfl, by decide⟩
      simp only [stuckProvider]
      omega)
    (by simp only [stuckProvider]; omega)
    (by omega)

/-- C12 fails on the code: with a first probe `after-download`, a session created, and the
first poll of the availability throwing, `prepareModel` returns the `error` result and the
trace holds the creation but no `destroy` call. -/
theorem prepareModel_probe_throws_no_release :
    prepareModel throwingProvider "prompt".toList true 5
      = some (Outcome.returned ⟨false, "error", some "probe failed"⟩,
          [Event.probe Capability.prompt, Event.progress 1 "starting",
           Event.create Capability.prompt, Event.progress 5 "downloading",
           Event.sleep 3000, Event.probe Capability.prompt]) ∧
    destroys [Event.probe Capability.prompt, Event.progress 1 "starting",
           Event.create Capability.prompt, Event.progress 5 "downloading",
           Event.sleep 3000, Event.probe Capability.prompt] = 0 := by
  constructor
  · decide
  · decide

end Analyzer

namespace Analyzer

/-- The polling loop keeps the reported percent values strictly increasing and at most 90,
and ends them with 100 exactly when it ends in the ready result. -/
theorem poll_progress (p : Provider) (api : Option Capability) (start : Int) :
    ∀ (fuel clock probes lastPercent : Nat) (trace : List Event) (out : Outcome)
      (tr : List Event),
      poll p api true start fuel clock probes lastPercent trace = some (out, tr) →
      List.Pairwise (· < ·) (percents trace) →
      (∀ x ∈ percents trace, x ≤ lastPercent) → lastPercent ≤ 90 →
      ∃ l, List.Pairwise (· < ·) l ∧ (∀ x ∈ l, x ≤ 90) ∧
        percents tr = (if out = readyResult then l ++ [100] else l) := by
  intro fuel
  induction fuel with
  | zero =>
    intro clock probes lastPercent trace out tr h
    simp [poll] at h
  | succ f ih =>
    intro clock probes lastPercent trace out tr h hpw hle h90
    have hle90 : ∀ x ∈ percents trace, x ≤ 90 := fun x hx => le_trans (hle x hx) h90
    unfold poll at h
    by_cases hc : p.now clock - start < 3 * 60 * 1000
    · simp only [hc, if_true] at h
      cases hs : (getAvailability p api probes).1 with
      | throws message =>
        simp only [hs, Option.some.injEq, Prod.mk.injEq] at h
        obtain ⟨rfl, rfl⟩ := h
        refine ⟨percents trace, hpw, hle90, ?_⟩
        have e1 : percents [Event.sleep 3000] = [] := rfl
        simp only [percents_append, percents_getAvailability, e1, List.append_nil]
        simp [readyResult]
      | returns st =>
        simp only [hs] at h
        by_cases hr : st = "readily"
        · simp only [hr, if_true, Option.some.injEq, Prod.mk.injEq] at h
          obtain ⟨rfl, rfl⟩ := h
          refine ⟨percents trace, hpw, hle90, ?_⟩
          have e1 : percents [Event.sleep 3000] = [] := rfl
          have e2 : percents (report true 100 "ready") = [100] := rfl
          simp only [percents_append, percents_getAvailability, percents_release, e1, e2,
            List.append_nil, readyResult, if_true]
        · simp only [hr, if_false] at h
          have e1 : percents [Event.sleep 3000] = [] := rfl
          by_cases hlt : lastPercent < 90
          · simp only [hlt, if_true] at h
            refine ih _ _ _ _ _ _ h ?_ ?_ ?_
            · have e2 : percents (report true (min 90 (lastPercent + 5)) "downloading")
                  = [min 90 (lastPercent + 5)] := rfl
              simp only [percents_append, percents_getAvailability, e1, e2, List.append_nil]
              rw [List.pairwise_append]
              refine ⟨hpw, List.pairwise_singleton _ _, ?_⟩
              intro x hx y hy
              simp only [List.mem_singleton] at hy
              have := hle x hx
              omega
            · intro x hx
              have e2 : percents (report true (min 90 (lastPercent + 5)) "downloading")
                  = [min 90 (lastPercent + 5)] := rfl
              simp only [percents_append, percents_getAvailability, e1, e2, List.append_nil,
                List.mem_append, List.mem_singleton] at hx
              rcases hx with hx | hx
              · have := hle x hx
                omega
              · omega
            · omega
          · simp only [hlt, if_false] at h
            refine ih _ _ _ _ _ _ h ?_ ?_ h90
            · simpa only [percents_append, percents_getAvailability, e1, List.append_nil]
                using hpw
            · simpa only [percents_append, percents_getAvailability, e1, List.append_nil]
                using hle
    · simp only [hc, if_false, Option.some.injEq, Prod.mk.injEq] at h
      obtain ⟨rfl, rfl⟩ := h
      refine ⟨percents trace, hpw, hle90, ?_⟩
      simp [percents_append, percents_release, readyResult]

/-- The percent values of a run of `prepareModel` with a callback: values of at most 90,
strictly increasing, followed by 100 exactly when the run ends in the ready result. -/
theorem prepareModel_percents (p : Provider) (apiKey : JSString) (fuel : Nat) (out : Outcome)
    (trace : List Event) (h : prepareModel p apiKey true fuel = some (out, trace)) :
    ∃ l, List.Pairwise (· < ·) l ∧ (∀ x ∈ l, x ≤ 90) ∧
      percents trace = (if out = readyResult then l ++ [100] else l) := by
  unfold prepareModel at h
  simp only at h
  cases hs : (getAvailability p (capabilityOf apiKey) 0).1 with
  | throws message =>
    simp only [hs, Option.some.injEq, Prod.mk.injEq] at h
    obtain ⟨rfl, rfl⟩ := h
    exact ⟨[], List.Pairwise.nil, by simp, by simp [percents_getAvailability, readyResult]⟩
  | returns st =>
    simp only [hs] at h
    by_cases hr : st = "readily"
    · simp only [hr, if_true, Option.some.injEq, Prod.mk.injEq] at h
      obtain ⟨rfl, rfl⟩ := h
      refine ⟨[], List.Pairwise.nil, by simp, ?_⟩
      have e2 : percents (report true 100 "ready") = [100] := rfl
      simp only [percents_append, percents_getAvailability, e2, readyResult, if_true,
        List.nil_append]
    · simp only [hr, if_false] at h
      by_cases ha : st = "after-download"
      · simp only [ha, ne_eq, not_true_eq_false, if_false] at h
        have e1 : percents (report true 1 "starting") = [1] := rfl
        have e5 : percents (report true 5 "downloading") = [5] := rfl
        have hcr : percents (createSession p (capabilityOf apiKey)).2 = [] := by
          unfold createSession
          cases capabilityOf apiKey with
          | none => rfl
          | some c =>
            by_cases hp : p.present c = true
            · simp [hp, percents, progressReports]
            · simp only [hp]
              cases p.fallback c <;> simp [percents, progressReports]
        cases hcs : (createSession p (capabilityOf apiKey)).1 with
        | error message =>
          simp only [hcs, Option.some.injEq, Prod.mk.injEq] at h
          obtain ⟨rfl, rfl⟩ := h
          refine ⟨[1], List.pairwise_singleton _ _, by simp, ?_⟩
          simp [percents_append, percents_getAvailability, e1, hcr, readyResult]
        | ok u =>
          simp only [hcs] at h
          refine poll_progress p _ _ _ _ _ _ _ _ _ h ?_ ?_ (by omega)
          · simp only [percents_append, percents_getAvailability, e1, e5, hcr,
              List.nil_append, List.append_nil]
            decide
          · intro x hx
            simp only [percents_append, percents_getAvailability, e1, e5, hcr,
              List.nil_append, List.append_nil] at hx
            simp at hx
            omega
      · simp only [ha, ne_eq, not_false_eq_true, if_true, Option.some.injEq,
          Prod.mk.injEq] at h
        obtain ⟨rfl, rfl⟩ := h
        exact ⟨[], List.Pairwise.nil, by simp, by simp [percents_getAvailability, readyResult]⟩

/-- C14: in every run of `prepareModel` with a callback, the percent values passed to
`onProgress` are strictly increasing, every value other than a final 100 is at most 90, and
100 is reported if and only if the run returns `{success: true, status: 'ready'}`, as its
last report. -/
theorem prepareModel_progress (p : Provider) (apiKey : JSString) (fuel : Nat) (out : Outcome)
    (trace : List Event) (h : prepareModel p apiKey true fuel = some (out, trace)) :
    List.Pairwise (· < ·) (percents trace) ∧
    (∃ l, (∀ x ∈ l, x ≤ 90) ∧
      percents trace = (if out = readyResult then l ++ [100] else l)) ∧
    (100 ∈ percents trace ↔ out = readyResult) ∧
    (out = readyResult → (percents trace).getLast? = some 100) := by
  obtain ⟨l, hpw, hle, hl⟩ := prepareModel_percents p apiKey fuel out trace h
  by_cases ho : out = readyResult
  · simp only [ho, if_true] at hl
    refine ⟨?_, ⟨l, hle, by simp [ho, hl]⟩, ?_, ?_⟩
    · rw [hl, List.pairwise_append]
      refine ⟨hpw, List.pairwise_singleton _ _, ?_⟩
      intro x hx y hy
      simp only [List.mem_singleton] at hy
      have := hle x hx
      omega
    · simp [hl, ho]
    · intro _
      simp [hl]
  · simp only [ho, if_false] at hl
    refine ⟨by rw [hl]; exact hpw, ⟨l, hle, by simp [ho, hl]⟩, ?_, fun h => absurd h ho⟩
    rw [hl]
    constructor
    · intro hm
      have := hle 100 hm
      omega
    · intro h
      exact absurd h ho

/-- C14, at the run of a provider whose first poll throws: the reports are 1 and 5. -/
theorem prepareModel_progress_witness :
    List.Pairwise (· < ·) (percents [Event.probe Capability.prompt, Event.progress 1 "starting",
      Event.create Capability.prompt, Event.progress 5 "downloading", Event.sleep 3000,
      Event.probe Capability.prompt]) ∧
    (∃ l, (∀ x ∈ l, x ≤ 90) ∧
      percents [Event.probe Capability.prompt, Event.progress 1 "starting",
        Event.create Capability.prompt, Event.progress 5 "downloading", Event.sleep 3000,
        Event.probe Capability.prompt] =
        (if Outcome.returned ⟨false, "error", some "probe failed"⟩ = readyResult
          then l ++ [100] else l)) ∧
    (100 ∈ percents [Event.probe Capability.prompt, Event.progress 1 "starting",
        Event.create Capability.prompt, Event.progress 5 "downloading", Event.sleep 3000,
        Event.probe Capability.prompt] ↔
      Outcome.returned ⟨false, "error", some "probe failed"⟩ = readyResult) ∧
    (Outcome.returned ⟨false, "error", some "probe failed"⟩ = readyResult →
      (percents [Event.probe Capability.prompt, Event.progress 1 "starting",
        Event.create Capability.prompt, Event.progress 5 "downloading", Event.sleep 3000,
        Event.probe Capability.prompt]).getLast? = some 100) :=
  prepareModel_progress throwingProvider "prompt".toList 5 _ _ (by decide)

end Analyzer

namespace Analyzer

/-- C16: for every text `analyzeDocument` accepts, the text handed to the three
sub-analyses is the input when its length is at most 10,000, and otherwise the first 10,000
characters followed by `...`; it is one text, not a list of chunks. -/
theorem analyzeDocument_truncation (p : Provider) (text : Option JSString) (st : Started)
    (trace : List Event) (h : analyzeDocument p text = (Except.ok st, trace)) :
    ∃ t, text = some t ∧
      st.analyzableText = (if t.length ≤ 10000 then t else t.take 10000 ++ "...".toList) ∧
      (t.length ≤ 10000 → st.analyzableText = t) ∧
      (10000 < t.length → st.analyzableText.length = 10003 ∧
        st.analyzableText.take 10000 = t.take 10000) := by
  unfold analyzeDocument at h
  simp only at h
  by_cases ho : (checkAIAvailability p).1.overall = true
  · simp only [ho, Bool.not_true, Bool.false_eq_true, if_false] at h
    cases text with
    | none => simp at h
    | some t =>
      simp only at h
      split at h
      · simp at h
      · simp only [Prod.mk.injEq, Except.ok.injEq] at h
        obtain ⟨rfl, _⟩ := h
        refine ⟨t, rfl, ?_, ?_, ?_⟩
        · simp only [MAX_PROMPT_LENGTH]
          by_cases hl : t.length ≤ 10000
          · have : ¬ (t.length > 10000) := by omega
            simp [hl, this]
          · have : t.length > 10000 := by omega
            simp [hl, this]
        · intro hl
          have : ¬ (t.length > 10000) := by omega
          simp [MAX_PROMPT_LENGTH, this]
        · intro hl
          have h1 : t.length > 10000 := hl
          simp only [MAX_PROMPT_LENGTH, h1, if_true]
          constructor
          · simp [List.length_take]
            omega
          · rw [List.take_append_of_le_length (by simp [List.length_take]; omega)]
            simp [List.take_take]
  · simp [ho] at h

/-- C16, at a text of 120 characters and a provider whose capabilities are ready. -/
theorem analyzeDocument_truncation_witness :
    ∃ t, some (List.replicate 120 'a') = some t ∧
      (⟨(checkAIAvailability readyProvider).1, List.replicate 120 'a'⟩ : Started).analyzableText
        = (if t.length ≤ 10000 then t else t.take 10000 ++ "...".toList) ∧
      (t.length ≤ 10000 →
        (⟨(checkAIAvailability readyProvider).1, List.replicate 120 'a'⟩ : Started).analyzableText
          = t) ∧
      (10000 < t.length →
        (⟨(checkAIAvailability readyProvider).1,
          List.replicate 120 'a'⟩ : Started).analyzableText.length = 10003 ∧
        (⟨(checkAIAvailability readyProvider).1,
          List.replicate 120 'a'⟩ : Started).analyzableText.take 10000 = t.take 10000) :=
  analyzeDocument_truncation readyProvider (some (List.replicate 120 'a'))
    ⟨(checkAIAvailability readyProvider).1, List.replicate 120 'a'⟩
    (checkAIAvailability readyProvider).2 rfl

/-- The ready flag of one capability: it is present and its probe returned `readily`. -/
theorem checkOne_ready (p : Provider) (c : Capability) :
    (checkOne p c).1 = true ↔
      (p.present c = true ∧ p.availability c 0 = Probe.returns "readily") := by
  unfold checkOne
  by_cases hp : p.present c = true
  · simp only [hp, if_true, true_and]
    cases hpr : p.availability c 0 with
    | returns st => simp
    | throws m => simp
  · simp [hp]

/-- C17: `checkAIAvailability().overall` is true if and only if the probe of the prompt
capability or that of the summarizer returned `readily` (a capability that is absent or
whose probe throws is not ready, and the rewriter and writer have no say); and whenever
`overall` is false, `analyzeDocument` fails with the capability-unavailable message, having
started no sub-analysis. -/
theorem overall_iff_prompt_or_summarizer (p : Provider) :
    ((checkAIAvailability p).1.overall = true ↔
      ((p.present Capability.prompt = true ∧
          p.availability Capability.prompt 0 = Probe.returns "readily") ∨
       (p.present Capability.summarizer = true ∧
          p.availability Capability.summarizer 0 = Probe.returns "readily"))) ∧
    ((checkAIAvailability p).1.overall = false →
      ∀ text, analyzeDocument p text =
        (Except.error (AnalysisError.unavailable
          (getAIUnavailableMessage p (checkAIAvailability p).1)), (checkAIAvailability p).2)) := by
  constructor
  · have h : (checkAIAvailability p).1.overall
        = ((checkOne p Capability.prompt).1 || (checkOne p Capability.summarizer).1) := rfl
    rw [h, Bool.or_eq_true, checkOne_ready, checkOne_ready]
  · intro ho text
    simp [analyzeDocument, ho]

end Analyzer

namespace Analyzer

/-- C15, as stated, fails: for a response whose one risk item has the severity `critical`
and no explanation, `detectRisks` returns that item. -/
theorem detectRisks_counterexample :
    (∃ result, detectRisks criticalSessions = Except.ok result ∧
      result.risks =
        [JSValue.obj [("severity".toList, JSValue.str "critical".toList),
          ("clause".toList, JSValue.str "9".toList),
          ("issue".toList, JSValue.str "waiver".toList)]]) ∧
    ((JSValue.obj [("severity".toList, JSValue.str "critical".toList),
        ("clause".toList, JSValue.str "9".toList),
        ("issue".toList, JSValue.str "waiver".toList)]).get "explanation").isString = false :=
  ⟨⟨_, rfl, rfl⟩, rfl⟩

/-- The risks of the `try` block of `detectRisks` all pass `isValidRisk`. -/
theorem detectRisksAttempt_valid (b : Sessions) (result : RiskAnalysis)
    (h : detectRisksAttempt b = Except.ok result) :
    ∀ r ∈ result.risks, isValidRisk r = true := by
  intro r hr
  unfold detectRisksAttempt at h
  cases ha : askPrompt b PromptKind.risks with
  | error m => simp [ha] at h
  | ok response =>
    simp only [ha] at h
    cases hf : ((parseJSONResponse response).get "risks").filterOrEmpty isValidRisk with
    | error m => simp [hf] at h
    | ok valid =>
      simp only [hf, Except.ok.injEq] at h
      subst h
      unfold JSValue.filterOrEmpty at hf
      split at hf
      · simp only [Except.ok.injEq] at hf
        subst hf
        simp at hr
      · split at hf
        · simp only [Except.ok.injEq] at hf
          subst hf
          exact (List.mem_filter.mp hr).2
        · simp at hf

/-- What `detectRisks` returns, when it returns: the result of its `try` block, or no
risks. -/
theorem detectRisks_ok (b : Sessions) (result : RiskAnalysis)
    (h : detectRisks b = Except.ok result) :
    detectRisksAttempt b = Except.ok result ∨ result.risks = [] := by
  unfold detectRisks at h
  cases ha : detectRisksAttempt b with
  | ok r =>
    simp only [ha, Except.ok.injEq] at h
    left
    rw [h]
  | error e =>
    cases e with
    | nullish => simp [ha] at h
    | value message =>
      simp only [ha, Except.ok.injEq] at h
      right
      rw [← h]

/-- C15, amended: for every capability response, every finding in the risks returned by
`detectRisks` is an object whose severity, clause and issue are strings, and the risks
are the items of the parsed `risks` array that pass this test, in order: an item lacking
one of the three is dropped. -/
theorem detectRisks_valid (b : Sessions) :
    (∀ result, detectRisks b = Except.ok result → ∀ r ∈ result.risks,
      r.isObject = true ∧ (r.get "severity").isString = true ∧
      (r.get "clause").isString = true ∧ (r.get "issue").isString = true) ∧
    (∀ response items, askPrompt b PromptKind.risks = Except.ok response →
      (parseJSONResponse response).get "risks" = JSValue.arr items →
      ∃ result, detectRisks b = Except.ok result ∧
        result.risks = items.filter isValidRisk) := by
  constructor
  · intro result hres r hr
    have hv : isValidRisk r = true := by
      rcases detectRisks_ok b result hres with h | h
      · exact detectRisksAttempt_valid b result h r hr
      · rw [h] at hr
        simp at hr
    simp only [isValidRisk, Bool.and_eq_true] at hv
    exact ⟨hv.1.1.1, hv.1.1.2, hv.1.2, hv.2⟩
  · intro response items ha hitems
    refine ⟨⟨items.filter isValidRisk, some response, none⟩, ?_, rfl⟩
    simp [detectRisks, detectRisksAttempt, ha, hitems, JSValue.filterOrEmpty, JSValue.truthy]

/-- A response that does not parse as a JSON object or array gives the empty structure. -/
theorem parseJSONResponse_malformed (r : JSValue) (m : String)
    (h : parseJSONAttempt r = Except.error m) : parseJSONResponse r = emptyStructure := by
  simp [parseJSONResponse, h]

/-- The key points of a summary are an array or another truthy value, so the final object
takes them as they are. -/
theorem orElse_orElse (a c : JSValue) (hc : c.truthy = true) :
    (a.orElse c).orElse c = a.orElse c := by
  unfold JSValue.orElse
  by_cases ha : a.truthy = true
  · simp [ha]
  · simp [ha, hc]

/-- C18: the sub-analyses do not degrade on every behaviour of the provider. When the risk
prompt is rejected with `null` or `undefined`, the `catch` block of `detectRisks` reads
`error.message` and throws, so `detectRisks` raises and `analyzeDocument` fails although
its checks passed and the glossary prompt was answered. On every other behaviour the three
degrade independently: `detectRisks` raises on that rejection only, returns no risks and
the message for any other rejection and no risks for a malformed response;
`buildGlossary` and the key points of `generateSummary` are `[]` when their own prompt is
rejected, whatever the value, or answered with a malformed response; and whenever
`detectRisks` returns, `analyzeDocument` returns the object built from the three
results. -/
theorem sub_analyses_degrade :
    detectRisks nullSessions = Except.error "TypeError" ∧
    buildGlossary nullSessions =
      [JSValue.obj [("term".toList, JSValue.str "tort".toList),
        ("definition".toList, JSValue.str "a wrong".toList)]] ∧
    (analyzeDocument readyProvider (some sampleDocument)).1 =
      Except.ok ⟨(checkAIAvailability readyProvider).1, sampleDocument⟩ ∧
    analyzeDocumentResult readyProvider nullSessions (some sampleDocument) none =
      Except.error (AnalysisError.subAnalysis "TypeError") ∧
    (∀ b : Sessions,
      ((∃ message, detectRisks b = Except.error message) ↔
        askPrompt b PromptKind.risks = Except.error Thrown.nullish) ∧
      (∀ message, askPrompt b PromptKind.risks = Except.error (Thrown.value message) →
        detectRisks b = Except.ok ⟨[], none, some message⟩) ∧
      (∀ response m, askPrompt b PromptKind.risks = Except.ok response →
        parseJSONAttempt response = Except.error m →
        detectRisks b = Except.ok ⟨[], some response, none⟩) ∧
      (∀ thrown, askPrompt b PromptKind.glossary = Except.error thrown →
        buildGlossary b = []) ∧
      (∀ response m, askPrompt b PromptKind.glossary = Except.ok response →
        parseJSONAttempt response = Except.error m → buildGlossary b = []) ∧
      (∀ thrown, askPrompt b PromptKind.keyPoints = Except.error thrown →
        (generateSummary b).keyPoints = JSValue.arr []) ∧
      (∀ response m, askPrompt b PromptKind.keyPoints = Except.ok response →
        parseJSONAttempt response = Except.error m →
        (generateSummary b).keyPoints = JSValue.arr []) ∧
      (∀ (p : Provider) (text : Option JSString) (documentType : Option String)
        (st : Started) (trace : List Event) (result : RiskAnalysis),
        analyzeDocument p text = (Except.ok st, trace) →
        detectRisks b = Except.ok result →
        ∃ record, analyzeDocumentResult p b text documentType = Except.ok record ∧
          record.riskFactors = result.risks ∧
          record.riskScore = calculateRiskScore (result.risks.map toFinding) ∧
          record.keyPoints = (generateSummary b).keyPoints ∧
          record.glossary = buildGlossary b)) := by
  have hget1 : emptyStructure.get "risks" = JSValue.arr [] := rfl
  have hget2 : emptyStructure.get "keyPoints" = JSValue.arr [] := rfl
  have hget3 : emptyStructure.get "terms" = JSValue.arr [] := rfl
  refine ⟨rfl, rfl, rfl, rfl, ?_⟩
  intro b
  refine ⟨?_, ?_, ?_, ?_, ?_, ?_, ?_, ?_⟩
  · unfold detectRisks detectRisksAttempt
    cases ha : askPrompt b PromptKind.risks with
    | error e =>
      cases e with
      | nullish => simp
      | value message => simp
    | ok response =>
      simp only
      cases hf : ((parseJSONResponse response).get "risks").filterOrEmpty isValidRisk with
      | error m => simp
      | ok valid => simp
  · intro message ha
    simp [detectRisks, detectRisksAttempt, ha]
  · intro response m ha hm
    simp [detectRisks, detectRisksAttempt, ha, parseJSONResponse_malformed response m hm,
      hget1, JSValue.filterOrEmpty, JSValue.truthy]
  · intro thrown ha
    simp [buildGlossary, ha]
  · intro response m ha hm
    simp [buildGlossary, ha, parseJSONResponse_malformed response m hm, hget3,
      JSValue.filterOrEmpty, JSValue.truthy]
  · intro thrown ha
    simp [generateSummary, generateKeyPoints, ha, JSValue.orElse, JSValue.truthy]
  · intro response m ha hm
    simp [generateSummary, generateKeyPoints, ha, parseJSONResponse_malformed response m hm,
      hget2, JSValue.orElse, JSValue.truthy]
  · intro p text documentType st trace result hst hres
    refine ⟨analysisRecord result (generateSummary b) (buildGlossary b) st (text.getD [])
      documentType, ?_, rfl, rfl, ?_, rfl⟩
    · simp [analyzeDocumentResult, hst, buildAnalysis, hres]
    · show ((generateSummary b).keyPoints).orElse (JSValue.arr []) = (generateSummary b).keyPoints
      unfold generateSummary
      exact orElse_orElse _ _ rfl

end Analyzer

namespace Detector

/-- The URL score of up to 14 matching patterns is one of `urlVals`. -/
theorem urlScoreOf_mem_list :
    ∀ k ∈ List.range 15, ∀ a ∈ [false, true], ∀ b ∈ [false, true], ∀ c ∈ [false, true],
      urlScoreOf k a b c ∈ urlVals := by
  decide!

/-- The title score of up to 8 matching patterns is one of `titleVals`. -/
theorem titleScoreOf_mem_list :
    ∀ k ∈ List.range 9, ∀ a ∈ [false, true], titleScoreOf k a ∈ titleVals := by
  decide!

/-- The structure score of up to 21 matching patterns is one of `structureVals`. -/
theorem structureScoreOf_mem_list :
    ∀ k ∈ List.range 22, structureScoreOf k ∈ structureVals := by
  decide!

/-- The weighted content scores. -/
theorem contentTerm_mem :
    ∀ c ∈ contentVals, F64.mul c (F64.lit 30 100) ∈ contentTermVals := by
  decide!

/-- The weighted structure scores. -/
theorem structureTerm_mem :
    ∀ s ∈ structureVals, F64.mul s (F64.lit 15 100) ∈ structureTermVals := by
  decide!

/-- The sums of the weighted URL and title scores. -/
theorem urlTitle_mem :
    ∀ u ∈ urlVals, ∀ t ∈ titleVals,
      F64.add (F64.mul u (F64.lit 3 10)) (F64.mul t (F64.lit 25 100)) ∈ urlTitleVals := by
  decide!

/-- Every element of a list of at most `m * n` elements lies in one of its first `m` slices
of `n` elements. -/
theorem mem_chunk {α : Type} (n : Nat) :
    ∀ (m : Nat) (l : List α), l.length ≤ m * n → ∀ x ∈ l, ∃ i < m, x ∈ chunk n i l := by
  intro m
  induction m with
  | zero =>
    intro l hl x hx
    have hnil : l = [] := List.length_eq_zero.mp (by omega)
    rw [hnil] at hx
    simp at hx
  | succ m ih =>
    intro l hl x hx
    rw [← List.take_append_drop n l] at hx
    rcases List.mem_append.mp hx with h | h
    · exact ⟨0, Nat.succ_pos m, by simpa [chunk] using h⟩
    · have hlen : (l.drop n).length ≤ m * n := by
        rw [List.length_drop]
        have : (m + 1) * n = m * n + n := Nat.succ_mul m n
        omega
      obtain ⟨i, hi, hxi⟩ := ih (l.drop n) hlen x h
      refine ⟨i + 1, Nat.succ_lt_succ hi, ?_⟩
      unfold chunk at hxi ⊢
      rw [List.drop_drop] at hxi
      rw [Nat.mul_succ, Nat.add_comm]
      exact hxi

/-- The sums of the weighted URL, title and content scores, slice 0 of the sums of the
first two. -/
theorem urlTitleContent_mem_0 :
    ∀ a ∈ chunk 13 0 urlTitleVals, ∀ c ∈ contentTermVals,
      F64.add a c ∈ urlTitleContentVals := by
  decide!

/-- The sums of the weighted URL, title and content scores, slice 1 of the sums of the
first two. -/
theorem urlTitleContent_mem_1 :
    ∀ a ∈ chunk 13 1 urlTitleVals, ∀ c ∈ contentTermVals,
      F64.add a c ∈ urlTitleContentVals := by
  decide!

/-- The sums of the weighted URL, title and content scores, slice 2 of the sums of the
first two. -/
theorem urlTitleContent_mem_2 :
    ∀ a ∈ chunk 13 2 urlTitleVals, ∀ c ∈ contentTermVals,
      F64.add a c ∈ urlTitleContentVals := by
  decide!

/-- The sums of the weighted URL, title and content scores, slice 3 of the sums of the
first two. -/
theorem urlTitleContent_mem_3 :
    ∀ a ∈ chunk 13 3 urlTitleVals, ∀ c ∈ contentTermVals,
      F64.add a c ∈ urlTitleContentVals := by
  decide!

/-- The sums of the weighted URL, title and content scores, slice 4 of the sums of the
first two. -/
theorem urlTitleContent_mem_4 :
    ∀ a ∈ chunk 13 4 urlTitleVals, ∀ c ∈ contentTermVals,
      F64.add a c ∈ urlTitleContentVals := by
  decide!

/-- The sums of the weighted URL, title and content scores, slice 5 of the sums of the
first two. -/
theorem urlTitleContent_mem_5 :
    ∀ a ∈ chunk 13 5 urlTitleVals, ∀ c ∈ contentTermVals,
      F64.add a c ∈ urlTitleContentVals := by
  decide!

/-- The sums of the weighted URL, title and content scores, slice 6 of the sums of the
first two. -/
theorem urlTitleContent_mem_6 :
    ∀ a ∈ chunk 13 6 urlTitleVals, ∀ c ∈ contentTermVals,
      F64.add a c ∈ urlTitleContentVals := by
  decide!

/-- The sums of the weighted URL, title and content scores, slice 7 of the sums of the
first two. -/
theorem urlTitleContent_mem_7 :
    ∀ a ∈ chunk 13 7 urlTitleVals, ∀ c ∈ contentTermVals,
      F64.add a c ∈ urlTitleContentVals := by
  decide!

/-- The sums of the weighted URL, title and content scores, slice 8 of the sums of the
first two. -/
theorem urlTitleContent_mem_8 :
    ∀ a ∈ chunk 13 8 urlTitleVals, ∀ c ∈ contentTermVals,
      F64.add a c ∈ urlTitleContentVals := by
  decide!

/-- The sums of the weighted URL, title and content scores, slice 9 of the sums of the
first two. -/
theorem urlTitleContent_mem_9 :
    ∀ a ∈ chunk 13 9 urlTitleVals, ∀ c ∈ contentTermVals,
      F64.add a c ∈ urlTitleContentVals := by
  decide!

/-- The sums of the weighted URL, title and content scores. -/
theorem urlTitleContent_mem :
    ∀ a ∈ urlTitleVals, ∀ c ∈ contentTermVals, F64.add a c ∈ urlTitleContentVals := by
  intro a ha
  obtain ⟨i, hi, hx⟩ := mem_chunk 13 10 urlTitleVals (by decide) a ha
  interval_cases i
  · exact urlTitleContent_mem_0 a hx
  · exact urlTitleContent_mem_1 a hx
  · exact urlTitleContent_mem_2 a hx
  · exact urlTitleContent_mem_3 a hx
  · exact urlTitleContent_mem_4 a hx
  · exact urlTitleContent_mem_5 a hx
  · exact urlTitleContent_mem_6 a hx
  · exact urlTitleContent_mem_7 a hx
  · exact urlTitleContent_mem_8 a hx
  · exact urlTitleContent_mem_9 a hx

/-- The check of C1 on the weighted confidences, slice 0 of the sums of the first three
terms. -/
theorem confidenceCheck_all_0 :
    ∀ b ∈ chunk 32 0 urlTitleContentVals, ∀ s ∈ structureTermVals,
      confidenceCheck (F64.add b s) = true := by
  decide!

/-- The check of C1 on the weighted confidences, slice 1 of the sums of the first three
terms. -/
theorem confidenceCheck_all_1 :
    ∀ b ∈ chunk 32 1 urlTitleContentVals, ∀ s ∈ structureTermVals,
      confidenceCheck (F64.add b s) = true := by
  decide!

/-- The check of C1 on the weighted confidences, slice 2 of the sums of the first three
terms. -/
theorem confidenceCheck_all_2 :
    ∀ b ∈ chunk 32 2 urlTitleContentVals, ∀ s ∈ structureTermVals,
      confidenceCheck (F64.add b s) = true := by
  decide!

/-- The check of C1 on the weighted confidences, slice 3 of the sums of the first three
terms. -/
theorem confidenceCheck_all_3 :
    ∀ b ∈ chunk 32 3 urlTitleContentVals, ∀ s ∈ structureTermVals,
      confidenceCheck (F64.add b s) = true := by
  decide!

/-- The check of C1 on the weighted confidences, slice 4 of the sums of the first three
terms. -/
theorem confidenceCheck_all_4 :
    ∀ b ∈ chunk 32 4 urlTitleContentVals, ∀ s ∈ structureTermVals,
      confidenceCheck (F64.add b s) = true := by
  decide!

/-- The check of C1 on the weighted confidences, slice 5 of the sums of the first three
terms. -/
theorem confidenceCheck_all_5 :
    ∀ b ∈ chunk 32 5 urlTitleContentVals, ∀ s ∈ structureTermVals,
      confidenceCheck (F64.add b s) = true := by
  decide!

/-- The check of C1 on the weighted confidences, slice 6 of the sums of the first three
terms. -/
theorem confidenceCheck_all_6 :
    ∀ b ∈ chunk 32 6 urlTitleContentVals, ∀ s ∈ structureTermVals,
      confidenceCheck (F64.add b s) = true := by
  decide!

/-- The check of C1 on the weighted confidences, slice 7 of the sums of the first three
terms. -/
theorem confidenceCheck_all_7 :
    ∀ b ∈ chunk 32 7 urlTitleContentVals, ∀ s ∈ structureTermVals,
      confidenceCheck (F64.add b s) = true := by
  decide!

/-- The check of C1 holds of every weighted confidence that arises. -/
theorem confidenceCheck_all :
    ∀ b ∈ urlTitleContentVals, ∀ s ∈ structureTermVals,
      confidenceCheck (F64.add b s) = true := by
  intro b hb
  obtain ⟨i, hi, hx⟩ := mem_chunk 32 8 urlTitleContentVals (by decide) b hb
  interval_cases i
  · exact confidenceCheck_all_0 b hx
  · exact confidenceCheck_all_1 b hx
  · exact confidenceCheck_all_2 b hx
  · exact confidenceCheck_all_3 b hx
  · exact confidenceCheck_all_4 b hx
  · exact confidenceCheck_all_5 b hx
  · exact confidenceCheck_all_6 b hx
  · exact confidenceCheck_all_7 b hx

end Detector

namespace Detector

/-- A `forEach` loop over patterns adds the increment once per matching pattern and
records the sources of the matching patterns in order. -/
theorem foldl_matchStep (inc : F64) (s : JSString) (patterns : List Pattern) :
    ∀ acc : F64 × List String,
      patterns.foldl (matchStep inc s) acc =
        (iterAdd inc (matchCount patterns s) acc.1, acc.2 ++ matchedSources patterns s) := by
  induction patterns with
  | nil => intro acc; simp [matchCount, matchedSources, iterAdd]
  | cons p ps ih =>
    intro acc
    rw [List.foldl_cons, ih]
    by_cases hp : p.test s = true
    · simp [matchStep, hp, matchCount, matchedSources, iterAdd, List.countP_cons] at *
    · simp [matchStep, hp, matchCount, matchedSources, List.countP_cons] at *

/-- The number of matching patterns is at most the number of patterns. -/
theorem matchCount_le (patterns : List Pattern) (s : JSString) :
    matchCount patterns s ≤ patterns.length :=
  List.countP_le_length _

/-- The number of recorded sources is the number of matching patterns. -/
theorem matchedSources_length (patterns : List Pattern) (s : JSString) :
    (matchedSources patterns s).length = matchCount patterns s := by
  simp [matchedSources, matchCount, List.countP_eq_length_filter]

/-- The URL factor in terms of the number of matching patterns. -/
theorem analyzeUrl_eq (url : JSString) :
    analyzeUrl url =
      if url.isEmpty then ⟨0, []⟩
      else ⟨urlScoreOf (matchCount URL_PATTERNS url) (PRIVACY.test url) (TERMS.test url)
        (LEGAL.test url), matchedSources URL_PATTERNS url⟩ := by
  unfold analyzeUrl urlScoreOf
  simp only [foldl_matchStep, List.nil_append]

/-- The title factor in terms of the number of matching patterns. -/
theorem analyzeTitle_eq (title : JSString) :
    analyzeTitle title =
      if title.isEmpty then ⟨0, []⟩
      else ⟨titleScoreOf (matchCount TITLE_PATTERNS title) (decide (title.length < 50)),
        matchedSources TITLE_PATTERNS title⟩ := by
  unfold analyzeTitle titleScoreOf
  simp only [foldl_matchStep, List.nil_append, matchedSources_length, decide_eq_true_eq]

/-- The structure factor in terms of the number of matching patterns. -/
theorem analyzeStructure_eq (content : JSString) :
    analyzeStructure content =
      if content.isEmpty then ⟨0, []⟩
      else ⟨structureScoreOf (matchCount LEGAL_HEADERS content),
        matchedSources LEGAL_HEADERS content⟩ := by
  unfold analyzeStructure structureScoreOf
  simp only [foldl_matchStep, List.nil_append, matchedSources_length]

/-- Every URL score is one of `urlVals`. -/
theorem analyzeUrl_score_mem (url : JSString) : (analyzeUrl url).score ∈ urlVals := by
  rw [analyzeUrl_eq]
  split
  · decide!
  · have hk : matchCount URL_PATTERNS url ∈ List.range 15 :=
      List.mem_range.mpr (Nat.lt_succ_of_le (matchCount_le URL_PATTERNS url))
    exact urlScoreOf_mem_list _ hk _ (by cases PRIVACY.test url <;> simp) _
      (by cases TERMS.test url <;> simp) _ (by cases LEGAL.test url <;> simp)

/-- Every title score is one of `titleVals`. -/
theorem analyzeTitle_score_mem (title : JSString) : (analyzeTitle title).score ∈ titleVals := by
  rw [analyzeTitle_eq]
  split
  · decide!
  · have hk : matchCount TITLE_PATTERNS title ∈ List.range 9 :=
      List.mem_range.mpr (Nat.lt_succ_of_le (matchCount_le TITLE_PATTERNS title))
    exact titleScoreOf_mem_list _ hk _ (by cases decide (title.length < 50) <;> simp)

/-- Every structure score is one of `structureVals`. -/
theorem analyzeStructure_score_mem (content : JSString) :
    (analyzeStructure content).score ∈ structureVals := by
  rw [analyzeStructure_eq]
  split
  · decide!
  · have hk : matchCount LEGAL_HEADERS content ∈ List.range 22 :=
      List.mem_range.mpr (Nat.lt_succ_of_le (matchCount_le LEGAL_HEADERS content))
    exact structureScoreOf_mem_list _ hk

/-- Every content score is one of `contentVals`. -/
theorem contentScore_mem (n : Nat) : contentScore n ∈ contentVals := by
  unfold contentScore contentVals
  split_ifs <;> simp

/-- Every content score is one of `contentVals`. -/
theorem analyzeContent_score_mem (content : JSString) :
    (analyzeContent content).score ∈ contentVals := by
  unfold analyzeContent
  split
  · simp [contentVals]
  · exact contentScore_mem _

/-- C1: for every url, title and body text the confidence `isLegalPage` returns, the
weighted sum rounded to three decimals, lies in [0, 1], and `isLegal` is true exactly when
that confidence is at least 0.75. -/
theorem isLegalPage_confidence (url title content : JSString) :
    0 ≤ (isLegalPage url title content).confidence ∧
    (isLegalPage url title content).confidence ≤ 1 ∧
    ((isLegalPage url title content).isLegal = true ↔
      (isLegalPage url title content).confidence ≥ F64.lit 75 100) := by
  have hA := urlTitle_mem _ (analyzeUrl_score_mem url) _ (analyzeTitle_score_mem title)
  have hB := urlTitleContent_mem _ hA _
    (contentTerm_mem _ (analyzeContent_score_mem content))
  have hC := confidenceCheck_all _ hB _
    (structureTerm_mem _ (analyzeStructure_score_mem content))
  have hconf : weightedConfidence ⟨analyzeUrl url, analyzeTitle title, analyzeContent content,
      analyzeStructure content⟩ =
      F64.add (F64.add (F64.add (F64.mul (analyzeUrl url).score (F64.lit 3 10))
        (F64.mul (analyzeTitle title).score (F64.lit 25 100)))
        (F64.mul (analyzeContent content).score (F64.lit 30 100)))
        (F64.mul (analyzeStructure content).score (F64.lit 15 100)) := rfl
  simp only [confidenceCheck, Bool.and_eq_true, decide_eq_true_eq, beq_iff_eq] at hC
  obtain ⟨⟨h0, h1⟩, hiff⟩ := hC
  simp only [isLegalPage, hconf]
  refine ⟨h0, h1, ?_⟩
  simp only [decide_eq_true_eq]
  exact decide_eq_decide.mp hiff

end Detector

namespace Detector

/-- The URL score without a matching pattern and without the word `legal`. -/
theorem urlScoreOf_zero_mem :
    ∀ a ∈ [false, true], ∀ b ∈ [false, true],
      urlScoreOf 0 a b false ∈ [0, F64.lit 1 10, F64.lit 2 10] := by
  decide!

/-- The title score without a matching pattern. -/
theorem titleScoreOf_zero : ∀ a ∈ [false, true], titleScoreOf 0 a = 0 := by
  decide!

/-- Without a match in the URL or the title the confidence stays below the threshold. -/
theorem confidence_low_without_match :
    ∀ u ∈ [0, F64.lit 1 10, F64.lit 2 10], ∀ c ∈ contentVals, ∀ s ∈ structureVals,
      confidenceOf u 0 c s < DETECTION_THRESHOLD := by
  decide!

/-- A quick check that fails: no URL pattern and no title pattern matches, and the URL has
no `legal`. -/
theorem quickCheck_false (url title : JSString) (h : quickCheck url title = false) :
    matchCount URL_PATTERNS url = 0 ∧ matchCount TITLE_PATTERNS title = 0 ∧
      LEGAL.test url = false := by
  simp only [quickCheck, Bool.or_eq_false_iff, List.any_eq_false] at h
  refine ⟨?_, ?_, ?_⟩
  · simp only [matchCount, List.countP_eq_zero]
    exact h.1
  · simp only [matchCount, List.countP_eq_zero]
    exact h.2
  · have hm : (⟨"/legal/i", Re.lit "legal", true⟩ : Pattern) ∈ URL_PATTERNS := by
      simp [URL_PATTERNS]
    have := h.1 _ hm
    simpa [Pattern.test, LEGAL] using this

/-- The weighted confidence of a detection. -/
theorem weightedConfidence_eq (url title content : JSString) :
    weightedConfidence ⟨analyzeUrl url, analyzeTitle title, analyzeContent content,
      analyzeStructure content⟩ =
    confidenceOf (analyzeUrl url).score (analyzeTitle title).score
      (analyzeContent content).score (analyzeStructure content).score := rfl

/-- The flag `isLegal` of a detection. -/
theorem isLegal_iff (url title content : JSString) :
    (isLegalPage url title content).isLegal = true ↔
      DETECTION_THRESHOLD ≤ confidenceOf (analyzeUrl url).score (analyzeTitle title).score
        (analyzeContent content).score (analyzeStructure content).score := by
  simp only [isLegalPage, weightedConfidence_eq, decide_eq_true_eq, ge_iff_le]

/-- The order of doubles: not both below and at least. -/
theorem F64_not_lt_of_le (a b : F64) (h : a ≤ b) : ¬ b < a := by
  intro hlt
  exact absurd (show a.units ≤ b.units from h) (not_le.mpr (show b.units < a.units from hlt))

/-- C2: for every url, title and body text, if `isLegalPage` finds the page legal then the
quick check of the detector on the url and the title is true. -/
theorem isLegalPage_quickCheck (url title content : JSString)
    (h : (isLegalPage url title content).isLegal = true) : quickCheck url title = true := by
  by_contra hq
  have hq : quickCheck url title = false := by simpa using hq
  obtain ⟨hu, ht, hl⟩ := quickCheck_false url title hq
  have hus : (analyzeUrl url).score ∈ [0, F64.lit 1 10, F64.lit 2 10] := by
    rw [analyzeUrl_eq]
    split
    · simp
    · rw [hu, hl]
      exact urlScoreOf_zero_mem _ (by cases PRIVACY.test url <;> simp) _
        (by cases TERMS.test url <;> simp)
  have hts : (analyzeTitle title).score = 0 := by
    rw [analyzeTitle_eq]
    split
    · rfl
    · rw [ht]
      exact titleScoreOf_zero _ (by cases decide (title.length < 50) <;> simp)
  have hlow := confidence_low_without_match _ hus _ (analyzeContent_score_mem content) _
    (analyzeStructure_score_mem content)
  rw [← hts] at hlow
  exact F64_not_lt_of_le _ _ ((isLegal_iff url title content).mp h) hlow

/-- The sample page is found legal. -/
theorem legal_sample : (isLegalPage legalUrl legalTitle legalBody).isLegal = true := by
  decide!

/-- C2, at a page that `isLegalPage` finds legal. -/
theorem isLegalPage_quickCheck_witness :
    (isLegalPage legalUrl legalTitle legalBody).isLegal = true ∧
      quickCheck legalUrl legalTitle = true :=
  ⟨legal_sample, isLegalPage_quickCheck legalUrl legalTitle legalBody legal_sample⟩

end Detector

namespace Detector

/-- The URL factor of the example page. -/
theorem exampleUrl_score : (analyzeUrl exampleUrl).score = F64.lit 25 100 := by
  decide!

/-- The title factor of the example page. -/
theorem exampleTitle_score : (analyzeTitle exampleTitle).score = F64.lit 4 10 := by
  decide!

/-- The example page stays below the threshold whatever its body scores. -/
theorem exampleCheck_all :
    ∀ c ∈ contentVals, ∀ s ∈ structureVals, exampleCheck c s = true := by
  decide!

/-- The example page with three or more headers: the rounded confidence is at least
0.235, and at least 0.475 when the content scores 0.8 or 1. -/
theorem example_lower :
    ∀ s ∈ structureValsFrom3,
      (∀ c ∈ contentVals, F64.lit 235 1000 ≤
        F64.toFixed 3 (confidenceOf (F64.lit 25 100) (F64.lit 4 10) c s)) ∧
      (∀ c ∈ [F64.lit 8 10, 1], F64.lit 475 1000 ≤
        F64.toFixed 3 (confidenceOf (F64.lit 25 100) (F64.lit 4 10) c s)) := by
  decide!

/-- The structure score of three or more matching headers. -/
theorem structureScoreOf_from3 :
    ∀ k ∈ List.range 22, 3 ≤ k → structureScoreOf k ∈ structureValsFrom3 := by
  decide!

/-- C4, as stated, fails: a body of 145 characters with ten legal keywords and three
matching header patterns, under the url and the title of the example, is not found
legal; its confidence is 0.475. -/
theorem example_page_counterexample :
    countKeywords policyBody = 10 ∧ countHeaders policyBody = 3 ∧
    (isLegalPage exampleUrl exampleTitle policyBody).isLegal = false ∧
    (isLegalPage exampleUrl exampleTitle policyBody).confidence = F64.lit 475 1000 := by
  decide!

/-- C4, amended: for every body text, `isLegalPage` on the url
`https://example.com/privacy-policy` and the title `Privacy Policy` returns
`isLegal = false` with a confidence of at most 0.625 (the url factor is 0.25 and the title
factor 0.4); for a body with at least 10 legal keywords and at least 3 matching header
patterns the confidence is at least 0.235, and at least 0.475 when the body has 100
characters or more. -/
theorem example_page_not_legal (body : JSString) :
    (isLegalPage exampleUrl exampleTitle body).isLegal = false ∧
    (isLegalPage exampleUrl exampleTitle body).confidence ≤ F64.lit 625 1000 ∧
    (10 ≤ countKeywords body → 3 ≤ countHeaders body →
      F64.lit 235 1000 ≤ (isLegalPage exampleUrl exampleTitle body).confidence ∧
      (100 ≤ body.length →
        F64.lit 475 1000 ≤ (isLegalPage exampleUrl exampleTitle body).confidence)) := by
  have hchk := exampleCheck_all _ (analyzeContent_score_mem body) _
    (analyzeStructure_score_mem body)
  simp only [exampleCheck, Bool.and_eq_true, decide_eq_true_eq] at hchk
  have hconf : weightedConfidence ⟨analyzeUrl exampleUrl, analyzeTitle exampleTitle,
      analyzeContent body, analyzeStructure body⟩ =
      confidenceOf (F64.lit 25 100) (F64.lit 4 10) (analyzeContent body).score
        (analyzeStructure body).score := by
    rw [weightedConfidence_eq, exampleUrl_score, exampleTitle_score]
  refine ⟨?_, ?_, ?_⟩
  · have : ¬ ((isLegalPage exampleUrl exampleTitle body).isLegal = true) := by
      rw [isLegal_iff, exampleUrl_score, exampleTitle_score]
      intro hle
      exact F64_not_lt_of_le _ _ hle hchk.1
    simpa using this
  · simp only [isLegalPage, hconf]
    exact hchk.2
  · intro hkeywords hheaders
    have hne : body ≠ [] := by
      intro he
      rw [he] at hheaders
      revert hheaders
      decide
    have hs : (analyzeStructure body).score ∈ structureValsFrom3 := by
      rw [analyzeStructure_eq]
      have hnb : body.isEmpty = false := by
        cases body with
        | nil => exact absurd rfl hne
        | cons c cs => rfl
      simp only [hnb, Bool.false_eq_true, if_false]
      exact structureScoreOf_from3 _
        (List.mem_range.mpr (Nat.lt_succ_of_le (matchCount_le LEGAL_HEADERS body))) hheaders
    have hlow := example_lower _ hs
    refine ⟨?_, ?_⟩
    · simp only [isLegalPage, hconf]
      exact hlow.1 _ (analyzeContent_score_mem body)
    · intro hlen
      simp only [isLegalPage, hconf]
      apply hlow.2
      have hsc : (analyzeContent body).score = contentScore (countKeywords body) := by
        unfold analyzeContent
        have h1 : ¬ (body.isEmpty = true ∨ body.length < 100) := by
          intro h
          rcases h with h | h
          · cases body with
            | nil => exact hne rfl
            | cons c cs => simp at h
          · omega
        simp only [h1, if_false]
      rw [hsc]
      unfold contentScore
      by_cases h15 : countKeywords body ≥ 15
      · simp [h15]
      · have h10 : countKeywords body ≥ 10 := hkeywords
        simp [h15, h10]

/-- C4, amended, at the empty body and at the body of ten keywords and three headers. -/
theorem example_page_not_legal_witness :
    ((isLegalPage exampleUrl exampleTitle []).isLegal = false ∧
      (isLegalPage exampleUrl exampleTitle []).confidence ≤ F64.lit 625 1000) ∧
    10 ≤ countKeywords policyBody ∧ 3 ≤ countHeaders policyBody ∧
    100 ≤ policyBody.length ∧
    (isLegalPage exampleUrl exampleTitle policyBody).isLegal = false ∧
    (isLegalPage exampleUrl exampleTitle policyBody).confidence ≤ F64.lit 625 1000 ∧
    F64.lit 235 1000 ≤ (isLegalPage exampleUrl exampleTitle policyBody).confidence ∧
    F64.lit 475 1000 ≤ (isLegalPage exampleUrl exampleTitle policyBody).confidence := by
  have hkeywords : 10 ≤ countKeywords policyBody := by decide
  have hheaders : 3 ≤ countHeaders policyBody := by decide
  have hlength : 100 ≤ policyBody.length := by decide
  exact ⟨⟨(example_page_not_legal []).1, (example_page_not_legal []).2.1⟩,
    hkeywords, hheaders, hlength,
    (example_page_not_legal policyBody).1, (example_page_not_legal policyBody).2.1,
    ((example_page_not_legal policyBody).2.2 hkeywords hheaders).1,
    ((example_page_not_legal policyBody).2.2 hkeywords hheaders).2 hlength⟩

end Detector

namespace Detector

/-- The reasons of a detection: when `isLegal` is false the reasons are the one
fixed string; when it is true they are non-empty and list, in the order URL, title,
content, structure, one entry for each threshold that holds (url score > 0.3, title
score > 0.3, keyword matches ≥ 7, header matches ≥ 3), or the one generic reason when
none holds. -/
theorem reasons_eq (url title content : JSString) :
    ((isLegalPage url title content).isLegal = false →
      (isLegalPage url title content).reasons
        = ["Page does not appear to contain legal content"]) ∧
    ((isLegalPage url title content).isLegal = true →
      (isLegalPage url title content).reasons ≠ [] ∧
      (isLegalPage url title content).reasons =
        (if reasonEntries (isLegalPage url title content).factors = [] then
          ["Multiple indicators suggest legal content"]
         else reasonEntries (isLegalPage url title content).factors)) := by
  have hb : ∀ factors : Factors, buildReasons factors true =
      (if reasonEntries factors = [] then ["Multiple indicators suggest legal content"]
       else reasonEntries factors) := by
    intro factors
    unfold buildReasons reasonEntries
    by_cases h1 : factors.url.score > F64.lit 3 10 <;>
    by_cases h2 : factors.title.score > F64.lit 3 10 <;>
    by_cases h3 : factors.content.keywordMatches ≥ 7 <;>
    by_cases h4 : factors.struct.headerMatches.length ≥ 3 <;>
    simp [h1, h2, h3, h4]
  constructor
  · intro h
    simp only [isLegalPage] at h ⊢
    rw [h]
    rfl
  · intro h
    simp only [isLegalPage] at h ⊢
    rw [h, hb]
    refine ⟨?_, rfl⟩
    split
    · simp
    · assumption

/-- C19: for every input of `isLegalPage`, when `isLegal` is false the reasons are the one
fixed string; when it is true they are non-empty and list, in the order URL, title,
content, structure, one entry for each threshold that holds (url score > 0.3, title
score > 0.3, keyword matches ≥ 7, header matches ≥ 3), or the one generic reason when
none holds. -/
theorem isLegalPage_reasons (url title content : JSString) :
    ((isLegalPage url title content).isLegal = false →
      (isLegalPage url title content).reasons
        = ["Page does not appear to contain legal content"]) ∧
    ((isLegalPage url title content).isLegal = true →
      (isLegalPage url title content).reasons ≠ [] ∧
      (isLegalPage url title content).reasons =
        (if reasonEntries (isLegalPage url title content).factors = [] then
          ["Multiple indicators suggest legal content"]
         else reasonEntries (isLegalPage url title content).factors)) :=
  reasons_eq url title content

/-- The confidence of four factors that score 0. -/
theorem confidence_zero :
    decide (confidenceOf 0 0 0 0 ≥ DETECTION_THRESHOLD) = false ∧
      F64.toFixed 3 (confidenceOf 0 0 0 0) = 0 := by
  decide!

/-- C20: `isLegalPage` is total, and for arguments that are undefined or empty it gives
each absent dimension a factor of score 0 (an absent content gives the content and the
structure factor score 0); with all three absent the result is `isLegal = false` and
`confidence = 0`. -/
theorem isLegalPage_absent (url title content : Option JSString) :
    (absent url → (isLegalPageArgs url title content).factors.url.score = 0) ∧
    (absent title → (isLegalPageArgs url title content).factors.title.score = 0) ∧
    (absent content → (isLegalPageArgs url title content).factors.content.score = 0 ∧
      (isLegalPageArgs url title content).factors.struct.score = 0) ∧
    (absent url → absent title → absent content →
      (isLegalPageArgs url title content).isLegal = false ∧
      (isLegalPageArgs url title content).confidence = 0) := by
  have hget : ∀ x : Option JSString, absent x → x.getD [] = [] := by
    intro x hx
    rcases hx with h | h <;> simp [h]
  refine ⟨?_, ?_, ?_, ?_⟩
  · intro h
    simp [isLegalPageArgs, isLegalPage, hget url h, analyzeUrl]
  · intro h
    simp [isLegalPageArgs, isLegalPage, hget title h, analyzeTitle]
  · intro h
    simp [isLegalPageArgs, isLegalPage, hget content h, analyzeContent, analyzeStructure]
  · intro hu ht hc
    have hz : weightedConfidence ⟨analyzeUrl [], analyzeTitle [], analyzeContent [],
        analyzeStructure []⟩ = confidenceOf 0 0 0 0 := rfl
    simp only [isLegalPageArgs, isLegalPage, hget url hu, hget title ht, hget content hc, hz]
    exact ⟨confidence_zero.1, confidence_zero.2⟩

/-- No URL pattern and no title pattern matches the empty string. -/
theorem no_match_empty :
    matchedSources URL_PATTERNS [] = [] ∧ matchedSources TITLE_PATTERNS [] = [] := by
  decide

/-- The sources recorded for a string are empty exactly when no pattern matches it. -/
theorem matchedSources_eq_nil (patterns : List Pattern) (s : JSString) :
    matchedSources patterns s = [] ↔ ∀ p ∈ patterns, p.test s = false := by
  simp [matchedSources, List.filter_eq_nil_iff]

/-- C21: for every url and title, the quick check of the detector is true if and only if
some entry of `URL_PATTERNS` matches the url or some entry of `TITLE_PATTERNS` matches the
title; equivalently, if and only if the url factor or the title factor `isLegalPage`
computes for them has a non-empty list of matches. -/
theorem quickCheck_iff (url title content : JSString) :
    (quickCheck url title = true ↔
      ((∃ p ∈ URL_PATTERNS, p.test url = true) ∨
       (∃ p ∈ TITLE_PATTERNS, p.test title = true))) ∧
    (quickCheck url title = true ↔
      ((isLegalPage url title content).factors.url.matched ≠ [] ∨
       (isLegalPage url title content).factors.title.matched ≠ [])) := by
  have h1 : quickCheck url title = true ↔
      ((∃ p ∈ URL_PATTERNS, p.test url = true) ∨
       (∃ p ∈ TITLE_PATTERNS, p.test title = true)) := by
    simp only [quickCheck, Bool.or_eq_true, List.any_eq_true]
  have hu : (analyzeUrl url).matched = matchedSources URL_PATTERNS url := by
    rw [analyzeUrl_eq]
    split
    · rename_i he
      have : url = [] := by simpa using he
      rw [this, no_match_empty.1]
    · rfl
  have ht : (analyzeTitle title).matched = matchedSources TITLE_PATTERNS title := by
    rw [analyzeTitle_eq]
    split
    · rename_i he
      have : title = [] := by simpa using he
      rw [this, no_match_empty.2]
    · rfl
  refine ⟨h1, ?_⟩
  rw [h1]
  simp only [isLegalPage, hu, ht, ne_eq, matchedSources_eq_nil]
  simp

/-- The content scores of fewer than 7 keywords and the structure scores of fewer than
3 headers, under URL and title scores of at most 0.3, stay below the threshold. -/
theorem belowThresholds_all : ∀ u ∈ urlVals, ∀ t ∈ titleVals, belowThresholds u t = true := by
  decide!

/-- The structure score of fewer than three headers. -/
theorem structureScoreOf_lt3 :
    ∀ k ∈ List.range 3, structureScoreOf k ∈ [0, F64.lit 1 10, F64.lit 2 10] := by
  decide!

/-- A reason that starts with `Found` is not the generic one. -/
theorem found_ne_generic (x y : String) :
    "Found " ++ x ++ y ≠ "Multiple indicators suggest legal content" := by
  intro h
  have h2 := congrArg String.data h
  simp only [String.data_append] at h2
  have h3 := congrArg List.head? h2
  revert h3
  simp

/-- A reason that starts with `Contains` is not the generic one. -/
theorem contains_ne_generic (x y : String) :
    "Contains " ++ x ++ y ≠ "Multiple indicators suggest legal content" := by
  intro h
  have h2 := congrArg String.data h
  simp only [String.data_append] at h2
  have h3 := congrArg List.head? h2
  revert h3
  simp

/-- The content factor in terms of the number of keywords found. -/
theorem analyzeContent_eq (content : JSString) :
    analyzeContent content =
      if content.isEmpty ∨ content.length < 100 then ⟨0, 0, 0⟩
      else ⟨contentScore (countKeywords content), countKeywords content,
        F64.toFixed 2 (F64.mul (F64.div (F64.ofNat (countKeywords content))
          (F64.ofNat (JS.splitSpaceCount false content))) 1000)⟩ := rfl

/-- C28: for every url, title and body text that `isLegalPage` finds legal, at least one of
the four thresholds holds (url score > 0.3, title score > 0.3, keyword matches ≥ 7,
header matches ≥ 3), so the reasons are never the generic fallback
`Multiple indicators suggest legal content`. -/
theorem isLegalPage_threshold (url title content : JSString)
    (h : (isLegalPage url title content).isLegal = true) :
    ((isLegalPage url title content).factors.url.score > F64.lit 3 10 ∨
     (isLegalPage url title content).factors.title.score > F64.lit 3 10 ∨
     (isLegalPage url title content).factors.content.keywordMatches ≥ 7 ∨
     (isLegalPage url title content).factors.struct.headerMatches.length ≥ 3) ∧
    (isLegalPage url title content).reasons ≠ ["Multiple indicators suggest legal content"] := by
  have hthr : (analyzeUrl url).score > F64.lit 3 10 ∨
      (analyzeTitle title).score > F64.lit 3 10 ∨
      (analyzeContent content).keywordMatches ≥ 7 ∨
      (analyzeStructure content).headerMatches.length ≥ 3 := by
    by_contra hno
    simp only [not_or, not_le, ge_iff_le, gt_iff_lt] at hno
    obtain ⟨h1, h2, h3, h4⟩ := hno
    have hc : (analyzeContent content).score ∈ [0, F64.lit 2 10, F64.lit 4 10] := by
      rw [analyzeContent_eq] at h3 ⊢
      split
      · simp
      · rename_i hlen
        rw [if_neg hlen] at h3
        simp only at h3
        show contentScore (countKeywords content) ∈ [0, F64.lit 2 10, F64.lit 4 10]
        unfold contentScore
        split_ifs <;> first | omega | simp
    have hs : (analyzeStructure content).score ∈ [0, F64.lit 1 10, F64.lit 2 10] := by
      rw [analyzeStructure_eq] at h4 ⊢
      split
      · simp
      · rename_i hne
        rw [if_neg hne] at h4
        simp only [matchedSources_length] at h4
        exact structureScoreOf_lt3 _ (List.mem_range.mpr h4)
    have hall := belowThresholds_all _ (analyzeUrl_score_mem url) _ (analyzeTitle_score_mem title)
    simp only [belowThresholds, Bool.or_eq_true, decide_eq_true_eq, List.all_eq_true] at hall
    rcases hall with (hall | hall) | hall
    · exact h1 hall
    · exact h2 hall
    · exact F64_not_lt_of_le _ _ ((isLegal_iff url title content).mp h) (hall _ hc _ hs)
  refine ⟨by simpa [isLegalPage] using hthr, ?_⟩
  have hr := (reasons_eq url title content).2 h
  have hne : reasonEntries (isLegalPage url title content).factors ≠ [] := by
    simp only [isLegalPage]
    unfold reasonEntries
    rcases hthr with h1 | h1 | h1 | h1 <;> simp [h1]
  rw [hr.2, if_neg hne]
  intro heq
  have hmem : ("Multiple indicators suggest legal content" : String) ∈
      reasonEntries (isLegalPage url title content).factors := by
    rw [heq]; simp
  unfold reasonEntries at hmem
  simp only [List.mem_append] at hmem
  rcases hmem with ((hm | hm) | hm) | hm
  · split at hm
    · revert hm; decide
    · simp at hm
  · split at hm
    · revert hm; decide
    · simp at hm
  · split at hm
    · simp only [List.mem_singleton] at hm
      exact found_ne_generic _ _ hm.symm
    · simp at hm
  · split at hm
    · simp only [List.mem_singleton] at hm
      exact contains_ne_generic _ _ hm.symm
    · simp at hm

/-- C28, at a page that `isLegalPage` finds legal. -/
theorem isLegalPage_threshold_witness :
    ((isLegalPage legalUrl legalTitle legalBody).factors.url.score > F64.lit 3 10 ∨
     (isLegalPage legalUrl legalTitle legalBody).factors.title.score > F64.lit 3 10 ∨
     (isLegalPage legalUrl legalTitle legalBody).factors.content.keywordMatches ≥ 7 ∨
     (isLegalPage legalUrl legalTitle legalBody).factors.struct.headerMatches.length ≥ 3) ∧
    (isLegalPage legalUrl legalTitle legalBody).reasons
      ≠ ["Multiple indicators suggest legal content"] :=
  isLegalPage_threshold legalUrl legalTitle legalBody legal_sample

end Detector

namespace Detector

/-- The score after the additions of `analyzeUrl` lies within 2^-53 of the value of the
formula of the specification, for up to 14 matching patterns. -/
theorem urlScoreOf_near :
    ∀ k ∈ List.range 15, ∀ a ∈ [false, true], ∀ b ∈ [false, true], ∀ c ∈ [false, true],
      nearHundredths (urlScoreOf k a b c) (urlScoreHundredths k a b c) = true := by
  decide!

/-- The check `nearHundredths` as a distance of numbers. -/
theorem near_of_nearHundredths (x : F64) (n : Nat) (h : nearHundredths x n = true) :
    |F64.toRat x - (n : ℚ) / 100| ≤ 1 / 2 ^ 53 := by
  unfold nearHundredths at h
  rw [decide_eq_true_eq] at h
  have hz : |x.units * 100 - ((n * Nat.pow 2 1074 : Nat) : Int)| ≤
      ((100 * Nat.pow 2 1021 : Nat) : Int) := by
    rw [Int.abs_eq_natAbs]
    exact Int.ofNat_le.mpr h
  have hq : |((x.units * 100 - ((n * Nat.pow 2 1074 : Nat) : Int) : Int) : ℚ)| ≤
      (((100 * Nat.pow 2 1021 : Nat) : Int) : ℚ) := by
    rw [← Int.cast_abs]
    exact_mod_cast hz
  have hpow : Nat.pow 2 1074 = 2 ^ 1074 := Nat.pow_eq
  have hpow2 : Nat.pow 2 1021 = 2 ^ 1021 := Nat.pow_eq
  have hsplit : (2 : ℚ) ^ 1074 = 2 ^ 1021 * 2 ^ 53 := by rw [← pow_add]
  have hpos : (0 : ℚ) < 2 ^ 1021 := by positivity
  have key : F64.toRat x - (n : ℚ) / 100 =
      ((x.units * 100 - ((n * Nat.pow 2 1074 : Nat) : Int) : Int) : ℚ) /
        (100 * 2 ^ 1074) := by
    unfold F64.toRat
    rw [hpow]
    push_cast
    field_simp
    ring
  rw [key, abs_div, abs_of_pos (by positivity : (0 : ℚ) < 100 * 2 ^ 1074),
    div_le_div_iff₀ (by positivity) (by positivity)]
  rw [hpow2] at hq
  push_cast at hq ⊢
  rw [hsplit]
  nlinarith [hq, hpos]

/-- The formula of the specification in hundredths. -/
theorem urlScoreExact_eq (k : Nat) (a b c : Bool) :
    urlScoreExact k a b c = (urlScoreHundredths k a b c : ℚ) / 100 := by
  unfold urlScoreExact urlScoreHundredths
  rw [Nat.cast_min]
  have h100 : (1 : ℚ) = ((100 : ℕ) : ℚ) / 100 := by norm_num
  rw [h100, ← min_div_div_right (by norm_num : (0 : ℚ) ≤ 100)]
  congr 1
  cases a <;> cases b <;> cases c <;> simp <;> ring

/-- C24: for every non-empty url with `k` matching URL patterns, the url factor score is
`min(1, 0.15 * k + 0.10 * [privacy] + 0.10 * [terms] + 0.05 * [legal])`: it is the double
that `k` additions of 0.15, then the additions for the words that occur, and the clamp to
1 produce, and this double lies within 2^-53 of the value of the formula; the matches list
holds the sources of the matching patterns in pattern-list order and has exactly `k`
entries. -/
theorem analyzeUrl_score (url : JSString) (h : url ≠ []) :
    (analyzeUrl url).score =
      urlScoreOf (matchCount URL_PATTERNS url) (PRIVACY.test url) (TERMS.test url)
        (LEGAL.test url) ∧
    |F64.toRat (analyzeUrl url).score -
        urlScoreExact (matchCount URL_PATTERNS url) (PRIVACY.test url) (TERMS.test url)
          (LEGAL.test url)| ≤ 1 / 2 ^ 53 ∧
    (analyzeUrl url).matched = (URL_PATTERNS.filter fun p => p.test url).map Pattern.source ∧
    (analyzeUrl url).matched.length = matchCount URL_PATTERNS url := by
  have he : url.isEmpty = false := by
    cases url with
    | nil => exact absurd rfl h
    | cons c cs => rfl
  have hk : matchCount URL_PATTERNS url ∈ List.range 15 :=
    List.mem_range.mpr (Nat.lt_succ_of_le (matchCount_le URL_PATTERNS url))
  have heq : analyzeUrl url =
      ⟨urlScoreOf (matchCount URL_PATTERNS url) (PRIVACY.test url) (TERMS.test url)
        (LEGAL.test url), matchedSources URL_PATTERNS url⟩ := by
    rw [analyzeUrl_eq]
    simp only [he, Bool.false_eq_true, if_false]
  rw [heq]
  refine ⟨rfl, ?_, rfl, matchedSources_length _ _⟩
  rw [urlScoreExact_eq]
  exact near_of_nearHundredths _ _
    (urlScoreOf_near _ hk _ (by cases PRIVACY.test url <;> simp) _
      (by cases TERMS.test url <;> simp) _ (by cases LEGAL.test url <;> simp))

/-- C24, at a URL with six matching patterns and none of the three words: the score is the
double 0.9, the formula gives nine tenths. -/
theorem analyzeUrl_score_witness :
    sixUrl ≠ [] ∧ matchCount URL_PATTERNS sixUrl = 6 ∧
    (analyzeUrl sixUrl).score = F64.lit 9 10 ∧
    urlScoreExact 6 false false false = 9 / 10 ∧
    (analyzeUrl sixUrl).score =
      urlScoreOf (matchCount URL_PATTERNS sixUrl) (PRIVACY.test sixUrl) (TERMS.test sixUrl)
        (LEGAL.test sixUrl) ∧
    |F64.toRat (analyzeUrl sixUrl).score -
        urlScoreExact (matchCount URL_PATTERNS sixUrl) (PRIVACY.test sixUrl)
          (TERMS.test sixUrl) (LEGAL.test sixUrl)| ≤ 1 / 2 ^ 53 ∧
    (analyzeUrl sixUrl).matched =
      (URL_PATTERNS.filter fun p => p.test sixUrl).map Pattern.source ∧
    (analyzeUrl sixUrl).matched.length = matchCount URL_PATTERNS sixUrl :=
  ⟨by decide, by decide!, by decide!, by rw [urlScoreExact_eq]; norm_num [urlScoreHundredths],
    analyzeUrl_score sixUrl (by decide)⟩

/-- The lower case of U+212A KELVIN SIGN is `k` and that of U+0130 is `i` with U+0307, so a
text that spells `COOKIES` with the Kelvin sign holds the keyword `cookies`. -/
theorem toLowerCase_samples :
    JS.toLowerCase "COO\u212AIES".toList = "cookies".toList ∧
    JS.toLowerCase "\u0130".toList = ['i', '\u0307'] ∧
    countKeywords "hereby herein COO\u212AIES".toList = 3 := by
  decide

/-- A counting loop gives the number of elements that pass the test. -/
theorem foldl_count {α : Type} (p : α → Bool) (l : List α) :
    ∀ a : Nat, l.foldl (fun n x => if p x then n + 1 else n) a = a + (l.filter p).length := by
  induction l with
  | nil => intro a; simp
  | cons x xs ih =>
    intro a
    rw [List.foldl_cons, ih]
    by_cases hp : p x = true
    · simp [hp]; omega
    · simp [hp]

/-- The number of keywords found is the number of keywords of the vocabulary that occur in
the lower-cased text. -/
theorem countKeywords_eq (content : JSString) :
    countKeywords content =
      (LEGAL_KEYWORDS.filter fun keyword =>
        JS.includes (JS.toLowerCase content) (JS.toLowerCase keyword.toList)).length := by
  unfold countKeywords
  simp only
  rw [foldl_count (fun keyword : String =>
    JS.includes (JS.toLowerCase content) (JS.toLowerCase keyword.toList))]
  simp

/-- The step function of the specification is the chain of comparisons of the code. -/
theorem contentScore_eq_stepScore (n : Nat) : contentScore n = stepScore n := by
  unfold contentScore stepScore contentSteps
  by_cases h15 : 15 ≤ n
  · simp [List.find?, h15]
  by_cases h10 : 10 ≤ n
  · simp [List.find?, h15, h10]
  by_cases h7 : 7 ≤ n
  · simp [List.find?, h15, h10, h7]
  by_cases h5 : 5 ≤ n
  · simp [List.find?, h15, h10, h7, h5]
  by_cases h3 : 3 ≤ n
  · simp [List.find?, h15, h10, h7, h5, h3]
  · simp [List.find?, h15, h10, h7, h5, h3]

/-- C25: for every body text the content factor score is 0 when the text is shorter than
100 characters, whatever keywords it contains, and otherwise the step function of the
number `n` of vocabulary keywords found in the lower-cased text (n ≥ 15 gives 1.0, n ≥ 10
gives 0.8, n ≥ 7 gives 0.6, n ≥ 5 gives 0.4, n ≥ 3 gives 0.2, otherwise 0). -/
theorem analyzeContent_step (content : JSString) :
    (analyzeContent content).score =
      (if content.length < 100 then 0 else stepScore (countKeywords content)) ∧
    countKeywords content =
      (LEGAL_KEYWORDS.filter fun keyword =>
        JS.includes (JS.toLowerCase content) (JS.toLowerCase keyword.toList)).length ∧
    (∀ n : Nat, stepScore n =
      if 15 ≤ n then 1 else if 10 ≤ n then F64.lit 8 10 else if 7 ≤ n then F64.lit 6 10
      else if 5 ≤ n then F64.lit 4 10 else if 3 ≤ n then F64.lit 2 10 else 0) := by
  refine ⟨?_, countKeywords_eq content, ?_⟩
  · rw [analyzeContent_eq]
    by_cases hl : content.length < 100
    · simp [hl]
    · have he : content.isEmpty = false := by
        cases content with
        | nil => simp at hl
        | cons c cs => rfl
      simp [hl, he, contentScore_eq_stepScore]
  · intro n
    rw [← contentScore_eq_stepScore]
    rfl

end Detector

namespace Detector

/-- The vocabulary has 24 distinct keywords, none of them empty, and every gap is at least
1 and at most the length of its keyword. -/
theorem vocabulary_facts :
    ∀ a ∈ vocabulary, vocabulary.count a = 1 ∧ 1 ≤ gap a ∧ gap a ≤ a.length := by
  decide!

/-- No other keyword can start before the gap of a keyword is over. -/
theorem no_overlap_before_gap :
    ∀ a ∈ vocabulary, ∀ b ∈ vocabulary, b ≠ a → ∀ d < gap a, overlapsAt a b d = false := by
  decide!

/-- The gaps fall short of 9 by 11 in total. -/
theorem gap_deficit : (vocabulary.map fun k => 9 - gap k).sum = 11 := by
  decide!

end Detector

namespace Detector

/-- A keyword that starts `d` code units into a text occurs in the text. -/
theorem infix_of_prefix_drop (k t : JSString) (d : Nat) (h : k <+: t.drop d) : k <:+: t :=
  h.isInfix.trans (List.drop_suffix d t).isInfix

/-- A keyword that occurs in a text starts at some position of it. -/
theorem prefix_drop_of_infix (k t : JSString) (h : k <:+: t) : ∃ d, k <+: t.drop d := by
  obtain ⟨s, r, hsr⟩ := h
  refine ⟨s.length, r, ?_⟩
  rw [← hsr, List.append_assoc, List.drop_left]

/-- After an occurrence of the keyword `a` at the start of a text, every other keyword
that occurs in the text occurs in the text without its first `gap a` code units. -/
theorem infix_drop_gap (a b t : JSString) (ha : a ∈ vocabulary) (hb : b ∈ vocabulary)
    (hne : b ≠ a) (hpre : a <+: t) (hin : b <:+: t) : b <:+: t.drop (gap a) := by
  obtain ⟨d, hd⟩ := prefix_drop_of_infix b t hin
  by_cases hlt : d < gap a
  · exfalso
    have hno := no_overlap_before_gap a ha b hb hne d hlt
    obtain ⟨r, hr⟩ := hpre
    have hle : d ≤ a.length := le_trans (le_of_lt hlt) (vocabulary_facts a ha).2.2
    have h1 : a.drop d <+: t.drop d := by
      refine ⟨r, ?_⟩
      rw [← hr, List.drop_append_of_le_length hle]
    rcases List.prefix_or_prefix_of_prefix h1 hd with h2 | h2
    · simp [overlapsAt, h2] at hno
    · simp [overlapsAt, h2] at hno
  · have hge : gap a ≤ d := Nat.le_of_not_lt hlt
    have he : t.drop d = (t.drop (gap a)).drop (d - gap a) := by
      rw [List.drop_drop]
      congr 1
      omega
    rw [he] at hd
    exact infix_of_prefix_drop b _ _ hd

/-- The sum over a list of keywords of a constant at the places equal to `a`. -/
theorem sum_indicator_eq (a : JSString) (g : Nat) (l : List JSString) :
    (l.map fun k => if k = a then g else 0).sum = g * l.count a := by
  induction l with
  | nil => simp
  | cons x xs ih =>
    rw [List.map_cons, List.sum_cons, ih, List.count_cons]
    by_cases hx : x = a
    · simp [hx]; ring
    · simp [hx]

/-- A pointwise bound on the terms bounds the sum. -/
theorem sum_le_sum_of_le {α : Type} (f g : α → Nat) (l : List α)
    (h : ∀ x ∈ l, f x ≤ g x) : (l.map f).sum ≤ (l.map g).sum := by
  induction l with
  | nil => simp
  | cons x xs ih =>
    simp only [List.map_cons, List.sum_cons]
    exact Nat.add_le_add (h x (List.mem_cons_self x xs))
      (ih fun y hy => h y (List.mem_cons_of_mem x hy))

/-- The sum of a sum of two terms. -/
theorem sum_map_add_nat {α : Type} (f g : α → Nat) (l : List α) :
    (l.map fun x => f x + g x).sum = (l.map f).sum + (l.map g).sum := by
  induction l with
  | nil => simp
  | cons x xs ih =>
    simp only [List.map_cons, List.sum_cons, ih]
    omega

/-- A bound on every term of the weight of a text bounds the weight. -/
theorem weight_le_add (t s : JSString) (g : JSString → Nat)
    (h : ∀ k ∈ vocabulary,
      (if k <:+: t then gap k else 0) ≤ g k + (if k <:+: s then gap k else 0)) :
    weight t ≤ (vocabulary.map g).sum + weight s := by
  have hsum := sum_le_sum_of_le _ _ vocabulary h
  rw [sum_map_add_nat] at hsum
  exact hsum

/-- No keyword occurs in the empty text. -/
theorem weight_nil : weight [] = 0 := by
  have hzero : ∀ k ∈ vocabulary, ¬ k <:+: ([] : JSString) := by
    intro k hk hin
    have hk0 : k = [] := List.infix_nil.mp hin
    have h1 := (vocabulary_facts k hk).2
    rw [hk0] at h1
    have h2 : gap ([] : JSString) ≤ 0 := h1.2
    have h3 := h1.1
    omega
  unfold weight
  have hmap : (vocabulary.map fun k => if k <:+: ([] : JSString) then gap k else 0) =
      vocabulary.map fun _ => 0 := by
    apply List.map_congr_left
    intro k hk
    simp [hzero k hk]
  rw [hmap]
  simp

/-- The keywords that occur in a text need room: the sum of their gaps is at most the
length of the text. -/
theorem weight_le_length : ∀ (n : Nat) (t : JSString), t.length ≤ n → weight t ≤ t.length := by
  intro n
  induction n with
  | zero =>
    intro t ht
    have ht0 : t = [] := List.length_eq_zero.mp (Nat.le_zero.mp ht)
    subst ht0
    rw [weight_nil]
    exact Nat.zero_le _
  | succ n ih =>
    intro t ht
    by_cases hex : ∃ a ∈ vocabulary, a <+: t
    · obtain ⟨a, ha, hpre⟩ := hex
      have hfa := vocabulary_facts a ha
      have hlen : a.length ≤ t.length := hpre.length_le
      have hdrop : (t.drop (gap a)).length ≤ n := by
        rw [List.length_drop]
        omega
      have hrec := ih (t.drop (gap a)) hdrop
      rw [List.length_drop] at hrec
      have hpoint : ∀ k ∈ vocabulary,
          (if k <:+: t then gap k else 0) ≤
            (fun k => if k = a then gap a else 0) k +
              (if k <:+: t.drop (gap a) then gap k else 0) := by
        intro k hk
        by_cases hka : k = a
        · subst hka
          simp only [if_true]
          split <;> omega
        · by_cases hin : k <:+: t
          · have := infix_drop_gap a k t ha hk hka hpre hin
            simp [hin, this, hka]
          · simp [hin]
      have hsum := weight_le_add t (t.drop (gap a)) _ hpoint
      rw [sum_indicator_eq, hfa.1] at hsum
      omega
    · cases t with
      | nil =>
        rw [weight_nil]
        exact Nat.zero_le _
      | cons c t' =>
        have hpoint : ∀ k ∈ vocabulary,
            (if k <:+: c :: t' then gap k else 0) ≤
              (fun _ => 0) k + (if k <:+: t' then gap k else 0) := by
          intro k hk
          by_cases hin : k <:+: c :: t'
          · rcases List.infix_cons_iff.mp hin with h1 | h1
            · exact absurd ⟨k, hk, h1⟩ hex
            · simp [hin, h1]
          · simp [hin]
        have hsum := weight_le_add (c :: t') t' _ hpoint
        have hzero : (vocabulary.map fun _ => 0).sum = 0 := by simp
        rw [hzero] at hsum
        have hrec := ih t' (by simpa using ht)
        simp only [List.length_cons]
        omega

/-- The number of elements of a list of keywords that occur in a text, as a sum. -/
theorem length_filter_includes (t : JSString) (l : List JSString) :
    (l.filter fun k => JS.includes t k).length =
      (l.map fun k => if k <:+: t then 1 else 0).sum := by
  induction l with
  | nil => simp
  | cons x xs ih =>
    rw [List.map_cons, List.sum_cons, ← ih]
    by_cases hx : x <:+: t
    · simp [List.filter_cons, JS.includes, hx]; omega
    · simp [List.filter_cons, JS.includes, hx]

/-- Nine times the number of keywords that occur in a text is at most the sum of their
gaps plus 11. -/
theorem nine_count_le_weight (t : JSString) :
    9 * (vocabulary.filter fun k => JS.includes t k).length ≤ weight t + 11 := by
  have hpoint : ∀ k ∈ vocabulary,
      (fun k => 9 * (if k <:+: t then 1 else 0)) k ≤
        (fun k => (if k <:+: t then gap k else 0) + (9 - gap k)) k := by
    intro k _
    by_cases hin : k <:+: t
    · simp [hin]; omega
    · simp [hin]
  have hsum := sum_le_sum_of_le _ _ vocabulary hpoint
  rw [sum_map_add_nat, gap_deficit] at hsum
  have hmul : ∀ l : List JSString, (l.map fun k => 9 * (if k <:+: t then 1 else 0)).sum =
      9 * (l.map fun k => if k <:+: t then 1 else 0).sum := by
    intro l
    induction l with
    | nil => simp
    | cons x xs ih => simp only [List.map_cons, List.sum_cons, ih]; ring
  rw [hmul] at hsum
  rw [length_filter_includes]
  exact hsum

/-- No keyword holds U+0307, and none ends with `i`. -/
theorem vocabulary_plain :
    ∀ k ∈ vocabulary, '\u0307' ∉ k ∧ k.getLast? ≠ some 'i' := by
  decide

/-- The lower case of a code unit other than U+0130 is the one code unit `lowerImage`. -/
theorem lowerUnit_eq (c : Char) (h : c ≠ '\u0130') : JS.lowerUnit c = [lowerImage c] := by
  unfold JS.lowerUnit lowerImage
  by_cases hk : c = '\u212A'
  · simp [hk]
  · simp [hk, h]

/-- A word without U+0307 that does not end with `i` and starts the lower case of a text
starts the text of the images of its code units: none of its code units comes from a
U+0130. -/
theorem prefix_lowerImage : ∀ (s k : JSString), '\u0307' ∉ k → k.getLast? ≠ some 'i' →
    k <+: JS.toLowerCase s → k <+: s.map lowerImage := by
  intro s
  induction s with
  | nil =>
    intro k _ _ h
    simpa [JS.toLowerCase] using h
  | cons c r ih =>
    intro k hd hi h
    cases k with
    | nil => exact List.nil_prefix
    | cons k0 k1 =>
      have hlow : JS.toLowerCase (c :: r) = JS.lowerUnit c ++ JS.toLowerCase r := by
        simp [JS.toLowerCase]
      rw [hlow] at h
      by_cases hc : c = '\u0130'
      · exfalso
        have hu : JS.lowerUnit c = ['i', '\u0307'] := by
          rw [hc]
          decide
        rw [hu] at h
        simp only [List.cons_append, List.nil_append] at h
        rw [List.cons_prefix_cons] at h
        obtain ⟨h0, h1⟩ := h
        cases k1 with
        | nil =>
          apply hi
          rw [h0]
          rfl
        | cons k2 k3 =>
          rw [List.cons_prefix_cons] at h1
          apply hd
          rw [h1.1]
          simp
      · rw [lowerUnit_eq c hc] at h
        simp only [List.cons_append, List.nil_append] at h
        rw [List.cons_prefix_cons] at h
        obtain ⟨h0, h1⟩ := h
        rw [List.map_cons, List.cons_prefix_cons]
        refine ⟨h0, ?_⟩
        cases k1 with
        | nil => exact List.nil_prefix
        | cons k2 k3 =>
          apply ih (k2 :: k3) _ _ h1
          · intro hmem
            exact hd (List.mem_cons_of_mem _ hmem)
          · intro hlast
            apply hi
            rw [List.getLast?_cons_cons]
            exact hlast

/-- A word without U+0307 that does not end with `i` and occurs in the lower case of a
text occurs in the text of the images of its code units, which is as long as the text. -/
theorem infix_lowerImage : ∀ (s k : JSString), '\u0307' ∉ k → k.getLast? ≠ some 'i' →
    k <:+: JS.toLowerCase s → k <:+: s.map lowerImage := by
  intro s
  induction s with
  | nil =>
    intro k _ _ h
    simpa [JS.toLowerCase] using h
  | cons c r ih =>
    intro k hd hi h
    have hpre : k <+: JS.toLowerCase (c :: r) → k <:+: (c :: r).map lowerImage :=
      fun hp => (prefix_lowerImage (c :: r) k hd hi hp).isInfix
    have hrest : k <:+: JS.toLowerCase r → k <:+: (c :: r).map lowerImage := by
      intro hr
      rw [List.map_cons]
      exact List.infix_cons (ih k hd hi hr)
    have hlow : JS.toLowerCase (c :: r) = JS.lowerUnit c ++ JS.toLowerCase r := by
      simp [JS.toLowerCase]
    by_cases hc : c = '\u0130'
    · have hu : JS.lowerUnit c = ['i', '\u0307'] := by
        rw [hc]
        decide
      have h2 := h
      rw [hlow, hu] at h2
      simp only [List.cons_append, List.nil_append] at h2
      rcases List.infix_cons_iff.mp h2 with h3 | h3
      · apply hpre
        rw [hlow, hu]
        exact h3
      · rcases List.infix_cons_iff.mp h3 with h4 | h4
        · cases k with
          | nil => exact List.nil_infix
          | cons k0 k1 =>
            exfalso
            rw [List.cons_prefix_cons] at h4
            apply hd
            rw [h4.1]
            simp
        · exact hrest h4
    · have h2 := h
      rw [hlow, lowerUnit_eq c hc] at h2
      simp only [List.cons_append, List.nil_append] at h2
      rcases List.infix_cons_iff.mp h2 with h3 | h3
      · apply hpre
        rw [hlow, lowerUnit_eq c hc]
        exact h3
      · exact hrest h3

/-- A text in which at least 15 keywords are found has at least 124 characters. -/
theorem length_of_fifteen (content : JSString) (h : 15 ≤ countKeywords content) :
    124 ≤ content.length := by
  have h1 : countKeywords content =
      (vocabulary.filter fun k => JS.includes (JS.toLowerCase content) k).length := by
    rw [countKeywords_eq]
    unfold vocabulary
    rw [List.filter_map, List.length_map]
    rfl
  have hmono : (vocabulary.filter fun k => JS.includes (JS.toLowerCase content) k).length ≤
      (vocabulary.filter fun k => JS.includes (content.map lowerImage) k).length := by
    rw [← List.countP_eq_length_filter, ← List.countP_eq_length_filter]
    apply List.countP_mono_left
    intro k hk hin
    have hp := vocabulary_plain k hk
    simp only [JS.includes, decide_eq_true_eq] at hin ⊢
    exact infix_lowerImage content k hp.1 hp.2 hin
  have h2 := nine_count_le_weight (content.map lowerImage)
  have h3 := weight_le_length _ (content.map lowerImage) (le_refl _)
  have h4 : (content.map lowerImage).length = content.length := List.length_map _ _
  omega

/-- C3: for every body text that contains, case-insensitively and as substrings, at least
15 distinct keywords of the vocabulary `LEGAL_KEYWORDS`, the content factor score computed
by `analyzeContent` equals 1.0. -/
theorem analyzeContent_fifteen (content : JSString) (found : List String)
    (hdistinct : found.Nodup) (hvocabulary : found ⊆ LEGAL_KEYWORDS)
    (hfound : ∀ keyword ∈ found,
      JS.toLowerCase keyword.toList <:+: JS.toLowerCase content)
    (hmany : 15 ≤ found.length) :
    (analyzeContent content).score = 1 := by
  have hsub : found ⊆ LEGAL_KEYWORDS.filter fun keyword =>
      JS.includes (JS.toLowerCase content) (JS.toLowerCase keyword.toList) := by
    intro k hk
    rw [List.mem_filter]
    exact ⟨hvocabulary hk, by simpa [JS.includes] using hfound k hk⟩
  have hle := (List.subperm_of_subset hdistinct hsub).length_le
  rw [← countKeywords_eq] at hle
  have hn : 15 ≤ countKeywords content := le_trans hmany hle
  have hlen := length_of_fifteen content hn
  have he : content.isEmpty = false := by
    cases content with
    | nil => simp at hlen
    | cons c cs => rfl
  rw [analyzeContent_eq]
  have hnot : ¬ (content.isEmpty = true ∨ content.length < 100) := by
    rw [he]
    simp
    omega
  rw [if_neg hnot]
  simp [contentScore, hn]

/-- C3 (witness): the body `fullBody` contains the first fifteen keywords of the
vocabulary. -/
theorem analyzeContent_fifteen_witness :
    fifteenKeywords.Nodup ∧ fifteenKeywords ⊆ LEGAL_KEYWORDS ∧
    (∀ keyword ∈ fifteenKeywords,
      JS.toLowerCase keyword.toList <:+: JS.toLowerCase fullBody) ∧
    15 ≤ fifteenKeywords.length ∧ (analyzeContent fullBody).score = 1 :=
  ⟨by decide, by decide, by decide, by decide,
    analyzeContent_fifteen fullBody fifteenKeywords (by decide) (by decide) (by decide)
      (by decide)⟩

end Detector

namespace Analyzer

/-- The risk level is the value of the rule table at the numbers of findings of severity
`high` and `medium`. -/
theorem calculateRiskScore_counts (risks : List Finding) :
    calculateRiskScore risks =
      riskRuleTable (countSeverity "high" risks) (countSeverity "medium" risks) := by
  unfold calculateRiskScore riskRuleTable countSeverity
  by_cases h0 : risks.length = 0
  · have hnil : risks = [] := List.length_eq_zero.mp h0
    subst hnil
    simp
  · simp only [h0, if_false, List.countP_eq_length_filter]

/-- The rule table is monotone in both numbers. -/
theorem riskRuleTable_mono (h m h2 m2 : Nat) (hh : h ≤ h2) (hm : m ≤ m2) :
    levelRank (riskRuleTable h m) ≤ levelRank (riskRuleTable h2 m2) := by
  unfold riskRuleTable
  split_ifs <;> simp [levelRank] <;> omega

/-- The rule table gives `low` exactly at no `high` and no `medium` finding. -/
theorem riskRuleTable_low (h m : Nat) : riskRuleTable h m = "low" ↔ h = 0 ∧ m = 0 := by
  unfold riskRuleTable
  split_ifs <;> simp <;> omega

/-- C30: `calculateRiskScore` depends only on the numbers of `high` and `medium` findings
and is monotone: for every list of findings and every further finding, at any position and
of any severity, the level of the extended list is not lower than the level of the list,
in the order low < medium < high; a finding whose severity is neither `high` nor `medium`,
such as `low`, leaves the level unchanged; and the level is `low` exactly when no finding
is `high` or `medium`. -/
theorem calculateRiskScore_monotone (before after : List Finding) (f : Finding) :
    levelRank (calculateRiskScore (before ++ after)) ≤
      levelRank (calculateRiskScore (before ++ f :: after)) ∧
    (f.severity ≠ "high" ∧ f.severity ≠ "medium" →
      calculateRiskScore (before ++ f :: after) = calculateRiskScore (before ++ after)) ∧
    (f.severity = "low" →
      calculateRiskScore (before ++ f :: after) = calculateRiskScore (before ++ after)) ∧
    (∀ risks : List Finding, calculateRiskScore risks =
      riskRuleTable (countSeverity "high" risks) (countSeverity "medium" risks)) ∧
    (∀ risks : List Finding, calculateRiskScore risks = "low" ↔
      countSeverity "high" risks = 0 ∧ countSeverity "medium" risks = 0) := by
  have hcount : ∀ s : String, countSeverity s (before ++ f :: after) =
      countSeverity s (before ++ after) + (if f.severity = s then 1 else 0) := by
    intro s
    unfold countSeverity
    simp only [List.countP_append, List.countP_cons, decide_eq_true_eq]
    omega
  have hsame : f.severity ≠ "high" ∧ f.severity ≠ "medium" →
      calculateRiskScore (before ++ f :: after) = calculateRiskScore (before ++ after) := by
    intro hs
    rw [calculateRiskScore_counts, calculateRiskScore_counts, hcount, hcount]
    simp [hs.1, hs.2]
  refine ⟨?_, hsame, ?_, calculateRiskScore_counts, ?_⟩
  · rw [calculateRiskScore_counts, calculateRiskScore_counts, hcount, hcount]
    exact riskRuleTable_mono _ _ _ _ (Nat.le_add_right _ _) (Nat.le_add_right _ _)
  · intro hlow
    exact hsame ⟨by rw [hlow]; decide, by rw [hlow]; decide⟩
  · intro risks
    rw [calculateRiskScore_counts]
    exact riskRuleTable_low _ _

/-- The chain of checks of `detectDocumentType` picks the first matching rule. -/
theorem detectDocumentType_eq (text : JSString) :
    detectDocumentType text = firstMatchingRule text := by
  unfold detectDocumentType firstMatchingRule documentTypeRules
  simp only [List.find?]
  cases JS.includes (JS.toLowerCase text) "privacy".toList <;>
    cases JS.includes (JS.toLowerCase text) "policy".toList <;>
    cases JS.includes (JS.toLowerCase text) "terms".toList <;>
    cases JS.includes (JS.toLowerCase text) "service".toList <;>
    cases JS.includes (JS.toLowerCase text) "use".toList <;>
    cases JS.includes (JS.toLowerCase text) "cookie".toList <;>
    cases JS.includes (JS.toLowerCase text) "eula".toList <;> rfl

/-- The record of an analysis that returned. -/
theorem analyzeDocumentResult_ok (p : Provider) (b : Sessions) (text : Option JSString)
    (hint : Option String) (record : AnalysisRecord)
    (h : analyzeDocumentResult p b text hint = Except.ok record) :
    ∃ t st result, text = some t ∧
      record = analysisRecord result (generateSummary b) (buildGlossary b) st t hint := by
  unfold analyzeDocumentResult at h
  cases text with
  | none =>
    exfalso
    have hne : ∀ st, (analyzeDocument p none).1 ≠ Except.ok st := by
      intro st
      unfold analyzeDocument
      simp only
      split <;> simp
    split at h
    · simp at h
    · rename_i st heq
      exact hne st heq
  | some t =>
    split at h
    · simp at h
    · rename_i st heq
      unfold buildAnalysis at h
      cases hd : detectRisks b with
      | error m => simp [hd] at h
      | ok result =>
        simp only [hd, Except.ok.injEq, Option.getD_some] at h
        exact ⟨t, st, result, rfl, h.symm⟩

/-- C26: in the record `analyzeDocument` returns, `metadata.documentType` is the type hint
of the caller when one is given (a non-empty string); otherwise it is the type of the first
matching rule, in the order privacy_policy, terms_of_service, cookie_policy, eula, of
substring checks on the lower-cased text, and `legal_document` when no rule matches. A text
that contains both `privacy` and `policy` is a privacy_policy whatever else it
mentions. -/
theorem analyzeDocument_documentType (p : Provider) (b : Sessions) (text : Option JSString)
    (hint : Option String) (record : AnalysisRecord)
    (h : analyzeDocumentResult p b text hint = Except.ok record) :
    ∃ t, text = some t ∧
      (∀ d, hint = some d → d ≠ "" → record.metadata.documentType = d) ∧
      (hint = none ∨ hint = some "" →
        record.metadata.documentType = firstMatchingRule t) ∧
      firstMatchingRule t = detectDocumentType t ∧
      (JS.includes (JS.toLowerCase t) "privacy".toList = true →
        JS.includes (JS.toLowerCase t) "policy".toList = true →
        firstMatchingRule t = "privacy_policy") := by
  obtain ⟨t, st, result, ht, hrec⟩ := analyzeDocumentResult_ok p b text hint record h
  refine ⟨t, ht, ?_, ?_, (detectDocumentType_eq t).symm, ?_⟩
  · intro d hd hne
    rw [hrec, hd]
    simp [analysisRecord, hne]
  · intro hn
    rw [hrec, ← detectDocumentType_eq]
    rcases hn with hn | hn
    · rw [hn]
      simp [analysisRecord]
    · rw [hn]
      simp [analysisRecord]
  · intro h1 h2
    rw [← detectDocumentType_eq]
    unfold detectDocumentType
    simp only [h1, h2, Bool.and_self, if_true]

/-- C26, at the analysis of `sampleDocument` without a hint: the document mentions cookies
and a EULA as well and is a privacy_policy. A text whose `K` is U+212A KELVIN SIGN is
lower-cased to `cookie` all the same. -/
theorem analyzeDocument_documentType_witness :
    (∃ t, some sampleDocument = some t ∧
      (∀ d, (none : Option String) = some d → d ≠ "" →
        (analysisRecord ⟨[], none,
            some (JSValue.str "Failed to initialize AI analysis engine".toList)⟩
          (generateSummary failingSessions) (buildGlossary failingSessions)
          ⟨(checkAIAvailability readyProvider).1, sampleDocument⟩
          sampleDocument none).metadata.documentType = d) ∧
      ((none : Option String) = none ∨ (none : Option String) = some "" →
        (analysisRecord ⟨[], none,
            some (JSValue.str "Failed to initialize AI analysis engine".toList)⟩
          (generateSummary failingSessions) (buildGlossary failingSessions)
          ⟨(checkAIAvailability readyProvider).1, sampleDocument⟩
          sampleDocument none).metadata.documentType = firstMatchingRule t) ∧
      firstMatchingRule t = detectDocumentType t ∧
      (JS.includes (JS.toLowerCase t) "privacy".toList = true →
        JS.includes (JS.toLowerCase t) "policy".toList = true →
        firstMatchingRule t = "privacy_policy")) ∧
    firstMatchingRule sampleDocument = "privacy_policy" ∧
    detectDocumentType "Our COO\u212AIE notice".toList = "cookie_policy" :=
  ⟨analyzeDocument_documentType readyProvider failingSessions (some sampleDocument) none
    (analysisRecord ⟨[], none,
        some (JSValue.str "Failed to initialize AI analysis engine".toList)⟩
      (generateSummary failingSessions) (buildGlossary failingSessions)
      ⟨(checkAIAvailability readyProvider).1, sampleDocument⟩ sampleDocument none) rfl,
    by decide, by decide⟩

end Analyzer

namespace Analyzer

/-- The filter of `deduplicateArray` keeps the first occurrences whose key has not been
seen. -/
theorem deduplicateFrom_eq {α κ : Type} [DecidableEq κ] (key : α → κ) (l : List α) :
    ∀ seen : List κ,
      deduplicateFrom key seen l =
        (firstOccurrences key l).filter fun item => decide (key item ∉ seen) := by
  induction l with
  | nil => intro seen; rfl
  | cons x xs ih =>
    intro seen
    by_cases hx : key x ∈ seen
    · simp only [deduplicateFrom, hx, if_true, firstOccurrences, List.filter_cons,
        not_true_eq_false, decide_False, Bool.false_eq_true, if_false, List.filter_filter]
      rw [ih]
      apply List.filter_congr
      intro y _
      by_cases hy : key y ∈ seen
      · simp [hy]
      · have hne : key y ≠ key x := fun he => hy (he ▸ hx)
        simp [hy, hne]
    · simp only [deduplicateFrom, hx, if_false, firstOccurrences, List.filter_cons,
        not_false_eq_true, decide_True, if_true, List.filter_filter]
      rw [ih]
      congr 1
      apply List.filter_congr
      intro y _
      by_cases hy : key y ∈ seen
      · simp [hy]
      · by_cases hne : key y = key x
        · simp [hne]
        · simp [hy, hne]

/-- The function `deduplicateArray` keeps the first occurrence of every key. -/
theorem deduplicateArray_eq {α κ : Type} [DecidableEq κ] (key : α → κ) (l : List α) :
    deduplicateArray l key = firstOccurrences key l := by
  unfold deduplicateArray
  rw [deduplicateFrom_eq]
  simp

/-- The loop that fills a set keeps the first occurrences that are not in it yet. -/
theorem foldl_set_eq {α : Type} [DecidableEq α] (l : List α) :
    ∀ set : List α,
      l.foldl (fun set value => if value ∈ set then set else set ++ [value]) set =
        set ++ (firstOccurrences id l).filter fun item => decide (item ∉ set) := by
  induction l with
  | nil => intro set; simp [firstOccurrences]
  | cons x xs ih =>
    intro set
    rw [List.foldl_cons]
    by_cases hx : x ∈ set
    · simp only [hx, if_true, firstOccurrences, List.filter_cons, id, not_true_eq_false,
        decide_False, Bool.false_eq_true, if_false, List.filter_filter]
      rw [ih]
      congr 1
      apply List.filter_congr
      intro y _
      by_cases hy : y ∈ set
      · simp [hy]
      · have hne : y ≠ x := fun he => hy (he ▸ hx)
        simp [hy, hne]
    · simp only [hx, if_false, firstOccurrences, List.filter_cons, id, not_false_eq_true,
        decide_True, if_true, List.filter_filter]
      rw [ih, List.append_assoc, List.singleton_append]
      congr 2
      apply List.filter_congr
      intro y _
      by_cases hy : y ∈ set
      · simp [hy]
      · by_cases hne : y = x
        · simp [hne]
        · simp [hy, hne]

/-- The expression `[...new Set(array)]` keeps the first occurrence of every value. -/
theorem uniqueValues_eq {α : Type} [DecidableEq α] (l : List α) :
    uniqueValues l = firstOccurrences id l := by
  unfold uniqueValues
  rw [foldl_set_eq]
  simp

/-- The first occurrences are a sublist: the order of the items is preserved. -/
theorem firstOccurrences_sublist {α κ : Type} [DecidableEq κ] (key : α → κ) (l : List α) :
    (firstOccurrences key l).Sublist l := by
  induction l with
  | nil => exact List.Sublist.slnil
  | cons x xs ih =>
    simp only [firstOccurrences]
    exact (List.Sublist.trans (List.filter_sublist _) ih).cons₂ x

/-- The keys of the first occurrences are pairwise distinct. -/
theorem firstOccurrences_nodup {α κ : Type} [DecidableEq κ] (key : α → κ) (l : List α) :
    ((firstOccurrences key l).map key).Nodup := by
  induction l with
  | nil => exact List.nodup_nil
  | cons x xs ih =>
    simp only [firstOccurrences, List.map_cons, List.nodup_cons]
    constructor
    · intro hmem
      obtain ⟨y, hy, hk⟩ := List.mem_map.mp hmem
      have := (List.mem_filter.mp hy).2
      simp at this
      exact this hk
    · exact ih.sublist ((List.filter_sublist _).map key)

/-- Every key of the list is the key of a first occurrence. -/
theorem firstOccurrences_keys {α κ : Type} [DecidableEq κ] (key : α → κ) (l : List α) :
    ∀ x ∈ l, key x ∈ (firstOccurrences key l).map key := by
  induction l with
  | nil => intro x hx; simp at hx
  | cons a as ih =>
    intro x hx
    simp only [firstOccurrences, List.map_cons, List.mem_cons]
    by_cases hk : key x = key a
    · exact Or.inl hk
    · right
      rcases List.mem_cons.mp hx with h | h
      · exact absurd (h ▸ rfl) hk
      · obtain ⟨y, hy, hyk⟩ := List.mem_map.mp (ih x h)
        refine List.mem_map.mpr ⟨y, List.mem_filter.mpr ⟨hy, ?_⟩, hyk⟩
        simp [hyk, hk]

/-- Every key of the list occurs exactly once among the keys of the first occurrences. -/
theorem firstOccurrences_count {α κ : Type} [DecidableEq κ] (key : α → κ) (l : List α) :
    ∀ x ∈ l, ((firstOccurrences key l).map key).count (key x) = 1 := fun x hx =>
  List.count_eq_one_of_mem (firstOccurrences_nodup key l) (firstOccurrences_keys key l x hx)

/-- A loop that appends the three lists of every chunk concatenates them in chunk
order. -/
theorem foldl_collect (f : MergedResult → ChunkResult → MergedResult)
    (hf : ∀ m r, f m r =
      ⟨m.risks ++ r.risks.getD [], m.terms ++ r.terms.getD [],
        m.keyPoints ++ r.keyPoints.getD []⟩) :
    ∀ (l : List ChunkResult) (m : MergedResult),
      l.foldl f m =
        ⟨m.risks ++ (l.map fun r => r.risks.getD []).flatten,
          m.terms ++ (l.map fun r => r.terms.getD []).flatten,
          m.keyPoints ++ (l.map fun r => r.keyPoints.getD []).flatten⟩ := by
  intro l
  induction l with
  | nil => intro m; simp
  | cons r rs ih =>
    intro m
    rw [List.foldl_cons, ih, hf]
    simp

/-- The loop of `mergeChunkResults` concatenates the lists of the chunks in chunk order. -/
theorem collectChunkResults_eq (chunkResults : List ChunkResult) :
    collectChunkResults chunkResults =
      ⟨(chunkResults.map fun r => r.risks.getD []).flatten,
        (chunkResults.map fun r => r.terms.getD []).flatten,
        (chunkResults.map fun r => r.keyPoints.getD []).flatten⟩ := by
  unfold collectChunkResults
  rw [foldl_collect]
  · simp
  · intro m r
    cases r.risks <;> cases r.terms <;> cases r.keyPoints <;> simp

/-- C23: for every list of chunk results, each list of the merged result (risks by clause,
terms by term, key points by value) is the concatenation of the lists of the chunks, in
chunk order, with every item removed whose key already occurred earlier: the keys of the
merged list are pairwise distinct, the merged list is a sublist of the concatenation (first
occurrences kept, order preserved), and every clause, term and key point of an input
occurs exactly once in the output. -/
theorem mergeChunkResults_dedup (chunkResults : List ChunkResult) :
    (mergeChunkResults chunkResults).risks =
      firstOccurrences Finding.clause (chunkResults.map fun r => r.risks.getD []).flatten ∧
    (mergeChunkResults chunkResults).terms =
      firstOccurrences GlossaryTerm.term (chunkResults.map fun r => r.terms.getD []).flatten ∧
    (mergeChunkResults chunkResults).keyPoints =
      firstOccurrences id (chunkResults.map fun r => r.keyPoints.getD []).flatten ∧
    ((mergeChunkResults chunkResults).risks.map Finding.clause).Nodup ∧
    ((mergeChunkResults chunkResults).terms.map GlossaryTerm.term).Nodup ∧
    (mergeChunkResults chunkResults).keyPoints.Nodup ∧
    (mergeChunkResults chunkResults).risks.Sublist
      (chunkResults.map fun r => r.risks.getD []).flatten ∧
    (mergeChunkResults chunkResults).terms.Sublist
      (chunkResults.map fun r => r.terms.getD []).flatten ∧
    (mergeChunkResults chunkResults).keyPoints.Sublist
      (chunkResults.map fun r => r.keyPoints.getD []).flatten ∧
    (∀ risk ∈ (chunkResults.map fun r => r.risks.getD []).flatten,
      ((mergeChunkResults chunkResults).risks.map Finding.clause).count risk.clause = 1) ∧
    (∀ term ∈ (chunkResults.map fun r => r.terms.getD []).flatten,
      ((mergeChunkResults chunkResults).terms.map GlossaryTerm.term).count term.term = 1) ∧
    (∀ point ∈ (chunkResults.map fun r => r.keyPoints.getD []).flatten,
      (mergeChunkResults chunkResults).keyPoints.count point = 1) := by
  have hr : (mergeChunkResults chunkResults).risks =
      firstOccurrences Finding.clause (chunkResults.map fun r => r.risks.getD []).flatten := by
    unfold mergeChunkResults
    simp only [collectChunkResults_eq, deduplicateArray_eq]
  have ht : (mergeChunkResults chunkResults).terms =
      firstOccurrences GlossaryTerm.term (chunkResults.map fun r => r.terms.getD []).flatten := by
    unfold mergeChunkResults
    simp only [collectChunkResults_eq, deduplicateArray_eq]
  have hk : (mergeChunkResults chunkResults).keyPoints =
      firstOccurrences id (chunkResults.map fun r => r.keyPoints.getD []).flatten := by
    unfold mergeChunkResults
    simp only [collectChunkResults_eq, uniqueValues_eq]
  rw [hr, ht, hk]
  refine ⟨rfl, rfl, rfl, firstOccurrences_nodup _ _, firstOccurrences_nodup _ _, ?_,
    firstOccurrences_sublist _ _, firstOccurrences_sublist _ _, firstOccurrences_sublist _ _,
    firstOccurrences_count _ _, firstOccurrences_count _ _, ?_⟩
  · have := firstOccurrences_nodup (id : String → String)
      (chunkResults.map fun r => r.keyPoints.getD []).flatten
    simpa using this
  · intro point hp
    have := firstOccurrences_count (id : String → String)
      (chunkResults.map fun r => r.keyPoints.getD []).flatten point hp
    simpa using this

end Analyzer

namespace Analyzer

/-- Calls started on an empty cache all call `create`: the cache stays empty until a
creation completes. -/
theorem startRequests_empty : ∀ (n c : Nat),
    startRequests n ⟨none, c⟩ = ((List.range' c n).map Request.creating, ⟨none, c + n⟩) := by
  intro n
  induction n with
  | zero => intro c; rfl
  | succ n ih =>
    intro c
    simp only [startRequests, getPromptSessionStart, ih, List.range'_succ, List.map_cons]
    refine Prod.ext rfl ?_
    simp only [PromptCache.mk.injEq, true_and]
    omega

/-- Calls that await their creation each receive the session they created, and no further
`create` is called. -/
theorem resumeRequests_creating : ∀ (l : List Nat) (s : PromptCache),
    (resumeRequests (l.map Request.creating) s).1 = l ∧
      (resumeRequests (l.map Request.creating) s).2.created = s.created := by
  intro l
  induction l with
  | nil => intro s; exact ⟨rfl, rfl⟩
  | cons x xs ih =>
    intro s
    simp only [List.map_cons, resumeRequests, getPromptSessionResume]
    exact ⟨by rw [(ih _).1], by rw [(ih _).2]⟩

/-- Calls made on a filled cache receive the cached session and call no `create`. -/
theorem sequentialRequests_cached : ∀ (n x c : Nat),
    sequentialRequests n ⟨some x, c⟩ = (List.replicate n x, ⟨some x, c⟩) := by
  intro n
  induction n with
  | zero => intro x c; rfl
  | succ n ih =>
    intro x c
    simp only [sequentialRequests, getPromptSessionStart, getPromptSessionResume, ih,
      List.replicate_succ]

/-- C27: the prompt session is not created once per output language when several calls of
`getPromptSession` start while the cache is empty. Two calls started in one turn on the
empty cache, as `detectRisks` and `buildGlossary` are inside `Promise.all`, call `create`
twice and receive the different sessions 0 and 1, of which the cache keeps the second; `n`
such calls receive `n` different sessions from `n` calls of `create`. Only calls that each
complete before the next one starts share one session from one call of `create`. -/
theorem getPromptSession_creates_per_call :
    concurrentRequests 2 emptyCache = ([0, 1], ⟨some 1, 2⟩) ∧
    (∀ n : Nat, (concurrentRequests n emptyCache).1 = List.range n ∧
      (concurrentRequests n emptyCache).2.created = n) ∧
    (∀ n : Nat, sequentialRequests (n + 1) emptyCache =
      (List.replicate (n + 1) 0, ⟨some 0, 1⟩)) := by
  refine ⟨by decide, ?_, ?_⟩
  · intro n
    unfold concurrentRequests emptyCache
    simp only [startRequests_empty]
    refine ⟨?_, ?_⟩
    · rw [(resumeRequests_creating _ _).1, List.range_eq_range']
    · rw [(resumeRequests_creating _ _).2]
      simp
  · intro n
    simp only [sequentialRequests, emptyCache, getPromptSessionStart, getPromptSessionResume,
      sequentialRequests_cached, List.replicate_succ]

end Analyzer

namespace ContentScript

/-- C29: the quick check of the content script suppresses a page the classifier accepts.
For the URL `https://example.com/data-policy/privacy.html`, the title
`Privacy Policy, Cookie Policy and Terms of Use` and the body `fullBody`, `isLegalPage`
returns `isLegal = true` with confidence 0.77 and the quick check of the detector is true,
while the quick check of the content script is false: none of its eight patterns allows
the blank between the words of the title or matches `data-policy` or `privacy.html`. -/
theorem quickCheck_suppresses_legal_page :
    (Detector.isLegalPage gateUrl gateTitle Detector.fullBody).isLegal = true ∧
    (Detector.isLegalPage gateUrl gateTitle Detector.fullBody).confidence = F64.lit 77 100 ∧
    Detector.quickCheck gateUrl gateTitle = true ∧
    quickCheck gateUrl gateTitle = false := by
  have hu : (Detector.analyzeUrl gateUrl).score = F64.lit 4 10 := by decide!
  have ht : (Detector.analyzeTitle gateTitle).score = F64.lit 8 10 := by decide!
  have hc : (Detector.analyzeContent Detector.fullBody).score = 1 := by decide!
  have hs : (Detector.analyzeStructure Detector.fullBody).score = 1 := by decide!
  refine ⟨?_, ?_, by decide!, by decide!⟩
  · rw [Detector.isLegal_iff, hu, ht, hc, hs]
    decide!
  · simp only [Detector.isLegalPage, Detector.weightedConfidence_eq, hu, ht, hc, hs]
    decide!

end ContentScript

namespace Analyzer

/-- Trimming does not make a string longer. -/
theorem trim_length_le (s : JSString) : (JS.trim s).length ≤ s.length := by
  unfold JS.trim
  rw [List.length_reverse]
  exact le_trans (List.dropWhile_suffix _).length_le
    (by rw [List.length_reverse]; exact (List.dropWhile_suffix _).length_le)

/-- What is left of a string that ends with a blank, after its leading whitespace is
dropped, is empty or ends with that blank. -/
theorem dropWhile_append_space (a : JSString) :
    (a ++ [' ']).dropWhile JS.isSpace = [] ∨
      ∃ y, (a ++ [' ']).dropWhile JS.isSpace = y ++ [' '] ∧ y.length ≤ a.length := by
  induction a with
  | nil => left; decide
  | cons x xs ih =>
    by_cases hx : JS.isSpace x = true
    · rw [List.cons_append, List.dropWhile_cons_of_pos hx]
      rcases ih with h | ⟨y, hy, hl⟩
      · exact Or.inl h
      · exact Or.inr ⟨y, hy, by simp only [List.length_cons]; omega⟩
    · rw [List.cons_append, List.dropWhile_cons_of_neg hx]
      exact Or.inr ⟨x :: xs, rfl, le_refl _⟩

/-- Trimming a string that ends with a blank removes the blank. -/
theorem trim_append_space (a : JSString) : (JS.trim (a ++ [' '])).length ≤ a.length := by
  unfold JS.trim
  rw [List.length_reverse]
  rcases dropWhile_append_space a with h | ⟨y, hy, hl⟩
  · rw [h]
    simp
  · rw [hy, List.reverse_append, List.reverse_singleton, List.singleton_append,
      List.dropWhile_cons_of_pos (by decide)]
    exact le_trans (List.dropWhile_suffix _).length_le (by rw [List.length_reverse]; exact hl)

/-- Every piece of the split is at most as long as what has been read of it plus what is
left to read. -/
theorem splitSentencesAux_length : ∀ (cs cur : JSString) (inRun : Bool),
    ∀ s ∈ splitSentencesAux inRun cur cs, s.length ≤ cur.length + cs.length := by
  intro cs
  induction cs with
  | nil =>
    intro cur inRun s hs
    simp only [splitSentencesAux, List.mem_singleton] at hs
    rw [hs]
    simp
  | cons c cs ih =>
    intro cur inRun s hs
    simp only [splitSentencesAux] at hs
    split at hs
    · split at hs
      · have := ih cur true s hs
        simp only [List.length_cons]
        omega
      · rcases List.mem_cons.mp hs with h | h
        · rw [h]
          simp
        · have := ih [] true s h
          simp only [List.length_cons, List.length_nil] at this ⊢
          omega
    · have := ih (c :: cur) false s hs
      simp only [List.length_cons] at this ⊢
      omega

/-- The loop of `chunkText` keeps every chunk, and the trimmed current chunk, within one
code unit of the chunk size or of the longest sentence. -/
theorem chunkStep_invariant (chunkSize L : Nat) (sentences : List JSString)
    (h : ∀ s ∈ sentences, s.length ≤ L) :
    ∀ state : List JSString × JSString,
      ((∀ c ∈ state.1, c.length ≤ max chunkSize L + 1) ∧
        (JS.trim state.2).length ≤ max chunkSize L + 1) →
      ((∀ c ∈ (sentences.foldl (chunkStep chunkSize) state).1,
          c.length ≤ max chunkSize L + 1) ∧
        (JS.trim (sentences.foldl (chunkStep chunkSize) state).2).length ≤
          max chunkSize L + 1) := by
  induction sentences with
  | nil => intro state hinv; exact hinv
  | cons s rest ih =>
    intro state hinv
    rw [List.foldl_cons]
    apply ih (fun x hx => h x (List.mem_cons_of_mem s hx))
    have hs : s.length ≤ L := h s (List.mem_cons_self s rest)
    unfold chunkStep
    split
    · refine ⟨?_, ?_⟩
      · intro c hc
        rcases List.mem_append.mp hc with h1 | h1
        · exact hinv.1 c h1
        · rw [List.mem_singleton.mp h1]
          exact hinv.2
      · have := trim_length_le s
        have := le_max_right chunkSize L
        show (JS.trim s).length ≤ max chunkSize L + 1
        omega
    · rename_i hcond
      refine ⟨hinv.1, ?_⟩
      have he : state.2 ++ (s ++ ". ".toList) = (state.2 ++ s ++ ['.']) ++ [' '] := by
        simp
      show (JS.trim (state.2 ++ (s ++ ". ".toList))).length ≤ max chunkSize L + 1
      rw [he]
      have h1 := trim_append_space (state.2 ++ s ++ ['.'])
      simp only [List.length_append, List.length_singleton] at h1
      have h2 := le_max_right chunkSize L
      have h3 := le_max_left chunkSize L
      have h4 : state.2.length + s.length ≤ chunkSize ∨ state.2.length = 0 := by
        by_contra hne
        push_neg at hne
        exact hcond ⟨by omega, by omega⟩
      omega

/-- No chunk is longer than the chunk size or the longest sentence, plus one. -/
theorem chunkText_bound (text : JSString) (chunkSize L : Nat)
    (h : ∀ s ∈ splitSentences text, s.length ≤ L) :
    ∀ c ∈ chunkText text chunkSize, c.length ≤ max chunkSize L + 1 := by
  have hinv := chunkStep_invariant chunkSize L (splitSentences text) h ([], [])
    ⟨by simp, by simp [JS.trim]⟩
  intro c hc
  unfold chunkText at hc
  simp only at hc
  split at hc
  · exact hinv.1 c hc
  · rcases List.mem_append.mp hc with h1 | h1
    · exact hinv.1 c h1
    · rw [List.mem_singleton.mp h1]
      exact hinv.2

/-- C22: the chunks of `chunkText` can exceed the chunk size. The text `ab` with chunk size
2 gives the one chunk `ab.` of length 3, since the loop appends `. ` to a sentence that
fits exactly; the text `a. bbbbbbbb` with chunk size 3 gives the chunks `a.` and
`bbbbbbbb`, since a sentence longer than the chunk size becomes a chunk of its own. What
holds for every text and chunk size is that no chunk is longer than the larger of the
chunk size and the length of the text, plus one. -/
theorem chunkText_exceeds_chunkSize :
    chunkText "ab".toList 2 = ["ab.".toList] ∧
    chunkText "a. bbbbbbbb".toList 3 = ["a.".toList, "bbbbbbbb".toList] ∧
    (∀ (text : JSString) (chunkSize : Nat), ∀ c ∈ chunkText text chunkSize,
      c.length ≤ max chunkSize text.length + 1) := by
  refine ⟨by decide, by decide, ?_⟩
  intro text chunkSize
  apply chunkText_bound
  intro s hs
  have := splitSentencesAux_length text [] false s hs
  simpa using this

end Analyzer
